import Mathlib

/-!
# Space scene of the portfolio site: per-frame animation engine

Shallow embedding of `src/app/static/js/scene.js` (class `SpaceScene`).

JavaScript numbers are modelled by an ordered field `α`; the theorems are stated
for `α = ℝ` (exact real arithmetic, no rounding).  The functions of the JavaScript
`Math` object are not part of the repository and are passed to every definition as a
record `JsMath`; `Math.random()` is a stream `rand : Nat → α` of draws together with
the count of draws already consumed.
-/

namespace Portfolio

/-- The functions and the constant of the JavaScript `Math` object used by the scene. -/
structure JsMath (α : Type) where
  exp : α → α
  cos : α → α
  sin : α → α
  PI : α

/-- A `THREE.Vector3` (position or scale of an object). -/
structure Vector3 (α : Type) where
  x : α
  y : α
  z : α

/-- One entry of `debrisData` (createBlackHole, scene.js 509-514). -/
structure Debris (α : Type) where
  angle : α
  radius : α
  speed : α
  drift : α

/-- The `userData` record of a registry body.  A field that a body does not carry
(`undefined` in JavaScript) is `none` where the code tests it for truthiness; the
orbit fields `semiMajorAxis`, `semiMinorAxis`, `inclination`, `angle` are only read
when `speed` is truthy, and the only bodies with a `speed` (createExoticPlanet,
scene.js 339-346) carry all of them.  `moonPivot` and `clouds` hold the `rotation.y`
of the pivot group and of the cloud mesh; `debris` holds the position array of the
debris geometry. -/
structure UserData (α : Type) where
  name : Option String
  semiMajorAxis : α
  semiMinorAxis : α
  inclination : α
  speed : Option α
  angle : α
  moonPivot : Option α
  moonSpeed : α
  clouds : Option α
  debris : Option (List α)
  debrisData : Option (List (Debris α))

/-- An element of the registry `this.planets`. -/
structure Body (α : Type) where
  userData : UserData α
  position : Vector3 α
  rotationY : α
  scale : Vector3 α

/-- What one call of `animate` reads from its environment: the clock delta, whether
`this.analyser` is set, whether `this.ufoAudio.paused` holds, and the bytes that
`getByteFrequencyData` writes into `this.dataArray`. -/
structure Frame (α : Type) where
  delta : α
  analyser : Bool
  paused : Bool
  dataArray : List Nat

/-- The part of the scene state that `animate` updates: the smoothed audio values,
the registry, and the number of `Math.random()` draws consumed so far. -/
structure SpaceScene (α : Type) where
  bass : α
  mid : α
  treble : α
  planets : List (Body α)
  randomCalls : Nat

variable {α : Type} [LinearOrderedField α]

/-! ## Audio analysis (scene.js 178-182, 850-874) -/

/-- The value of `this.analyser.fftSize` set by initAudio. -/
def fftSize : Nat := 512

/-- The analyser's `frequencyBinCount` is half the FFT size (Web Audio API); it is the
length of `this.dataArray`. -/
def frequencyBinCount : Nat := fftSize / 2

/-- Indices visited by `for (let i = lo; i < hi; i++)`. -/
def loopIndices (lo hi : Nat) : List Nat := List.range' lo (hi - lo)

/-- Bins of `for (let i = 0; i < 10; i++)`. -/
def bassBins : List Nat := loopIndices 0 10

/-- Bins of `for (let i = 11; i < 100; i++)`. -/
def midBins : List Nat := loopIndices 11 100

/-- Bins of `for (let i = 101; i < 255; i++)`. -/
def trebleBins : List Nat := loopIndices 101 255

/-- The read `this.dataArray[i]`.  Every index read by `animate` is inside the array
(see `bins_inside`), so the default is never used for an array of
`frequencyBinCount` bytes. -/
def readByte (dataArray : List Nat) (i : Nat) : Nat := dataArray.getD i 0

/-- The accumulation `let sum = 0; for (...) sum += this.dataArray[i]`. -/
def sumBins (dataArray : List Nat) (bins : List Nat) : Nat :=
  bins.foldl (fun sum i => sum + readByte dataArray i) 0

/-- The guard `this.analyser && !this.ufoAudio.paused`. -/
def audioActive (f : Frame α) : Bool := f.analyser && !f.paused

/-- `targetBass` of animate. -/
def targetBass (f : Frame α) : α :=
  if audioActive f then ((sumBins f.dataArray bassBins : Nat) : α) / 10 / 255 else 0

/-- `targetMid` of animate. -/
def targetMid (f : Frame α) : α :=
  if audioActive f then ((sumBins f.dataArray midBins : Nat) : α) / 89 / 255 else 0

/-- `targetTreble` of animate. -/
def targetTreble (f : Frame α) : α :=
  if audioActive f then ((sumBins f.dataArray trebleBins : Nat) : α) / 154 / 255 else 0

/-- `const decay = 3.0`. -/
def decay : α := 3.0

/-- `const factor = 1.0 - Math.exp(-decay * delta)`. -/
def factor (m : JsMath α) (delta : α) : α := 1.0 - m.exp (-decay * delta)

/-- `value += (target - value) * factor`. -/
def smooth (m : JsMath α) (delta target value : α) : α :=
  value + (target - value) * factor m delta

/-! ## Planets and moons (scene.js 909-934) -/

/-- The guard in front of the scale pulse: the name differs from the four static names. -/
def pulses (name : Option String) : Bool :=
  name != some "Subterranean Homesick Alien" && name != some "Singularity" &&
    name != some "Gargantua" && name != some "Einstein-Rosen Bridge"

/-- Body of `if (p.userData.speed) { ... }` for a body whose speed is `speed`. -/
def orbitBody (m : JsMath α) (bass speed : α) (p : Body α) : Body α :=
  let angle := p.userData.angle + speed
  let x := p.userData.semiMajorAxis * m.cos angle
  let z := p.userData.semiMinorAxis * m.sin angle
  let y := z * m.sin p.userData.inclination
  let zRotated := z * m.cos p.userData.inclination
  let scale := 1.0 + bass * 0.8
  { userData :=
      { p.userData with
        angle := angle
        moonPivot := p.userData.moonPivot.map (fun r => r + p.userData.moonSpeed * 0.5)
        clouds := p.userData.clouds.map (fun r => r + 0.0008) }
    position := ⟨x, y, zRotated⟩
    rotationY := p.rotationY + 0.0005
    scale := if pulses p.userData.name then ⟨scale, scale, scale⟩ else p.scale }

/-- The orbit block of the `forEach` callback; `p.userData.speed` is truthy when it is
present and not zero. -/
def orbitStep (m : JsMath α) (bass : α) (p : Body α) : Body α :=
  match p.userData.speed with
  | none => p
  | some speed => if speed = 0 then p else orbitBody m bass speed p

/-! ## Black-hole debris (scene.js 496-514, 936-964) -/

/-- The number of particles created by createBlackHole. -/
def debrisCount : Nat := 600

/-- One iteration of the creation loop of createBlackHole, drawing from `rand` at
`k, k+1, ..., k+4`: the particle and its three buffer entries. -/
def createDebris (m : JsMath α) (rand : Nat → α) (k : Nat) : Debris α × List α :=
  let r := 10 + rand k * 25
  let theta := rand (k + 1) * m.PI * 2
  let y := (rand (k + 2) - 0.5) * 1.0
  ({ angle := theta
     radius := r
     speed := 0.002 + rand (k + 3) * 0.005
     drift := (rand (k + 4) - 0.5) * 0.02 },
   [r * m.cos theta, y, r * m.sin theta])

/-- The creation loop of createBlackHole for `n` particles: `debrisData` and `debrisPos`. -/
def createDebrisField (m : JsMath α) (rand : Nat → α) : Nat → Nat → List (Debris α) × List α
  | 0, _ => ([], [])
  | n + 1, k =>
    let c := createDebris m rand k
    let rest := createDebrisField m rand n (k + 5)
    (c.1 :: rest.1, c.2 ++ rest.2)

/-- The update of one particle `d` in the debris loop of animate, with `k` draws of
`Math.random()` consumed before it: the new particle and the new count of draws. -/
def debrisStep (m : JsMath α) (rand : Nat → α) (k : Nat) (d : Debris α) : Debris α × Nat :=
  let gravity := 5.0 / (d.radius * d.radius)
  let speed := d.speed + gravity * 0.01
  let angle := d.angle + speed
  let radius := d.radius - (0.05 + gravity * 2.0)
  if radius < 5.5 then
    ({ angle := rand (k + 1) * m.PI * 2
       radius := 25 + rand k * 10
       speed := 0.02 + rand (k + 2) * 0.03
       drift := d.drift }, k + 3)
  else
    ({ angle := angle, radius := radius, speed := speed, drift := d.drift }, k)

/-- The debris loop of animate from index `i` on: `ds` are the particles
`debrisData[i], debrisData[i+1], ...`; each is updated and its `x` and `z` are written
to `positions[i * 3]` and `positions[i * 3 + 2]`. -/
def debrisLoop (m : JsMath α) (rand : Nat → α) :
    List (Debris α) → Nat → Nat → List α → List (Debris α) × List α × Nat
  | [], _, k, positions => ([], positions, k)
  | d :: ds, i, k, positions =>
    let r := debrisStep m rand k d
    let x := r.1.radius * m.cos r.1.angle
    let z := r.1.radius * m.sin r.1.angle
    let rest := debrisLoop m rand ds (i + 1) r.2 ((positions.set (i * 3) x).set (i * 3 + 2) z)
    (r.1 :: rest.1, rest.2.1, rest.2.2)

/-- The block `if (p.userData.debris && p.userData.debrisData) { ... }`. -/
def debrisUpdate (m : JsMath α) (rand : Nat → α) (k : Nat) (p : Body α) : Body α × Nat :=
  match p.userData.debris, p.userData.debrisData with
  | some positions, some debrisData =>
    let r := debrisLoop m rand debrisData 0 k positions
    ({ p with userData := { p.userData with debris := some r.2.1, debrisData := some r.1 } },
     r.2.2)
  | _, _ => (p, k)

/-- The callback of `this.planets.forEach` for one body. -/
def updateBody (m : JsMath α) (rand : Nat → α) (bass : α) (k : Nat) (p : Body α) :
    Body α × Nat :=
  debrisUpdate m rand k (orbitStep m bass p)

/-- The loop `this.planets.forEach(p => ...)`, threading the count of random draws. -/
def planetsForEach (m : JsMath α) (rand : Nat → α) (bass : α) :
    List (Body α) → Nat → List (Body α) × Nat
  | [], k => ([], k)
  | p :: ps, k =>
    let r := updateBody m rand bass k p
    let rest := planetsForEach m rand bass ps r.2
    (r.1 :: rest.1, rest.2)

/-! ## The tick -/

/-- The fields `bass`, `mid`, `treble` as set by the constructor (scene.js 141-143),
for a registry `planets` built by `init`. -/
def SpaceScene.constructed (planets : List (Body α)) (randomCalls : Nat) : SpaceScene α :=
  { bass := 0, mid := 0, treble := 0, planets := planets, randomCalls := randomCalls }

/-- One call of `animate`, restricted to the state above: the audio analysis and
smoothing (scene.js 850-874), then the loop over the registry (scene.js 908-965) with
the smoothed bass of this tick. -/
def animate (m : JsMath α) (rand : Nat → α) (f : Frame α) (s : SpaceScene α) : SpaceScene α :=
  let bass := smooth m f.delta (targetBass f) s.bass
  let mid := smooth m f.delta (targetMid f) s.mid
  let treble := smooth m f.delta (targetTreble f) s.treble
  let r := planetsForEach m rand bass s.planets s.randomCalls
  { bass := bass, mid := mid, treble := treble, planets := r.1, randomCalls := r.2 }

/-- Consecutive calls of `animate`, one per frame. -/
def run (m : JsMath α) (rand : Nat → α) (frames : List (Frame α)) (s : SpaceScene α) :
    SpaceScene α :=
  frames.foldl (fun s f => animate m rand f s) s

/-- The data of a frame is a `Uint8Array` of `frequencyBinCount` entries: that many
values, each a byte. -/
def bytesOk (f : Frame α) : Prop :=
  f.dataArray.length = frequencyBinCount ∧ ∀ b ∈ f.dataArray, b ≤ 255

/-- The three smoothed values of a scene are in `[0, 1]`. -/
def EnvelopeInRange (s : SpaceScene ℝ) : Prop :=
  (0 ≤ s.bass ∧ s.bass ≤ 1) ∧ (0 ≤ s.mid ∧ s.mid ≤ 1) ∧ (0 ≤ s.treble ∧ s.treble ≤ 1)

/-! ## createBlackHole (scene.js 438-535) -/

/-- The number of `Math.random()` draws of createAccretionDiskTexture: two in each of
its 80 loop iterations (scene.js 554-560). -/
def accretionDiskDraws : Nat := 80 * 2

/-- The body built by createBlackHole with `k` draws consumed before it, and the count
of draws after it.  The draws are, in order: the polar radius, the polar angle, `z`,
those of createAccretionDiskTexture, and five for each debris particle. -/
def createBlackHole (m : JsMath α) (rand : Nat → α) (k : Nat) : Body α × Nat :=
  let minRadius : α := 40
  let maxRadius : α := 90
  let radius := minRadius + rand k * (maxRadius - minRadius)
  let angle := rand (k + 1) * m.PI * 2
  let x := radius * m.cos angle
  let y := (radius * m.sin angle) * 0.5
  let z := -60 - rand (k + 2) * 40
  let field := createDebrisField m rand debrisCount (k + 3 + accretionDiskDraws)
  ({ userData :=
       { name := some "Gargantua"
         semiMajorAxis := 0
         semiMinorAxis := 0
         inclination := 0
         speed := none
         angle := 0
         moonPivot := none
         moonSpeed := 0
         clouds := none
         debris := some field.2
         debrisData := some field.1 }
     position := ⟨x, y, z⟩
     rotationY := 0
     scale := ⟨1, 1, 1⟩ },
   k + 3 + accretionDiskDraws + debrisCount * 5)

/-- The body at index `i` carries a debris buffer and particles of radius `>= 5.5`. -/
def DebrisAbove (s : SpaceScene ℝ) (i : Nat) : Prop :=
  ∃ (q : Body ℝ) (positions : List ℝ) (ds : List (Debris ℝ)),
    s.planets[i]? = some q ∧ q.userData.debris = some positions ∧
    q.userData.debrisData = some ds ∧ ∀ d ∈ ds, (5.5 : ℝ) ≤ d.radius

/-! ## Picking (scene.js 973-985, 1003-1015) -/

/-- A scene-graph object as picking sees it: its `userData.name`, its local `position`
(relative to its parent), and the `rotation.y` and uniform `scale` that with the
position make up its local matrix. -/
structure SceneNode (α : Type) where
  name : Option String
  position : Vector3 α
  rotationY : α
  scale : α

/-- JavaScript truthiness of `obj.userData.name`: present and not the empty string. -/
def hasName : Option String → Bool
  | some n => n != ""
  | none => false

/-- The loop `while (obj.parent && !obj.userData.name) obj = obj.parent;` started at
`obj`, whose parent chain is `ancestors` (parent first, the scene root last; `[]` when
`obj.parent` is `null`).  It returns the final `obj` with its own parent chain. -/
def ancestorWalk : SceneNode α → List (SceneNode α) → SceneNode α × List (SceneNode α)
  | obj, [] => (obj, [])
  | obj, parent :: ancestors =>
    if !hasName obj.name then ancestorWalk parent ancestors else (obj, parent :: ancestors)

/-- A call of the hover callback: `this.onHover(name, position)` or `this.onHover(null)`. -/
inductive HoverCall (α : Type) where
  | named (name : String) (position : Vector3 α)
  | null

/-- The raycaster block at the end of animate: the calls of `this.onHover` it makes for
the list `intersects` of hits (nearest first), each hit object given with its parent
chain.  `project` is `v.project(this.camera)` of the 3D library. -/
def hoverCalls (project : Vector3 α → Vector3 α)
    (intersects : List (SceneNode α × List (SceneNode α))) : List (HoverCall α) :=
  match intersects with
  | [] => [HoverCall.null]
  | hit :: _ =>
    let obj := (ancestorWalk hit.1 hit.2).1
    match obj.name with
    | some n => if n != "" then [HoverCall.named n (project obj.position)] else []
    | none => []

/-- The local matrix of a node applied to a point of the node's frame: uniform scale,
then rotation about the y axis, then translation by the node's position (what the 3D
library composes from `position`, `rotation` and `scale`). -/
def applyMatrix (m : JsMath α) (n : SceneNode α) (v : Vector3 α) : Vector3 α :=
  ⟨n.position.x + n.scale * (m.cos n.rotationY * v.x + m.sin n.rotationY * v.z),
   n.position.y + n.scale * v.y,
   n.position.z + n.scale * (-(m.sin n.rotationY) * v.x + m.cos n.rotationY * v.z)⟩

/-- The position of `obj` in world space: its local position carried through the local
matrix of its parent, then of its grandparent, and so on up to the root. -/
def worldPosition (m : JsMath α) (obj : SceneNode α) (ancestors : List (SceneNode α)) :
    Vector3 α :=
  ancestors.foldl (fun v a => applyMatrix m a v) obj.position

/-! ## Scene graph, registry and transient actors
(scene.js 186-231, 264-392, 394-436, 438-535, 567-606, 719-813, 1056-1169, 1171-1257,
1287-1364) -/

/-- An object of the 3D scene graph: its identity (the `id` the 3D library gives to every
object it creates), its `userData.name`, and its children. -/
inductive Object3D where
  | mk (id : Nat) (name : Option String) (children : List Object3D)

/-- The identity of an object. -/
def Object3D.id : Object3D → Nat
  | .mk i _ _ => i

/-- The `userData.name` of an object. -/
def Object3D.name : Object3D → Option String
  | .mk _ n _ => n

/-- The children of an object. -/
def Object3D.children : Object3D → List Object3D
  | .mk _ _ cs => cs

/-- `parent.add(child)`: the child is appended to the children. -/
def Object3D.add : Object3D → Object3D → Object3D
  | .mk i n cs, child => .mk i n (cs ++ [child])

mutual
/-- The identities of an object and of all its descendants. -/
def Object3D.ids : Object3D → List Nat
  | .mk i _ cs => i :: Object3D.idsOfList cs
/-- The identities of the objects of a list and of all their descendants. -/
def Object3D.idsOfList : List Object3D → List Nat
  | [] => []
  | c :: cs => c.ids ++ Object3D.idsOfList cs
end

mutual
/-- The named objects among an object and its descendants, as identity and name. -/
def Object3D.named : Object3D → List (Nat × String)
  | .mk i (some n) cs => (i, n) :: Object3D.namedOfList cs
  | .mk _ none cs => Object3D.namedOfList cs
/-- The named objects among the objects of a list and their descendants. -/
def Object3D.namedOfList : List Object3D → List (Nat × String)
  | [] => []
  | c :: cs => c.named ++ Object3D.namedOfList cs
end

/-- An unnamed object without children (a mesh, a sprite, a light). -/
def leaf (id : Nat) : Object3D := .mk id none []

/-- A geometry or material, told apart by the object created with it and the name of
the variable that holds it. -/
structure Resource where
  owner : Nat
  label : String
deriving DecidableEq

/-- The state that building and spawning act on: `this.scene.children`, the registry
`this.planets`, the geometries and materials of transient actors that were created and
not disposed, and the identity the next created object gets. -/
structure SceneGraph where
  children : List Object3D
  planets : List Object3D
  live : List Resource
  nextId : Nat

/-- Removal of one object from an array by identity: `indexOf` followed by
`splice(index, 1)` when the index is not `-1` (also what `scene.remove` does). -/
def eraseId (id : Nat) : List Object3D → List Object3D
  | [] => []
  | o :: os => if o.id = id then os else o :: eraseId id os

/-- The call `resource.dispose()` for each of the listed resources. -/
def dispose (rs : List Resource) (live : List Resource) : List Resource :=
  live.filter (fun r => decide (r ∉ rs))

/-- The picking set: `raycaster.intersectObjects(this.planets, true)` tests the elements
of the registry and all their descendants. -/
def pickable (g : SceneGraph) (id : Nat) : Bool :=
  g.planets.any (fun r => r.ids.contains id)

/-- The object is in the scene: a child of the scene or a descendant of one. -/
def inScene (g : SceneGraph) (id : Nat) : Bool :=
  g.children.any (fun r => r.ids.contains id)

/-! ### Building the scene -/

/-- The part of createSun that builds the graph, for the drawn type name and its
`binary` flag: the named group is added to the scene. -/
def SceneGraph.createSun (typeName : String) (binary : Bool) (g : SceneGraph) : SceneGraph :=
  let id0 := g.nextId
  let stars :=
    if binary then
      [Object3D.mk (id0 + 1) none [leaf (id0 + 2)], Object3D.mk (id0 + 3) none [leaf (id0 + 4)],
        leaf (id0 + 5)]
    else [Object3D.mk (id0 + 1) none [leaf (id0 + 2)], leaf (id0 + 3)]
  let sunGroup := Object3D.mk id0 (some typeName) stars
  { g with children := g.children ++ [sunGroup], nextId := id0 + 1 + (if binary then 5 else 3) }

/-- The part of createBlackHole that builds the graph: the group with its sphere, photon
ring, disk and debris is added to the scene and pushed to the registry. -/
def SceneGraph.createBlackHole (g : SceneGraph) : SceneGraph :=
  let id0 := g.nextId
  let bhGroup := Object3D.mk id0 (some "Gargantua")
    [leaf (id0 + 1), leaf (id0 + 2), leaf (id0 + 3), leaf (id0 + 4)]
  { g with children := g.children ++ [bhGroup], planets := g.planets ++ [bhGroup],
           nextId := id0 + 5 }

/-- The part of createWormhole that builds the graph. -/
def SceneGraph.createWormhole (g : SceneGraph) : SceneGraph :=
  let id0 := g.nextId
  let whGroup := Object3D.mk id0 (some "Einstein-Rosen Bridge") [leaf (id0 + 1), leaf (id0 + 2)]
  { g with children := g.children ++ [whGroup], planets := g.planets ++ [whGroup],
           nextId := id0 + 3 }

/-- The part of createAsteroidBelt that builds the graph: the named belt is added to the
scene. -/
def SceneGraph.createAsteroidBelt (g : SceneGraph) : SceneGraph :=
  let id0 := g.nextId
  let belt := Object3D.mk id0 (some "Kuiper Belt") []
  { g with children := g.children ++ [belt], nextId := id0 + 1 }

/-- The outcomes of the random tests of createExoticPlanet that shape the graph: the
palette name, whether clouds, a ring and a second ring are made, and the type name of
the moon when one is made. -/
structure PlanetChoice where
  palette : String
  clouds : Bool
  ring : Bool
  secondRing : Bool
  moon : Option String

/-- The part of createExoticPlanet that builds the graph: the planet with its
atmosphere, clouds, rings and moon pivot (the named moon inside) is added to the scene
and pushed to the registry. -/
def SceneGraph.createExoticPlanet (index : Nat) (c : PlanetChoice) (g : SceneGraph) :
    SceneGraph :=
  let id0 := g.nextId
  let atmosphere := leaf (id0 + 1)
  let n1 := id0 + 2
  let clouds := if c.clouds then [leaf n1] else []
  let n2 := n1 + clouds.length
  let rings :=
    if c.ring then (if c.secondRing then [leaf n2, leaf (n2 + 1)] else [leaf n2]) else []
  let n3 := n2 + rings.length
  let moon :=
    match c.moon with
    | some typeName => [Object3D.mk (n3 + 1) none [Object3D.mk n3 (some typeName) []]]
    | none => []
  let n4 := n3 + 2 * moon.length
  let planet := Object3D.mk id0 (some (c.palette ++ " Planet " ++ toString (index + 1)))
    (atmosphere :: clouds ++ rings ++ moon)
  { g with children := g.children ++ [planet], planets := g.planets ++ [planet], nextId := n4 }

/-- Whether the characters `pattern` start the text. -/
def startsWith : List Char → List Char → Bool
  | [], _ => true
  | _ :: _, [] => false
  | p :: ps, c :: cs => p == c && startsWith ps cs

/-- The test `text.includes(pattern)` on the characters of the two strings. -/
def includes (pattern : List Char) : List Char → Bool
  | [] => pattern.isEmpty
  | c :: cs => startsWith pattern (c :: cs) || includes pattern cs

/-- The predicate of `this.planets.find` in addObjects:
`p.userData.name && p.userData.name.includes("Planet")`. -/
def isPlanet (o : Object3D) : Bool :=
  match o.name with
  | some n => n != "" && includes "Planet".toList n.toList
  | none => false

/-- The part of createSpaceStation that builds the graph: the named station is put in a
pivot and the pivot is added to the parent planet, the object with identity `parent`. -/
def SceneGraph.createSpaceStation (parent : Nat) (g : SceneGraph) : SceneGraph :=
  let id0 := g.nextId
  let stationGroup := Object3D.mk id0 (some "ISS Vanguard")
    [leaf (id0 + 1), leaf (id0 + 2), leaf (id0 + 3), leaf (id0 + 4)]
  let pivot := Object3D.mk (id0 + 5) none [stationGroup]
  let attach := fun (o : Object3D) => if o.id = parent then o.add pivot else o
  { g with children := g.children.map attach, planets := g.planets.map attach,
           nextId := id0 + 6 }

/-! ### Transient actors -/

/-- The geometries and materials created by spawnSpaceship. -/
def shipResources (id : Nat) : List Resource :=
  [⟨id, "hullGeo"⟩, ⟨id, "hullMat"⟩, ⟨id, "cockpitGeo"⟩, ⟨id, "cockpitMat"⟩, ⟨id, "wingGeo"⟩,
    ⟨id, "wingMat"⟩, ⟨id, "engineGeo"⟩, ⟨id, "engineMat"⟩, ⟨id, "trailGeo"⟩, ⟨id, "trailMat"⟩]

/-- The part of spawnSpaceship that acts on the graph: the unnamed group of eight meshes
is added to the scene; returns the new state and the group. -/
def spawnSpaceship (g : SceneGraph) : SceneGraph × Object3D :=
  let id0 := g.nextId
  let shipGroup := Object3D.mk id0 none
    [leaf (id0 + 1), leaf (id0 + 2), leaf (id0 + 3), leaf (id0 + 4), leaf (id0 + 5),
      leaf (id0 + 6), leaf (id0 + 7), leaf (id0 + 8)]
  ({ g with children := g.children ++ [shipGroup], live := g.live ++ shipResources id0,
            nextId := id0 + 9 }, shipGroup)

/-- The `onComplete` callback of the ship whose group has identity `id`. -/
def completeSpaceship (id : Nat) (g : SceneGraph) : SceneGraph :=
  { g with children := eraseId id g.children,
           live := dispose [⟨id, "hullGeo"⟩, ⟨id, "hullMat"⟩, ⟨id, "wingGeo"⟩, ⟨id, "wingMat"⟩,
             ⟨id, "engineGeo"⟩, ⟨id, "engineMat"⟩, ⟨id, "trailGeo"⟩, ⟨id, "trailMat"⟩] g.live }

/-- The geometries and materials created by spawnUFO. -/
def ufoResources (id : Nat) : List Resource :=
  [⟨id, "hullGeo"⟩, ⟨id, "hullMat"⟩, ⟨id, "cockpitGeo"⟩, ⟨id, "cockpitMat"⟩]

/-- The part of spawnUFO that acts on the graph: the named group is added to the scene
and pushed to the registry. -/
def spawnUFO (g : SceneGraph) : SceneGraph × Object3D :=
  let id0 := g.nextId
  let ufoGroup := Object3D.mk id0 (some "Subterranean Homesick Alien")
    [leaf (id0 + 1), leaf (id0 + 2)]
  ({ g with children := g.children ++ [ufoGroup], planets := g.planets ++ [ufoGroup],
            live := g.live ++ ufoResources id0, nextId := id0 + 3 }, ufoGroup)

/-- The `onComplete` callback of the UFO whose group has identity `id`. -/
def completeUFO (id : Nat) (g : SceneGraph) : SceneGraph :=
  { g with children := eraseId id g.children, planets := eraseId id g.planets }

/-- The geometries and materials created by spawnComet (`glowGeo` is the sprite
material). -/
def cometResources (id : Nat) : List Resource :=
  [⟨id, "headGeo"⟩, ⟨id, "headMat"⟩, ⟨id, "glowGeo"⟩, ⟨id, "tailGeo"⟩, ⟨id, "tailMat"⟩]

/-- The part of spawnComet that acts on the graph. -/
def spawnComet (g : SceneGraph) : SceneGraph × Object3D :=
  let id0 := g.nextId
  let cometGroup := Object3D.mk id0 (some "Halley\x27s Comet")
    [leaf (id0 + 1), leaf (id0 + 2), leaf (id0 + 3)]
  ({ g with children := g.children ++ [cometGroup], planets := g.planets ++ [cometGroup],
            live := g.live ++ cometResources id0, nextId := id0 + 4 }, cometGroup)

/-- The `onComplete` callback of the comet whose group has identity `id`. -/
def completeComet (id : Nat) (g : SceneGraph) : SceneGraph :=
  { g with children := eraseId id g.children, planets := eraseId id g.planets }

/-- The geometries and materials created by spawnNyanCat. -/
def nyanResources (id : Nat) : List Resource :=
  [⟨id, "catGeo"⟩, ⟨id, "catMat"⟩, ⟨id, "trailGeo"⟩, ⟨id, "trailMat"⟩]

/-- The part of spawnNyanCat that acts on the graph: the unnamed group of cat and trail
is added to the scene. -/
def spawnNyanCat (g : SceneGraph) : SceneGraph × Object3D :=
  let id0 := g.nextId
  let nyanGroup := Object3D.mk id0 none [leaf (id0 + 1), leaf (id0 + 2)]
  ({ g with children := g.children ++ [nyanGroup], live := g.live ++ nyanResources id0,
            nextId := id0 + 3 }, nyanGroup)

/-- The `onComplete` callback of the Nyan Cat whose group has identity `id`: the
geometry and material of the cat and of the trail are disposed. -/
def completeNyanCat (id : Nat) (g : SceneGraph) : SceneGraph :=
  { g with children := eraseId id g.children,
           live := dispose [⟨id, "catGeo"⟩, ⟨id, "catMat"⟩, ⟨id, "trailGeo"⟩, ⟨id, "trailMat"⟩]
             g.live }

/-- The four kinds of transient actor. -/
inductive ActorKind where
  | ship
  | ufo
  | comet
  | nyan
deriving DecidableEq

/-- The spawn function of a kind. -/
def spawn : ActorKind → SceneGraph → SceneGraph × Object3D
  | .ship => spawnSpaceship
  | .ufo => spawnUFO
  | .comet => spawnComet
  | .nyan => spawnNyanCat

/-- The completion callback of a kind for the actor with identity `id`. -/
def complete : ActorKind → Nat → SceneGraph → SceneGraph
  | .ship => completeSpaceship
  | .ufo => completeUFO
  | .comet => completeComet
  | .nyan => completeNyanCat

/-- What happens to the graph between ticks: a spawn (timer or trigger) or the
completion of the trajectory of an actor. -/
inductive Event where
  | spawn (kind : ActorKind)
  | complete (kind : ActorKind) (id : Nat)

/-- The effect of one event. -/
def step (g : SceneGraph) : Event → SceneGraph
  | .spawn kind => (spawn kind g).1
  | .complete kind id => complete kind id g

/-- The effect of a sequence of events. -/
def runEvents (events : List Event) (g : SceneGraph) : SceneGraph :=
  events.foldl step g

/-- The part of addObjects that builds the graph, for the drawn sun type and the eight
planet choices `choice 0 .. choice 7`: nebula and star field, sun, black hole, wormhole,
asteroid belt, the planets, the space station on the first registry element whose name
includes "Planet" (when the registry has more than four elements), and a first comet. -/
def addObjects (sunType : String) (binary : Bool) (choice : Nat → PlanetChoice)
    (g : SceneGraph) : SceneGraph :=
  let g1 : SceneGraph :=
    { g with children := g.children ++ [leaf g.nextId, leaf (g.nextId + 1)],
             nextId := g.nextId + 2 }
  let g2 := (((g1.createSun sunType binary).createBlackHole).createWormhole).createAsteroidBelt
  let g3 := (List.range 8).foldl (fun h i => h.createExoticPlanet i (choice i)) g2
  let g4 :=
    if g3.planets.length > 4 then
      match g3.planets.find? isPlanet with
      | some targetPlanet => g3.createSpaceStation targetPlanet.id
      | none => g3
    else g3
  (spawnComet g4).1

/-- Every object of the scene and of the registry was created before `nextId`, and no
array holds an object twice. -/
def WellFormed (g : SceneGraph) : Prop :=
  (∀ o ∈ g.children, o.id < g.nextId) ∧ (∀ o ∈ g.planets, o.id < g.nextId) ∧
    (g.children.map Object3D.id).Nodup ∧ (g.planets.map Object3D.id).Nodup

/-! ## Trajectories of the transient actors (scene.js 789-803, 1071-1085, 1146-1162) -/

/-- The start of a trajectory (`position.set(startX, startY, startZ)`) and the position
at which the tween of `gsap.to(position, ...)` ends: the coordinates named in the tween
take their end values, the others stay. -/
structure Trajectory (α : Type) where
  start : Vector3 α
  finish : Vector3 α

/-- The trajectory of spawnSpaceship, with `k` draws consumed before `startX`; the tween
names `x` only. -/
def spaceshipTrajectory (rand : Nat → α) (k : Nat) : Trajectory α :=
  let startX := (if rand k > 0.5 then 1 else -1) * 150
  let startY := (rand (k + 1) - 0.5) * 80
  let startZ := (rand (k + 2) - 0.5) * 50
  let endX := -startX
  { start := ⟨startX, startY, startZ⟩, finish := ⟨endX, startY, startZ⟩ }

/-- The trajectory of spawnUFO, with `k` draws consumed before `startX`; the tween names
`x`, `y` and `z`. -/
def ufoTrajectory (rand : Nat → α) (k : Nat) : Trajectory α :=
  let startX := (if rand k > 0.5 then 1 else -1) * 100
  let startY := (rand (k + 1) - 0.5) * 60
  let startZ := (rand (k + 2) - 0.5) * 60
  let endX := -startX
  let endY := (rand (k + 3) - 0.5) * 60
  let endZ := (rand (k + 4) - 0.5) * 60
  { start := ⟨startX, startY, startZ⟩, finish := ⟨endX, endY, endZ⟩ }

/-- The draws of the tail loop of spawnComet: three for each of the 50 tail points. -/
def cometTailDraws : Nat := 50 * 3

/-- The trajectory of spawnComet, with `k` draws consumed before the spawn (the tail
loop draws first); the tween names `x` and `y`. -/
def cometTrajectory (rand : Nat → α) (k : Nat) : Trajectory α :=
  let startX := (if rand (k + cometTailDraws) > 0.5 then 1 else -1) * 200
  let startY := (rand (k + cometTailDraws + 1) - 0.5) * 100
  let startZ := (rand (k + cometTailDraws + 2) - 0.5) * 100
  let endX := -startX
  let endY := startY + (rand (k + cometTailDraws + 3) - 0.5) * 50
  { start := ⟨startX, startY, startZ⟩, finish := ⟨endX, endY, startZ⟩ }

/-! ## Bloom (scene.js 834-842, 967-971, 1042-1053) -/

/-- The fields of `this.bloomPass` that the scene writes after its creation. -/
structure BloomPass (α : Type) where
  strength : α
  radius : α

/-- The values set by setupPostProcessing. -/
def setupPostProcessing : BloomPass α :=
  { strength := 0.8, radius := 0.5 }

/-- Section 5 of animate, `if (this.bloomPass) { strength = ...; radius = ... }`, run
right before `this.composer.render()`. -/
def animateBloom (bass mid : α) (bloomPass : Option (BloomPass α)) : Option (BloomPass α) :=
  bloomPass.map (fun _ => { strength := 0.8 + bass * 2.0, radius := 0.5 + mid * 0.5 })

/-- The end value of the bloom tween started by updateTheme: `isLight ? 0.0 : 0.6`. -/
def themeBloomTarget (isLight : Bool) : α :=
  if isLight then 0.0 else 0.6

/-- One update of the bloom tween of updateTheme: the tween library sets
`bloomPass.strength` to the value interpolated for the current time (the target at the
end of the 1.5 s). -/
def tweenWrite (value : α) (bloomPass : Option (BloomPass α)) : Option (BloomPass α) :=
  bloomPass.map (fun b => { b with strength := value })

/-- The bloom pass as `this.composer.render()` sees it at the end of a call of animate
that found it in state `bloomPass`. -/
def bloomAtRender (m : JsMath α) (rand : Nat → α) (f : Frame α) (s : SpaceScene α)
    (bloomPass : Option (BloomPass α)) : Option (BloomPass α) :=
  animateBloom (animate m rand f s).bass (animate m rand f s).mid bloomPass

/-! ## Camera and pointer (scene.js 892-906, 997-1001; main.js 16-31) -/

/-- A `THREE.Vector2` (the pointer in normalised device coordinates) or a pixel pair. -/
structure Vector2 (α : Type) where
  x : α
  y : α

/-- The camera target of section 3 of animate: the pointer times `1.5`, with the shake
offsets when the smoothed bass is above `0.4`; `time` is `performance.now() * 0.001`. -/
def cameraTarget (m : JsMath α) (bass time : α) (mouse : Vector2 α) : Vector2 α :=
  let targetX := mouse.x * 1.5
  let targetY := mouse.y * 1.5
  if bass > 0.4 then
    let shakeIntensity := (bass - 0.4) * 0.5
    ⟨targetX + m.sin (time * 20.0) * shakeIntensity,
     targetY + m.cos (time * 15.0) * shakeIntensity⟩
  else ⟨targetX, targetY⟩

/-- `coordinate += (target - coordinate) * 4.0 * delta`. -/
def cameraStep (delta target coordinate : α) : α :=
  coordinate + (target - coordinate) * 4.0 * delta

/-- The camera position after section 3 of animate: `x` and `y` are interpolated toward
the target, `z` is left as it was. -/
def animateCamera (m : JsMath α) (delta bass time : α) (mouse : Vector2 α)
    (camera : Vector3 α) : Vector3 α :=
  let target := cameraTarget m bass time mouse
  ⟨cameraStep delta target.x camera.x, cameraStep delta target.y camera.y, camera.z⟩

/-- The pointer mapping of onMouseMove for a window of `innerWidth` by `innerHeight`
and the pointer pixel `(clientX, clientY)`. -/
def pointerToNdc (innerWidth innerHeight clientX clientY : α) : Vector2 α :=
  ⟨(clientX / innerWidth) * 2 - 1, -(clientY / innerHeight) * 2 + 1⟩

/-- The label pixel of the hover callback of main.js for a projected position. -/
def labelPixel (innerWidth innerHeight : α) (position : Vector2 α) : Vector2 α :=
  ⟨(position.x * 0.5 + 0.5) * innerWidth, (-(position.y * 0.5) + 0.5) * innerHeight⟩

/-! ## Star colours (scene.js 239-262) -/

/-- The three colours of createStarField: `color1` (white), `color2` (blueish) and
`color3` (orangeish). -/
inductive StarColor where
  | white
  | blueish
  | orangeish
deriving DecidableEq

/-- The colour of a star for its draw `choice`:
`let c = color1; if (choice > 0.8) c = color2; else if (choice > 0.9) c = color3;`. -/
def starColor (choice : α) : StarColor :=
  if choice > 0.8 then StarColor.blueish
  else if choice > 0.9 then StarColor.orangeish
  else StarColor.white

/-! ## Konami code (main.js 66-93) -/

/-- The array `konamiCode`. -/
def konamiCode : List String :=
  ["ArrowUp", "ArrowUp", "ArrowDown", "ArrowDown", "ArrowLeft", "ArrowRight", "ArrowLeft",
    "ArrowRight", "b", "a"]

/-- `text.replace(pattern, '')` for a string pattern: the first occurrence of the
pattern is removed. -/
def removeFirst (pattern : List Char) : List Char → List Char
  | [] => []
  | c :: cs =>
    if startsWith pattern (c :: cs) then (c :: cs).drop pattern.length
    else c :: removeFirst pattern cs

/-- `key.toLowerCase().replace('arrow', '')`, as characters. -/
def mapKey (key : String) : List Char :=
  removeFirst "arrow".toList (key.toList.map Char.toLower)

/-- The state of the key handler: `konamiIndex`, and how many times the handler has
called `scene.spawnNyanCat()` and `achievements.unlock('konami_code')`. -/
structure KonamiState where
  konamiIndex : Nat
  activations : Nat
deriving DecidableEq

/-- The Konami part of the keydown handler for the key `key`.  The read
`konamiCode[konamiIndex]` is `undefined` outside the array and the call of
`toLowerCase` on it throws: the result is then `none`. -/
def keydown (key : String) (s : KonamiState) : Option KonamiState :=
  match konamiCode[s.konamiIndex]? with
  | none => none
  | some code =>
    let mappedKey := mapKey key
    let target := mapKey code
    if mappedKey = target then
      let konamiIndex := s.konamiIndex + 1
      if konamiIndex = konamiCode.length then
        some { konamiIndex := 0, activations := s.activations + 1 }
      else some { s with konamiIndex := konamiIndex }
    else
      some { s with konamiIndex := if mappedKey = mapKey (konamiCode.getD 0 "") then 1 else 0 }

/-- The handler run on a sequence of key presses. -/
def keydowns : List String → KonamiState → Option KonamiState
  | [], s => some s
  | key :: keys, s =>
    match keydown key s with
    | none => none
    | some s' => keydowns keys s'

/-- The state when the listener is installed: `let konamiIndex = 0`. -/
def konamiStart : KonamiState := { konamiIndex := 0, activations := 0 }

/-! ## Achievements (systems.js 79-99) -/

/-- The keys of `this.achievements`. -/
def achievementIds : List String :=
  ["first_contact", "konami_code", "theme_master", "explorer"]

/-- The property names that every object literal inherits from `Object.prototype` in
JavaScript; each holds a function or an object, hence a truthy value. -/
def objectPrototypeKeys : List String :=
  ["constructor", "hasOwnProperty", "isPrototypeOf", "propertyIsEnumerable",
    "toLocaleString", "toString", "valueOf", "__defineGetter__", "__defineSetter__",
    "__lookupGetter__", "__lookupSetter__", "__proto__"]

/-- Truthiness of the property read `this.achievements[id]`: an own key of the object
literal or a property found on its prototype. -/
def achievementLookup (id : String) : Bool :=
  achievementIds.contains id || objectPrototypeKeys.contains id

/-- The state of an AchievementManager and of what its `unlock` acts on: whether
`this.sfx` is set, the list `this.unlocked`, the list persisted under the key
'achievements' of the local storage, the ids for which a toast was shown, and the number
of calls of `playUnlock`. -/
structure AchievementManager where
  sfx : Bool
  unlocked : List String
  stored : Option (List String)
  toasts : List String
  sounds : Nat
deriving DecidableEq

/-- The method `unlock(id)`. -/
def AchievementManager.unlock (id : String) (a : AchievementManager) : AchievementManager :=
  if !a.unlocked.contains id && achievementLookup id then
    { a with
      unlocked := a.unlocked ++ [id]
      stored := some (a.unlocked ++ [id])
      toasts := a.toasts ++ [id]
      sounds := if a.sfx then a.sounds + 1 else a.sounds }
  else a

/-! ## Re-arming of the tick loop (scene.js 844-848, 987) -/

/-- The sub-steps of animate that follow its first statement, run in order on a scene
state `σ`; a sub-step that throws gives `none`, and the rest is not run.  The result is
the state reached and whether every sub-step completed. -/
def runSubsteps {σ : Type} : List (σ → Option σ) → σ → σ × Bool
  | [], s => (s, true)
  | step :: steps, s =>
    match step s with
    | none => (s, false)
    | some s' => runSubsteps steps s'

/-- The frame loop: the number of callbacks registered with `requestAnimationFrame` and
not yet run, and the scene state. -/
structure FrameLoop (σ : Type) where
  pending : Nat
  scene : σ

/-- One call of animate: its first statement `requestAnimationFrame(() => this.animate())`
registers the next call, then the sub-steps run. -/
def animateCall {σ : Type} (substeps : List (σ → Option σ)) (l : FrameLoop σ) :
    FrameLoop σ × Bool :=
  let armed : FrameLoop σ := { l with pending := l.pending + 1 }
  let r := runSubsteps substeps armed.scene
  ({ armed with scene := r.1 }, r.2)

/-- One display refresh: the browser takes a registered callback, if there is one, and
runs it; `substeps` are the sub-steps as they behave in this frame. -/
def frame {σ : Type} (substeps : List (σ → Option σ)) (l : FrameLoop σ) : FrameLoop σ :=
  if l.pending = 0 then l
  else (animateCall substeps { l with pending := l.pending - 1 }).1

/-- A sequence of display refreshes, each with its own behaviour of the sub-steps. -/
def frames {σ : Type} (behaviours : List (List (σ → Option σ))) (l : FrameLoop σ) :
    FrameLoop σ :=
  behaviours.foldl (fun l substeps => frame substeps l) l

/-! ## Theme value (main.js 5-8; scene.js 1042-1048)

The tween engine is a library outside the repository.  Its tweens are modelled as the
library documents them for `gsap.to(object, { val: target, duration, ease })` with the
default of no overwriting: a tween records the value it finds at its first update as
its start, writes `start + (target - start) * ease(progress)` at every update, the
running tweens being updated in the order of their creation, and is dropped once its
duration has elapsed.  The ease is a parameter. -/

/-- A running tween on `themeValue.val`: its target, the start value once recorded, and
the time elapsed since its creation. -/
structure Tween (α : Type) where
  target : α
  start : Option α
  elapsed : α

/-- The shared theme value `state.themeValue.val` and the tweens running on it, oldest
first. -/
structure ThemeState (α : Type) where
  val : α
  tweens : List (Tween α)

/-- The initial theme value of main.js:
`localStorage.getItem('theme') === 'light' ? 1 : 0`. -/
def initialTheme (stored : Option String) : ThemeState α :=
  { val := if stored = some "light" then 1 else 0, tweens := [] }

/-- The `duration: 1.5` of the tween of updateTheme. -/
def themeDuration : α := 1.5

/-- The first statement of updateTheme:
`gsap.to(this.themeValue, { val: isLight ? 1 : 0, duration: 1.5, ease: ... })`. -/
def updateTheme (isLight : Bool) (s : ThemeState α) : ThemeState α :=
  { s with tweens := s.tweens ++ [{ target := if isLight then 1 else 0, start := none,
                                    elapsed := 0 }] }

/-- One update of a tween after `dt` more seconds, the value being `val` before it: the
value it writes, and the tween if it keeps running. -/
def renderTween (ease : α → α) (dt val : α) (t : Tween α) : α × Option (Tween α) :=
  let start := t.start.getD val
  let elapsed := t.elapsed + dt
  if elapsed < themeDuration then
    (start + (t.target - start) * ease (elapsed / themeDuration),
     some { t with start := some start, elapsed := elapsed })
  else (start + (t.target - start) * ease 1, none)

/-- One update of the running tweens, oldest first: the value after the last write and
the tweens that keep running. -/
def renderTweens (ease : α → α) (dt : α) : List (Tween α) → α → α × List (Tween α)
  | [], val => (val, [])
  | t :: ts, val =>
    let r := renderTween ease dt val t
    let rest := renderTweens ease dt ts r.1
    (rest.1, r.2.toList ++ rest.2)

/-- The values written to `themeValue.val` during one update of the running tweens, in
the order of the writes; each is what the `onUpdate` callback of its tween copies to the
shader uniform. -/
def renderWrites (ease : α → α) (dt : α) : List (Tween α) → α → List α
  | [], _ => []
  | t :: ts, val =>
    (renderTween ease dt val t).1 :: renderWrites ease dt ts (renderTween ease dt val t).1

/-- One update of the tween engine after `dt` seconds. -/
def themeTick (ease : α → α) (dt : α) (s : ThemeState α) : ThemeState α :=
  { val := (renderTweens ease dt s.tweens s.val).1,
    tweens := (renderTweens ease dt s.tweens s.val).2 }

/-- What happens to the theme value: a call `updateTheme(isLight)` or an update of the
tween engine after `dt` seconds. -/
inductive ThemeEvent (α : Type) where
  | call (isLight : Bool)
  | tick (dt : α)

/-- The effect of one event. -/
def themeStep (ease : α → α) (s : ThemeState α) : ThemeEvent α → ThemeState α
  | .call isLight => updateTheme isLight s
  | .tick dt => themeTick ease dt s

/-- The effect of a sequence of events. -/
def runTheme (ease : α → α) (events : List (ThemeEvent α)) (s : ThemeState α) :
    ThemeState α :=
  events.foldl (themeStep ease) s

/-- The ease named "power2.inOut" of the tween library: cubic in and out. -/
def power2InOut (p : α) : α :=
  if p < 0.5 then (p * 2) ^ 3 / 2 else 1 - ((1 - p) * 2) ^ 3 / 2

/-- The value and every tween are inside the bounds: value, targets and recorded starts
in `[0, 1]`, elapsed times not negative. -/
def ThemeInRange (s : ThemeState ℝ) : Prop :=
  (0 ≤ s.val ∧ s.val ≤ 1) ∧
    ∀ t ∈ s.tweens, (0 ≤ t.target ∧ t.target ≤ 1) ∧
      (∀ a, t.start = some a → 0 ≤ a ∧ a ≤ 1) ∧ 0 ≤ t.elapsed

/-- The youngest tween has target `T` and has run for `e < 1.5` seconds, and no older
tween has run for less. -/
def Pending (s : ThemeState ℝ) (T e : ℝ) : Prop :=
  ∃ (older : List (Tween ℝ)) (last : Tween ℝ), s.tweens = older ++ [last] ∧
    last.target = T ∧ last.elapsed = e ∧ e < 1.5 ∧ ∀ t ∈ older, e ≤ t.elapsed

/-! ## Hits of the raycaster under the registry (scene.js 975)

`raycaster.intersectObjects(this.planets, true)` tests the elements of the registry and,
recursively, their descendants: every hit object is reached from a registry element by
walking down through children. -/

/-- The chain from a descendant of `o` up to `o`: the object reached from `o` by taking
the child of index `i` for each `i` of `path` in turn, then its parent, its grandparent
and so on, `o` last; `none` when an index names no child. -/
def chainTo : Object3D → List Nat → Option (List Object3D)
  | o, [] => some [o]
  | o, i :: path =>
    match o.children[i]? with
    | some child => (chainTo child path).map (fun chain => chain ++ [o])
    | none => none

/-- An object of the graph as picking sees it: its `userData.name`, with the position,
rotation and scale that `pose` gives for its identity. -/
def toSceneNode (pose : Nat → SceneNode α) (o : Object3D) : SceneNode α :=
  { pose o.id with name := o.name }

/-- A hit that `intersectObjects(this.planets, true)` can return: the object reached from
the registry element of index `k` along `path`, with its parent chain up to that element
followed by `above`, the parent chain of the element itself. -/
def registryHit (pose : Nat → SceneNode α) (g : SceneGraph) (k : Nat) (path : List Nat)
    (above : List (SceneNode α)) : Option (SceneNode α × List (SceneNode α)) :=
  match g.planets[k]? with
  | some r =>
    match chainTo r path with
    | some (hit :: parents) =>
      some (toSceneNode pose hit, parents.map (toSceneNode pose) ++ above)
    | _ => none
  | none => none

/-- Every element of the registry has a truthy `userData.name`. -/
def RegistryNamed (g : SceneGraph) : Prop :=
  ∀ o ∈ g.planets, hasName o.name = true

/-! ## Concrete inputs used to instantiate the theorems -/

/-- A frame of 1/50 s with no analyser. -/
def silentFrame : Frame α :=
  { delta := 1 / 50, analyser := false, paused := true, dataArray := [] }

/-- A frame of 1/50 s with audio playing and every bin at full scale. -/
def loudFrame : Frame α :=
  { delta := 1 / 50, analyser := true, paused := false, dataArray := List.replicate 256 255 }

/-- A frame with audio playing whose only non-zero bin is bin 10, at full scale. -/
def gapFrame : Frame α :=
  { delta := 1 / 50, analyser := true, paused := false,
    dataArray := List.replicate 10 0 ++ [255] ++ List.replicate 245 0 }

/-- An exotic planet as createExoticPlanet builds it for index 0 with draws
`0.6` (speed magnitude), a negative direction and `0` for the angle. -/
def retrogradePlanet : Body α :=
  { userData :=
      { name := some "Toxic Planet 1"
        semiMajorAxis := 22
        semiMinorAxis := 20
        inclination := 0
        speed := some (-0.0005)
        angle := 0
        moonPivot := none
        moonSpeed := 0
        clouds := none
        debris := none
        debrisData := none }
    position := ⟨0, 0, 0⟩
    rotationY := 0
    scale := ⟨1, 1, 1⟩ }

/-- A scene whose registry holds the single planet `retrogradePlanet`. -/
def onePlanetScene : SpaceScene α :=
  SpaceScene.constructed [retrogradePlanet] 0

/-- A debris particle at radius 20 with speed 0.003. -/
def demoDebris : Debris α :=
  { angle := 0, radius := 20, speed := 0.003, drift := 0.01 }

/-- A black hole as createBlackHole builds it, cut down to one debris particle. -/
def demoBlackHole : Body α :=
  { userData :=
      { name := some "Gargantua"
        semiMajorAxis := 0
        semiMinorAxis := 0
        inclination := 0
        speed := none
        angle := 0
        moonPivot := none
        moonSpeed := 0
        clouds := none
        debris := some [20, 0.25, 0]
        debrisData := some [demoDebris] }
    position := ⟨50, 10, -70⟩
    rotationY := 0
    scale := ⟨1, 1, 1⟩ }

/-- A scene whose registry holds the planet and the black hole. -/
def blackHoleScene : SpaceScene α :=
  SpaceScene.constructed [retrogradePlanet, demoBlackHole] 0

/-- The `THREE.Scene` at the top of every parent chain. -/
def sceneRoot : SceneNode α :=
  { name := none, position := ⟨0, 0, 0⟩, rotationY := 0, scale := 1 }

/-- A moon as createMoon builds it for a parent of size 1 and draw 0: named, at local
position `(5, 0, 0)` in its pivot. -/
def moonNode : SceneNode α :=
  { name := some "Rocky", position := ⟨5, 0, 0⟩, rotationY := 0, scale := 1 }

/-- The pivot group of a moon, turned by `rotationY`. -/
def pivotNode (rotationY : α) : SceneNode α :=
  { name := none, position := ⟨0, 0, 0⟩, rotationY := rotationY, scale := 1 }

/-- An exotic planet at `(22, 0, 0)`, turned by `rotationY`, at scale 1. -/
def planetNode (rotationY : α) : SceneNode α :=
  { name := some "Toxic Planet 1", position := ⟨22, 0, 0⟩, rotationY := rotationY, scale := 1 }

/-- An unnamed mesh (a ring of a planet, a hull of a ship). -/
def meshNode : SceneNode α :=
  { name := none, position := ⟨0, 0, 0⟩, rotationY := 0, scale := 1 }

/-- An unnamed group holding meshes. -/
def groupNode : SceneNode α :=
  { name := none, position := ⟨150, 10, 5⟩, rotationY := 0, scale := 1 }

/-- The state before anything is built. -/
def emptyGraph : SceneGraph :=
  { children := [], planets := [], live := [], nextId := 0 }

/-- Planet choices: every planet of palette "Toxic", planet 0 with clouds, one ring and
a "Rocky" moon, the others bare. -/
def demoChoice (index : Nat) : PlanetChoice :=
  if index = 0 then
    { palette := "Toxic", clouds := true, ring := true, secondRing := false,
      moon := some "Rocky" }
  else
    { palette := "Toxic", clouds := false, ring := false, secondRing := false, moon := none }

/-- The scene built by addObjects for a "Yellow Dwarf" sun and `demoChoice`, followed by
the spawn of a UFO. -/
def demoGraph : SceneGraph :=
  (spawnUFO (addObjects "Yellow Dwarf" false demoChoice emptyGraph)).1

/-- The stream of draws that are all `0`. -/
def zeroDraws : Nat → α := fun _ => 0

/-- Draws that are `1/4` at index 1 (the polar angle of createBlackHole started with no
draw consumed) and `0` elsewhere. -/
def quarterTurnDraws : Nat → α := fun n => if n = 1 then 1 / 4 else 0

/-- The particle `demoDebris` before and after one update with no draw consumed. -/
def demoStates (m : JsMath α) (rand : Nat → α) : Nat → Debris α :=
  fun i => if i = 0 then demoDebris else (debrisStep m rand 0 demoDebris).1

/-- Eleven key presses: one extra "ArrowUp" followed by the ten keys of the code. -/
def extraUpKeys : List String :=
  ["ArrowUp", "ArrowUp", "ArrowUp", "ArrowDown", "ArrowDown", "ArrowLeft", "ArrowRight",
    "ArrowLeft", "ArrowRight", "b", "a"]

/-- A manager with sound and nothing unlocked. -/
def freshManager : AchievementManager :=
  { sfx := true, unlocked := [], stored := none, toasts := [], sounds := 0 }

/-- A session that starts dark, asks for the light theme, then for the dark theme while
the first tween is running, with updates every half second. -/
def themeSession : List (ThemeEvent ℝ) :=
  [.call true, .tick 0.5, .call false, .tick 0.5]

/-! ## Lemmas on the registry loop -/

theorem planetsForEach_getElem? (m : JsMath α) (rand : Nat → α) (bass : α) :
    ∀ (ps : List (Body α)) (k i : Nat) (p : Body α), ps[i]? = some p →
      ∃ k', (planetsForEach m rand bass ps k).1[i]? = some (updateBody m rand bass k' p).1
  | [], _, _, _, h => by simp at h
  | q :: ps, k, 0, p, h => by
    simp at h; subst h; exact ⟨k, by simp [planetsForEach]⟩
  | q :: ps, k, i + 1, p, h => by
    simp at h
    obtain ⟨k', hk⟩ := planetsForEach_getElem? m rand bass ps _ i p h
    exact ⟨k', by simpa [planetsForEach] using hk⟩

theorem planetsForEach_length (m : JsMath α) (rand : Nat → α) (bass : α) :
    ∀ (ps : List (Body α)) (k : Nat), (planetsForEach m rand bass ps k).1.length = ps.length
  | [], _ => rfl
  | q :: ps, k => by simp [planetsForEach, planetsForEach_length m rand bass ps]

theorem animate_planet (m : JsMath α) (rand : Nat → α) (f : Frame α) (s : SpaceScene α)
    (i : Nat) (p : Body α) (hp : s.planets[i]? = some p) :
    ∃ k', (animate m rand f s).planets[i]? =
      some (updateBody m rand (animate m rand f s).bass k' p).1 := by
  obtain ⟨k', hk⟩ := planetsForEach_getElem? m rand
    (smooth m f.delta (targetBass f) s.bass) s.planets s.randomCalls i p hp
  exact ⟨k', by simpa [animate] using hk⟩

/-- The debris block leaves every field of a body except `debris` and `debrisData`
as it was. -/
theorem debrisUpdate_orbit (m : JsMath α) (rand : Nat → α) (k : Nat) (p : Body α) :
    (debrisUpdate m rand k p).1.position = p.position ∧
    (debrisUpdate m rand k p).1.scale = p.scale ∧
    (debrisUpdate m rand k p).1.userData.angle = p.userData.angle ∧
    (debrisUpdate m rand k p).1.userData.speed = p.userData.speed ∧
    (debrisUpdate m rand k p).1.userData.semiMajorAxis = p.userData.semiMajorAxis ∧
    (debrisUpdate m rand k p).1.userData.semiMinorAxis = p.userData.semiMinorAxis ∧
    (debrisUpdate m rand k p).1.userData.inclination = p.userData.inclination ∧
    (debrisUpdate m rand k p).1.userData.name = p.userData.name := by
  unfold debrisUpdate
  split <;> simp

/-- What the callback does to a body with a truthy speed. -/
theorem updateBody_orbit (m : JsMath α) (rand : Nat → α) (bass : α) (k : Nat) (p : Body α)
    (speed : α) (hs : p.userData.speed = some speed) (h0 : speed ≠ 0) :
    (updateBody m rand bass k p).1.userData.speed = some speed ∧
    (updateBody m rand bass k p).1.userData.angle = p.userData.angle + speed ∧
    (updateBody m rand bass k p).1.userData.semiMajorAxis = p.userData.semiMajorAxis ∧
    (updateBody m rand bass k p).1.userData.semiMinorAxis = p.userData.semiMinorAxis ∧
    (updateBody m rand bass k p).1.userData.inclination = p.userData.inclination ∧
    (updateBody m rand bass k p).1.position =
      ⟨p.userData.semiMajorAxis * m.cos (p.userData.angle + speed),
       p.userData.semiMinorAxis * m.sin (p.userData.angle + speed) *
         m.sin p.userData.inclination,
       p.userData.semiMinorAxis * m.sin (p.userData.angle + speed) *
         m.cos p.userData.inclination⟩ := by
  obtain ⟨h1, -, h3, h4, h5, h6, h7, -⟩ := debrisUpdate_orbit m rand k (orbitStep m bass p)
  have ho : orbitStep m bass p = orbitBody m bass speed p := by
    simp [orbitStep, hs, h0]
  unfold updateBody
  rw [h1, h3, h4, h5, h6, h7, ho]
  simp [orbitBody, hs]

/-! ## Lemmas on the smoothing filter -/

theorem smooth_real (cos sin : ℝ → ℝ) (PI : ℝ) (delta target value : ℝ) :
    smooth ⟨Real.exp, cos, sin, PI⟩ delta target value =
      target + (value - target) * Real.exp (-3 * delta) := by
  simp only [smooth, factor, decay]
  norm_num
  ring

theorem exp_decay_le_one (delta : ℝ) (hd : 0 ≤ delta) : Real.exp (-3 * delta) ≤ 1 := by
  rw [Real.exp_le_one_iff]
  linarith

theorem run_cons (m : JsMath α) (rand : Nat → α) (f : Frame α) (fs : List (Frame α))
    (s : SpaceScene α) : run m rand (f :: fs) s = run m rand fs (animate m rand f s) := rfl

theorem run_nil (m : JsMath α) (rand : Nat → α) (s : SpaceScene α) :
    run m rand [] s = s := rfl

/-- Closed form of a run of the filter on one of the three values, for a field
selector `get` that `animate` updates by `smooth` toward `target`. -/
theorem run_closed_form (cos sin : ℝ → ℝ) (PI : ℝ) (rand : Nat → ℝ)
    (get : SpaceScene ℝ → ℝ) (target : Frame ℝ → ℝ)
    (hstep : ∀ f s, get (animate ⟨Real.exp, cos, sin, PI⟩ rand f s) =
      smooth ⟨Real.exp, cos, sin, PI⟩ f.delta (target f) (get s))
    (T : ℝ) (frames : List (Frame ℝ)) (hT : ∀ f ∈ frames, target f = T) (s : SpaceScene ℝ) :
    get (run ⟨Real.exp, cos, sin, PI⟩ rand frames s) - T =
      (get s - T) * Real.exp (-3 * (frames.map Frame.delta).sum) := by
  induction frames generalizing s with
  | nil => simp [run_nil]
  | cons f fs ih =>
    rw [run_cons, ih (fun g hg => hT g (List.mem_cons_of_mem _ hg)), hstep, smooth_real,
      hT f (List.mem_cons_self _ _)]
    simp only [List.map_cons, List.sum_cons]
    rw [show -3 * (f.delta + (fs.map Frame.delta).sum) =
      -3 * f.delta + -3 * (fs.map Frame.delta).sum by ring, Real.exp_add]
    ring

/-- For every tolerance there is an elapsed time after which a decayed distance is
below it. -/
theorem decay_below (c ε : ℝ) (hε : 0 < ε) :
    ∃ D : ℝ, ∀ t : ℝ, D ≤ t → |c * Real.exp (-3 * t)| < ε := by
  have hc : 0 < |c| + 1 := by positivity
  refine ⟨Real.log ((|c| + 1) / ε) / 3, fun t ht => ?_⟩
  have h1 : Real.exp (-3 * t) ≤ ε / (|c| + 1) := by
    have h2 : -3 * t ≤ Real.log (ε / (|c| + 1)) := by
      have : Real.log (ε / (|c| + 1)) = -Real.log ((|c| + 1) / ε) := by
        rw [← Real.log_inv, inv_div]
      rw [this]
      linarith
    calc Real.exp (-3 * t) ≤ Real.exp (Real.log (ε / (|c| + 1))) := Real.exp_le_exp.mpr h2
      _ = ε / (|c| + 1) := Real.exp_log (by positivity)
  rw [abs_mul, abs_of_pos (Real.exp_pos _)]
  calc |c| * Real.exp (-3 * t) ≤ |c| * (ε / (|c| + 1)) :=
        mul_le_mul_of_nonneg_left h1 (abs_nonneg c)
    _ < (|c| + 1) * (ε / (|c| + 1)) := by
        apply mul_lt_mul_of_pos_right (by linarith) (by positivity)
    _ = ε := by field_simp

/-! ## Lemmas on the band sums and the envelope -/

theorem foldl_add_eq_sum (g : Nat → Nat) :
    ∀ (bins : List Nat) (acc : Nat),
      bins.foldl (fun sum i => sum + g i) acc = acc + (bins.map g).sum
  | [], acc => by simp
  | i :: bins, acc => by
    simp only [List.foldl_cons, List.map_cons, List.sum_cons]
    rw [foldl_add_eq_sum g bins]
    omega

theorem sumBins_eq_sum (dataArray bins : List Nat) :
    sumBins dataArray bins = (bins.map (readByte dataArray)).sum := by
  simp [sumBins, foldl_add_eq_sum]

theorem readByte_le (dataArray : List Nat) (h : ∀ b ∈ dataArray, b ≤ 255) (i : Nat) :
    readByte dataArray i ≤ 255 := by
  unfold readByte
  rw [List.getD_eq_getElem?_getD]
  cases hi : dataArray[i]? with
  | none => simp
  | some b => simpa using h b (List.getElem?_mem hi)

theorem sumBins_le (dataArray : List Nat) (h : ∀ b ∈ dataArray, b ≤ 255) :
    ∀ bins : List Nat, sumBins dataArray bins ≤ 255 * bins.length := by
  intro bins
  rw [sumBins_eq_sum]
  induction bins with
  | nil => simp
  | cons i bins ih =>
    simp only [List.map_cons, List.sum_cons, List.length_cons]
    have := readByte_le dataArray h i
    omega

theorem bins_length :
    bassBins.length = 10 ∧ midBins.length = 89 ∧ trebleBins.length = 154 := by
  simp only [bassBins, midBins, trebleBins, loopIndices, List.length_range', and_self]

/-- The three bands as the loops have them: the contiguous index ranges `[0, 10)`,
`[11, 100)` and `[101, 255)`; no bin belongs to two bands, and the bins of the
256-entry array that belong to no band are exactly 10, 100 and 255. -/
theorem bands_contiguous_disjoint :
    (∀ i, i ∈ bassBins ↔ i < 10) ∧
    (∀ i, i ∈ midBins ↔ 11 ≤ i ∧ i < 100) ∧
    (∀ i, i ∈ trebleBins ↔ 101 ≤ i ∧ i < 255) ∧
    (∀ i, ¬ (i ∈ bassBins ∧ i ∈ midBins) ∧ ¬ (i ∈ bassBins ∧ i ∈ trebleBins) ∧
      ¬ (i ∈ midBins ∧ i ∈ trebleBins)) ∧
    (∀ i, i < frequencyBinCount →
      ((i ∉ bassBins ∧ i ∉ midBins ∧ i ∉ trebleBins) ↔ (i = 10 ∨ i = 100 ∨ i = 255))) := by
  simp only [bassBins, midBins, trebleBins, loopIndices, List.mem_range'_1,
    frequencyBinCount, fftSize]
  refine ⟨fun i => ?_, fun i => ?_, fun i => ?_, fun i => ?_, fun i hi => ?_⟩ <;>
    first | trivial | omega

/-- Every index read by the three loops is below `frequencyBinCount`. -/
theorem bins_inside (i : Nat) (h : i ∈ bassBins ++ midBins ++ trebleBins) :
    i < frequencyBinCount := by
  simp only [bassBins, midBins, trebleBins, loopIndices, List.mem_append,
    List.mem_range'_1, frequencyBinCount, fftSize] at *
  omega

/-- The three targets of a frame are in `[0, 1]` when the data are bytes. -/
theorem targets_unit (f : Frame ℝ) (h : audioActive f = true → ∀ b ∈ f.dataArray, b ≤ 255) :
    (0 ≤ targetBass f ∧ targetBass f ≤ 1) ∧ (0 ≤ targetMid f ∧ targetMid f ≤ 1) ∧
      (0 ≤ targetTreble f ∧ targetTreble f ≤ 1) := by
  unfold targetBass targetMid targetTreble
  by_cases ha : audioActive f = true
  · have h1 := sumBins_le f.dataArray (h ha) bassBins
    have h2 := sumBins_le f.dataArray (h ha) midBins
    have h3 := sumBins_le f.dataArray (h ha) trebleBins
    obtain ⟨l1, l2, l3⟩ := bins_length
    rw [l1] at h1
    rw [l2] at h2
    rw [l3] at h3
    have c1 : ((sumBins f.dataArray bassBins : Nat) : ℝ) ≤ 255 * 10 := by exact_mod_cast h1
    have c2 : ((sumBins f.dataArray midBins : Nat) : ℝ) ≤ 255 * 89 := by exact_mod_cast h2
    have c3 : ((sumBins f.dataArray trebleBins : Nat) : ℝ) ≤ 255 * 154 := by
      exact_mod_cast h3
    simp only [ha, if_true]
    have nn : ∀ (a : Nat) (c : ℝ), 0 < c → 0 ≤ (a : ℝ) / c / 255 := fun a c hc =>
      div_nonneg (div_nonneg (Nat.cast_nonneg a) hc.le) (by norm_num)
    refine ⟨⟨nn _ _ (by norm_num), ?_⟩, ⟨nn _ _ (by norm_num), ?_⟩,
      ⟨nn _ _ (by norm_num), ?_⟩⟩
    · rw [div_div, div_le_one (by norm_num)]; linarith
    · rw [div_div, div_le_one (by norm_num)]; linarith
    · rw [div_div, div_le_one (by norm_num)]; linarith
  · simp [ha]

/-- A smoothing step with a delta `>= 0` keeps a value of `[0, 1]` in `[0, 1]` when the
target is in `[0, 1]`. -/
theorem smooth_unit (cos sin : ℝ → ℝ) (PI : ℝ) (delta target value : ℝ) (hd : 0 ≤ delta)
    (ht : 0 ≤ target ∧ target ≤ 1) (hv : 0 ≤ value ∧ value ≤ 1) :
    0 ≤ smooth ⟨Real.exp, cos, sin, PI⟩ delta target value ∧
      smooth ⟨Real.exp, cos, sin, PI⟩ delta target value ≤ 1 := by
  have he1 := exp_decay_le_one delta hd
  have he0 := Real.exp_pos (-3 * delta)
  rw [smooth_real]
  constructor
  · nlinarith [mul_nonneg ht.1 (sub_nonneg.mpr he1), mul_nonneg hv.1 he0.le]
  · nlinarith [mul_nonneg (sub_nonneg.mpr ht.2) (sub_nonneg.mpr he1),
      mul_nonneg (sub_nonneg.mpr hv.2) he0.le]

theorem run_envelopeInRange (cos sin : ℝ → ℝ) (PI : ℝ) (rand : Nat → ℝ) :
    ∀ (frames : List (Frame ℝ)) (s : SpaceScene ℝ),
      (∀ f ∈ frames, 0 ≤ f.delta) →
      (∀ f ∈ frames, audioActive f = true → bytesOk f) →
      EnvelopeInRange s → EnvelopeInRange (run ⟨Real.exp, cos, sin, PI⟩ rand frames s)
  | [], _, _, _, hs => hs
  | f :: fs, s, hd, hb, hs => by
    rw [run_cons]
    apply run_envelopeInRange cos sin PI rand fs _
      (fun g hg => hd g (List.mem_cons_of_mem _ hg))
      (fun g hg => hb g (List.mem_cons_of_mem _ hg))
    obtain ⟨t1, t2, t3⟩ := targets_unit f
      (fun ha => (hb f (List.mem_cons_self _ _) ha).2)
    have hd0 := hd f (List.mem_cons_self _ _)
    exact ⟨smooth_unit cos sin PI _ _ _ hd0 t1 hs.1,
      smooth_unit cos sin PI _ _ _ hd0 t2 hs.2.1,
      smooth_unit cos sin PI _ _ _ hd0 t3 hs.2.2⟩

theorem targets_silent (f : Frame ℝ) (h : f.analyser = false ∨ f.paused = true) :
    targetBass f = 0 ∧ targetMid f = 0 ∧ targetTreble f = 0 := by
  have ha : audioActive f = false := by
    rcases h with h | h <;> simp [audioActive, h]
  simp [targetBass, targetMid, targetTreble, ha]

theorem run_silent_zero (cos sin : ℝ → ℝ) (PI : ℝ) (rand : Nat → ℝ) :
    ∀ (frames : List (Frame ℝ)) (s : SpaceScene ℝ),
      (∀ f ∈ frames, f.analyser = false) →
      s.bass = 0 ∧ s.mid = 0 ∧ s.treble = 0 →
      (run ⟨Real.exp, cos, sin, PI⟩ rand frames s).bass = 0 ∧
      (run ⟨Real.exp, cos, sin, PI⟩ rand frames s).mid = 0 ∧
      (run ⟨Real.exp, cos, sin, PI⟩ rand frames s).treble = 0
  | [], _, _, hs => hs
  | f :: fs, s, hf, hs => by
    rw [run_cons]
    apply run_silent_zero cos sin PI rand fs _ (fun g hg => hf g (List.mem_cons_of_mem _ hg))
    obtain ⟨t1, t2, t3⟩ := targets_silent f (Or.inl (hf f (List.mem_cons_self _ _)))
    simp only [animate, smooth_real, t1, t2, t3, hs.1, hs.2.1, hs.2.2]
    simp

/-! ## Lemmas on the debris loop -/

theorem debrisLoop_length (m : JsMath α) (rand : Nat → α) :
    ∀ (ds : List (Debris α)) (i k : Nat) (positions : List α),
      (debrisLoop m rand ds i k positions).1.length = ds.length ∧
      (debrisLoop m rand ds i k positions).2.1.length = positions.length
  | [], _, _, _ => ⟨rfl, rfl⟩
  | d :: ds, i, k, positions => by
    obtain ⟨h1, h2⟩ := debrisLoop_length m rand ds (i + 1) (debrisStep m rand k d).2
      ((positions.set (i * 3) ((debrisStep m rand k d).1.radius *
        m.cos (debrisStep m rand k d).1.angle)).set (i * 3 + 2)
        ((debrisStep m rand k d).1.radius * m.sin (debrisStep m rand k d).1.angle))
    simp only [debrisLoop, List.length_cons, h1, h2, List.length_set, and_self]

/-- The loop from index `i` on leaves the buffer entries below `i * 3` as they were. -/
theorem debrisLoop_frame (m : JsMath α) (rand : Nat → α) :
    ∀ (ds : List (Debris α)) (i k : Nat) (positions : List α) (n : Nat), n < i * 3 →
      (debrisLoop m rand ds i k positions).2.1[n]? = positions[n]?
  | [], _, _, _, _, _ => rfl
  | d :: ds, i, k, positions, n, hn => by
    simp only [debrisLoop]
    rw [debrisLoop_frame m rand ds (i + 1) _ _ n (by omega),
      List.getElem?_set_ne (by omega), List.getElem?_set_ne (by omega)]

/-- What the loop does for the particle at offset `j`: it is replaced by its
`debrisStep`, whose `x` and `z` are in the buffer at the end of the loop, and the
entry between them is untouched. -/
theorem debrisLoop_getElem? (m : JsMath α) (rand : Nat → α) :
    ∀ (ds : List (Debris α)) (i k : Nat) (positions : List α) (j : Nat) (d : Debris α),
      ds[j]? = some d →
      ∃ k', (debrisLoop m rand ds i k positions).1[j]? = some (debrisStep m rand k' d).1 ∧
        ((i + j) * 3 + 2 < positions.length →
          (debrisLoop m rand ds i k positions).2.1[(i + j) * 3]? =
            some ((debrisStep m rand k' d).1.radius * m.cos (debrisStep m rand k' d).1.angle) ∧
          (debrisLoop m rand ds i k positions).2.1[(i + j) * 3 + 2]? =
            some ((debrisStep m rand k' d).1.radius *
              m.sin (debrisStep m rand k' d).1.angle)) ∧
        (debrisLoop m rand ds i k positions).2.1[(i + j) * 3 + 1]? =
          positions[(i + j) * 3 + 1]?
  | [], _, _, _, _, _, h => by simp at h
  | e :: ds, i, k, positions, 0, d, h => by
    simp only [List.getElem?_cons_zero, Option.some.injEq] at h
    subst h
    refine ⟨k, by simp [debrisLoop], fun hlen => ⟨?_, ?_⟩, ?_⟩
    · simp only [debrisLoop, Nat.add_zero]
      rw [debrisLoop_frame m rand ds (i + 1) _ _ _ (by omega),
        List.getElem?_set_ne (by omega), List.getElem?_set_self (by omega)]
    · simp only [debrisLoop, Nat.add_zero]
      rw [debrisLoop_frame m rand ds (i + 1) _ _ _ (by omega),
        List.getElem?_set_self (by simp only [List.length_set]; omega)]
    · simp only [debrisLoop, Nat.add_zero]
      rw [debrisLoop_frame m rand ds (i + 1) _ _ _ (by omega),
        List.getElem?_set_ne (by omega), List.getElem?_set_ne (by omega)]
  | e :: ds, i, k, positions, j + 1, d, h => by
    simp only [List.getElem?_cons_succ] at h
    obtain ⟨k', h1, h2, h3⟩ := debrisLoop_getElem? m rand ds (i + 1) (debrisStep m rand k e).2
      ((positions.set (i * 3) ((debrisStep m rand k e).1.radius *
        m.cos (debrisStep m rand k e).1.angle)).set (i * 3 + 2)
        ((debrisStep m rand k e).1.radius * m.sin (debrisStep m rand k e).1.angle)) j d h
    have hij : i + 1 + j = i + (j + 1) := by omega
    rw [hij] at h2 h3
    refine ⟨k', by simpa [debrisLoop] using h1, fun hlen => ?_, ?_⟩
    · simpa [debrisLoop] using h2 (by simpa using hlen)
    · simp only [debrisLoop]
      rw [h3, List.getElem?_set_ne (by omega), List.getElem?_set_ne (by omega)]

theorem orbitStep_debris (m : JsMath α) (bass : α) (p : Body α) :
    (orbitStep m bass p).userData.debris = p.userData.debris ∧
    (orbitStep m bass p).userData.debrisData = p.userData.debrisData := by
  unfold orbitStep
  split
  · exact ⟨rfl, rfl⟩
  · split
    · exact ⟨rfl, rfl⟩
    · exact ⟨rfl, rfl⟩

/-- The debris block of the callback on a body that carries a debris field. -/
theorem updateBody_debris (m : JsMath α) (rand : Nat → α) (bass : α) (k : Nat) (p : Body α)
    (positions : List α) (debrisData : List (Debris α))
    (hpos : p.userData.debris = some positions)
    (hdd : p.userData.debrisData = some debrisData) :
    (updateBody m rand bass k p).1.userData.debris =
      some (debrisLoop m rand debrisData 0 k positions).2.1 ∧
    (updateBody m rand bass k p).1.userData.debrisData =
      some (debrisLoop m rand debrisData 0 k positions).1 := by
  obtain ⟨h1, h2⟩ := orbitStep_debris m bass p
  rw [hpos] at h1
  rw [hdd] at h2
  unfold updateBody debrisUpdate
  rw [h1, h2]
  exact ⟨rfl, rfl⟩

theorem createDebrisField_length (m : JsMath α) (rand : Nat → α) :
    ∀ (n k : Nat), (createDebrisField m rand n k).1.length = n ∧
      (createDebrisField m rand n k).2.length = n * 3
  | 0, _ => ⟨rfl, rfl⟩
  | n + 1, k => by
    obtain ⟨h1, h2⟩ := createDebrisField_length m rand n (k + 5)
    refine ⟨by simp [createDebrisField, h1], ?_⟩
    simp only [createDebrisField, createDebris, List.length_append, h2, List.length_cons,
      List.length_nil]
    omega

/-- A particle that is not recycled is updated by the three assignments of the loop and
consumes no random draw. -/
theorem debrisStep_keep (m : JsMath ℝ) (rand : Nat → ℝ) (k : Nat) (d : Debris ℝ)
    (h : 5.5 ≤ d.radius - (0.05 + 2 * (5 / d.radius ^ 2))) :
    (debrisStep m rand k d).1.speed = d.speed + 0.01 * (5 / d.radius ^ 2) ∧
    (debrisStep m rand k d).1.angle = d.angle + (d.speed + 0.01 * (5 / d.radius ^ 2)) ∧
    (debrisStep m rand k d).1.radius = d.radius - (0.05 + 2 * (5 / d.radius ^ 2)) ∧
    (debrisStep m rand k d).1.drift = d.drift ∧
    (debrisStep m rand k d).2 = k := by
  have e : (5.0 : ℝ) / (d.radius * d.radius) = 5 / d.radius ^ 2 := by
    rw [pow_two]; norm_num
  have hn : ¬ (d.radius - (0.05 + 5 / d.radius ^ 2 * 2.0) < 5.5) := by
    rw [not_lt]
    norm_num at h ⊢
    linarith
  unfold debrisStep
  simp only [e]
  rw [if_neg hn]
  refine ⟨by ring, by ring, by norm_num; ring, rfl, rfl⟩

/-! ## Lemmas on the debris radius -/

/-- Every particle of the creation loop has its radius in `[10, 35)`. -/
theorem createDebrisField_radius (m : JsMath ℝ) (rand : Nat → ℝ)
    (hr : ∀ n, 0 ≤ rand n ∧ rand n < 1) :
    ∀ (n k : Nat), ∀ d ∈ (createDebrisField m rand n k).1, 10 ≤ d.radius ∧ d.radius < 35
  | 0, _, d, hd => by simp [createDebrisField] at hd
  | n + 1, k, d, hd => by
    simp only [createDebrisField, List.mem_cons] at hd
    rcases hd with rfl | hd
    · simp only [createDebris]
      constructor <;> linarith [(hr k).1, (hr k).2]
    · exact createDebrisField_radius m rand hr n (k + 5) d hd

/-- The reset branch of the debris loop: taken exactly when the updated radius is below
`5.5`, it sets radius, angle and speed from the next three draws. -/
theorem debrisStep_reset (m : JsMath ℝ) (rand : Nat → ℝ) (k : Nat) (d : Debris ℝ)
    (h : d.radius - (0.05 + 2 * (5 / d.radius ^ 2)) < 5.5) :
    (debrisStep m rand k d).1.radius = 25 + rand k * 10 ∧
    (debrisStep m rand k d).1.angle = rand (k + 1) * m.PI * 2 ∧
    (debrisStep m rand k d).1.speed = 0.02 + rand (k + 2) * 0.03 ∧
    (debrisStep m rand k d).2 = k + 3 := by
  have e : (5.0 : ℝ) / (d.radius * d.radius) = 5 / d.radius ^ 2 := by
    rw [pow_two]; norm_num
  have hn : d.radius - (0.05 + 5 / d.radius ^ 2 * 2.0) < 5.5 := by
    norm_num at h ⊢
    linarith
  unfold debrisStep
  simp only [e]
  rw [if_pos hn]
  exact ⟨rfl, rfl, rfl, rfl⟩

/-- At the end of the update of a particle its radius is at least `5.5`. -/
theorem debrisStep_radius (m : JsMath ℝ) (rand : Nat → ℝ) (hr : ∀ n, 0 ≤ rand n ∧ rand n < 1)
    (k : Nat) (d : Debris ℝ) : 5.5 ≤ (debrisStep m rand k d).1.radius := by
  by_cases h : d.radius - (0.05 + 2 * (5 / d.radius ^ 2)) < 5.5
  · rw [(debrisStep_reset m rand k d h).1]
    norm_num
    linarith [(hr k).1]
  · rw [(debrisStep_keep m rand k d (not_lt.mp h)).2.2.1]
    exact not_lt.mp h

/-- Every particle after the loop is the `debrisStep` of a particle before it. -/
theorem debrisLoop_mem (m : JsMath α) (rand : Nat → α) :
    ∀ (ds : List (Debris α)) (i k : Nat) (positions : List α),
      ∀ e ∈ (debrisLoop m rand ds i k positions).1,
        ∃ k' d, d ∈ ds ∧ e = (debrisStep m rand k' d).1
  | [], _, _, _, e, he => by simp [debrisLoop] at he
  | d :: ds, i, k, positions, e, he => by
    simp only [debrisLoop, List.mem_cons] at he
    rcases he with rfl | he
    · exact ⟨k, d, List.mem_cons_self _ _, rfl⟩
    · obtain ⟨k', d', hd', rfl⟩ := debrisLoop_mem m rand ds _ _ _ e he
      exact ⟨k', d', List.mem_cons_of_mem _ hd', rfl⟩

theorem animate_debrisAbove (m : JsMath ℝ) (rand : Nat → ℝ)
    (hr : ∀ n, 0 ≤ rand n ∧ rand n < 1) (f : Frame ℝ) (s : SpaceScene ℝ) (i : Nat)
    (p : Body ℝ) (positions : List ℝ) (ds : List (Debris ℝ))
    (hp : s.planets[i]? = some p) (hpos : p.userData.debris = some positions)
    (hdd : p.userData.debrisData = some ds) :
    DebrisAbove (animate m rand f s) i := by
  obtain ⟨k', hk⟩ := animate_planet m rand f s i p hp
  obtain ⟨u1, u2⟩ := updateBody_debris m rand (animate m rand f s).bass k' p positions ds
    hpos hdd
  refine ⟨_, _, _, hk, u1, u2, fun e he => ?_⟩
  obtain ⟨k2, d, -, rfl⟩ := debrisLoop_mem m rand ds 0 k' positions e he
  exact debrisStep_radius m rand hr k2 d

theorem run_debrisAbove (m : JsMath ℝ) (rand : Nat → ℝ)
    (hr : ∀ n, 0 ≤ rand n ∧ rand n < 1) (i : Nat) :
    ∀ (frames : List (Frame ℝ)) (s : SpaceScene ℝ), DebrisAbove s i →
      DebrisAbove (run m rand frames s) i
  | [], _, h => h
  | f :: fs, s, h => by
    rw [run_cons]
    obtain ⟨p, positions, ds, hp, hpos, hdd, -⟩ := h
    exact run_debrisAbove m rand hr i fs _
      (animate_debrisAbove m rand hr f s i p positions ds hp hpos hdd)

/-! ## Lemmas on picking -/

/-- The walk splits the chain: the nodes passed over are unnamed, the result follows
them, and the result's own parent chain is what remains. -/
theorem ancestorWalk_split {β : Type} :
    ∀ (obj : SceneNode β) (ancestors : List (SceneNode β)),
      ∃ pre, obj :: ancestors =
          pre ++ (ancestorWalk obj ancestors).1 :: (ancestorWalk obj ancestors).2 ∧
        ∀ n ∈ pre, hasName n.name = false
  | obj, [] => ⟨[], rfl, by simp⟩
  | obj, parent :: ancestors => by
    by_cases h : hasName obj.name = true
    · exact ⟨[], by simp [ancestorWalk, h], by simp⟩
    · obtain ⟨pre, hpre, hall⟩ := ancestorWalk_split parent ancestors
      have h' : hasName obj.name = false := by simpa using h
      refine ⟨obj :: pre, ?_, ?_⟩
      · simp only [ancestorWalk, h', Bool.not_false, if_true, List.cons_append]
        rw [← hpre]
      · intro n hn
        rcases List.mem_cons.mp hn with rfl | hn
        · exact h'
        · exact hall n hn

/-- The walk stops on an unnamed node only at the end of the chain. -/
theorem ancestorWalk_unnamed {β : Type} :
    ∀ (obj : SceneNode β) (ancestors : List (SceneNode β)),
      hasName (ancestorWalk obj ancestors).1.name = false → (ancestorWalk obj ancestors).2 = []
  | obj, [], _ => rfl
  | obj, parent :: ancestors, h => by
    by_cases hn : hasName obj.name = true
    · simp [ancestorWalk, hn] at h
    · have h' : hasName obj.name = false := by simpa using hn
      simp only [ancestorWalk, h', Bool.not_false, if_true] at h ⊢
      exact ancestorWalk_unnamed parent ancestors h

/-- When some node of the chain is named, the walk ends on a named node. -/
theorem ancestorWalk_named {β : Type} (obj : SceneNode β) (ancestors : List (SceneNode β))
    (h : ∃ n ∈ obj :: ancestors, hasName n.name = true) :
    hasName (ancestorWalk obj ancestors).1.name = true := by
  obtain ⟨pre, hpre, hall⟩ := ancestorWalk_split obj ancestors
  by_contra hc
  have hf : hasName (ancestorWalk obj ancestors).1.name = false := by simpa using hc
  have hnil := ancestorWalk_unnamed obj ancestors hf
  obtain ⟨n, hn, hnamed⟩ := h
  rw [hpre, hnil] at hn
  rcases List.mem_append.mp hn with hn | hn
  · rw [hall n hn] at hnamed
    exact absurd hnamed (by decide)
  · rw [List.mem_singleton] at hn
    rw [hn, hf] at hnamed
    exact absurd hnamed (by decide)

theorem hasName_some (name : Option String) (h : hasName name = true) :
    ∃ n, name = some n ∧ (n != "") = true := by
  cases name with
  | none => simp [hasName] at h
  | some n => exact ⟨n, rfl, by simpa [hasName] using h⟩

/-- The raycaster block on any list of hits: at most one call; one call with null for
no hit; one call with the name and the projected position of the node the ancestor walk
ends on when the nearest hit has a named node on its parent chain; no call when the
nearest hit has no named node on its chain. -/
theorem hover_callback_cases (project : Vector3 ℝ → Vector3 ℝ)
    (intersects : List (SceneNode ℝ × List (SceneNode ℝ))) :
    (hoverCalls project intersects).length ≤ 1 ∧
    (intersects = [] → hoverCalls project intersects = [HoverCall.null]) ∧
    (∀ hit rest, intersects = hit :: rest →
      ((∃ n ∈ hit.1 :: hit.2, hasName n.name = true) →
        ∃ name, (ancestorWalk hit.1 hit.2).1.name = some name ∧
          hoverCalls project intersects =
            [HoverCall.named name (project (ancestorWalk hit.1 hit.2).1.position)]) ∧
      ((∀ n ∈ hit.1 :: hit.2, hasName n.name = false) →
        hoverCalls project intersects = [])) := by
  refine ⟨?_, fun h => by rw [h]; rfl, fun hit rest h => ⟨fun hn => ?_, fun hu => ?_⟩⟩
  · cases intersects with
    | nil => simp [hoverCalls]
    | cons hit rest =>
      simp only [hoverCalls]
      split
      · split <;> simp
      · simp
  · obtain ⟨name, e1, e2⟩ := hasName_some _ (ancestorWalk_named hit.1 hit.2 hn)
    refine ⟨name, e1, ?_⟩
    rw [h]
    simp only [hoverCalls, e1, e2, if_true]
  · obtain ⟨pre, hpre, -⟩ := ancestorWalk_split hit.1 hit.2
    have hmem : (ancestorWalk hit.1 hit.2).1 ∈ hit.1 :: hit.2 := by
      rw [hpre]; simp
    have hf := hu _ hmem
    rw [h]
    simp only [hoverCalls]
    cases hname : (ancestorWalk hit.1 hit.2).1.name with
    | none => rfl
    | some n =>
      rw [hname] at hf
      have : (n != "") = false := by simpa [hasName] using hf
      simp [this]

/-! ## Lemmas on the registry of transient actors -/

theorem eraseId_append_self (a : Object3D) :
    ∀ l : List Object3D, (∀ o ∈ l, o.id ≠ a.id) → eraseId a.id (l ++ [a]) = l
  | [], _ => by simp [eraseId]
  | o :: l, h => by
    have ho : o.id ≠ a.id := h o (List.mem_cons_self _ _)
    have ih := eraseId_append_self a l (fun x hx => h x (List.mem_cons_of_mem _ hx))
    show eraseId a.id (o :: (l ++ [a])) = o :: l
    simp only [eraseId, ho, if_false, ih]

theorem eraseId_of_not_mem (i : Nat) :
    ∀ l : List Object3D, i ∉ l.map Object3D.id → eraseId i l = l
  | [], _ => rfl
  | o :: l, h => by
    simp only [List.map_cons, List.mem_cons, not_or] at h
    have ho : o.id ≠ i := fun e => h.1 e.symm
    simp only [eraseId, ho, if_false]
    rw [eraseId_of_not_mem i l h.2]

theorem eraseId_eq_filter (i : Nat) :
    ∀ l : List Object3D, (l.map Object3D.id).Nodup →
      eraseId i l = l.filter (fun o => decide (o.id ≠ i))
  | [], _ => rfl
  | o :: l, h => by
    simp only [List.map_cons, List.nodup_cons] at h
    by_cases ho : o.id = i
    · have hni : i ∉ l.map Object3D.id := ho ▸ h.1
      have hall : ∀ x ∈ l, decide (x.id ≠ i) = true := fun x hx => by
        simp only [decide_eq_true_eq]
        intro e
        exact hni (List.mem_map.mpr ⟨x, hx, e⟩)
      simp only [eraseId, ho, if_true, List.filter_cons, ne_eq, not_true_eq_false,
        decide_False, Bool.false_eq_true, if_false]
      exact (List.filter_eq_self.mpr hall).symm
    · simp only [eraseId, ho, if_false, List.filter_cons, ne_eq, not_false_eq_true,
        decide_True, if_true]
      rw [eraseId_eq_filter i l h.2]

theorem not_mem_eraseId (i : Nat) (l : List Object3D) (h : (l.map Object3D.id).Nodup) :
    i ∉ (eraseId i l).map Object3D.id := by
  rw [eraseId_eq_filter i l h]
  intro hm
  obtain ⟨o, ho, e⟩ := List.mem_map.mp hm
  have := (List.mem_filter.mp ho).2
  simp only [decide_eq_true_eq] at this
  exact this e

theorem mem_eraseId_of_ne (i j : Nat) (hne : j ≠ i) :
    ∀ l : List Object3D, i ∈ l.map Object3D.id → i ∈ (eraseId j l).map Object3D.id
  | [], h => by simp at h
  | o :: l, h => by
    simp only [List.map_cons, List.mem_cons] at h
    by_cases ho : o.id = j
    · simp only [eraseId, ho, if_true]
      rcases h with h | h
      · exact absurd (ho ▸ h.symm) hne
      · exact h
    · simp only [eraseId, ho, if_false, List.map_cons, List.mem_cons]
      rcases h with h | h
      · exact Or.inl h
      · exact Or.inr (mem_eraseId_of_ne i j hne l h)

/-- An event changes the registry by a push or by the removal of one identity. -/
theorem step_planets (g : SceneGraph) (e : Event) :
    (∃ o, (step g e).planets = g.planets ++ [o]) ∨ (step g e).planets = g.planets ∨
      ∃ kind id, e = Event.complete kind id ∧ (step g e).planets = eraseId id g.planets := by
  cases e with
  | spawn kind =>
    cases kind
    · exact Or.inr (Or.inl rfl)
    · exact Or.inl ⟨_, rfl⟩
    · exact Or.inl ⟨_, rfl⟩
    · exact Or.inr (Or.inl rfl)
  | complete kind id =>
    cases kind
    · exact Or.inr (Or.inl rfl)
    · exact Or.inr (Or.inr ⟨_, _, rfl, rfl⟩)
    · exact Or.inr (Or.inr ⟨_, _, rfl, rfl⟩)
    · exact Or.inr (Or.inl rfl)

/-- An object of the registry stays in it through every sequence of events that does
not hold the completion of that object. -/
theorem runEvents_keeps (i : Nat) :
    ∀ (events : List Event) (g : SceneGraph),
      (∀ e ∈ events, ∀ kind, e ≠ Event.complete kind i) →
      i ∈ g.planets.map Object3D.id →
      i ∈ (runEvents events g).planets.map Object3D.id
  | [], _, _, h => h
  | e :: es, g, hne, h => by
    have hstep : i ∈ (step g e).planets.map Object3D.id := by
      rcases step_planets g e with ⟨o, ho⟩ | ho | ⟨kind, id, he, ho⟩
      · rw [ho, List.map_append]
        exact List.mem_append_left _ h
      · rw [ho]; exact h
      · rw [ho]
        refine mem_eraseId_of_ne i id (fun e' => ?_) _ h
        exact hne e (List.mem_cons_self _ _) kind (e' ▸ he)
    exact runEvents_keeps i es (step g e) (fun x hx => hne x (List.mem_cons_of_mem _ hx)) hstep

/-- An object of the registry is in the picking set. -/
theorem pickable_of_mem (g : SceneGraph) (i : Nat) (h : i ∈ g.planets.map Object3D.id) :
    pickable g i = true := by
  obtain ⟨o, ho, e⟩ := List.mem_map.mp h
  simp only [pickable, List.any_eq_true]
  refine ⟨o, ho, ?_⟩
  cases o with
  | mk id name children =>
    simp only [Object3D.id] at e
    simp [Object3D.ids, e]

theorem eraseId_sublist (i : Nat) : ∀ l : List Object3D, (eraseId i l).Sublist l
  | [] => List.Sublist.slnil
  | o :: l => by
    by_cases ho : o.id = i
    · simp only [eraseId, ho, if_true]
      exact List.sublist_cons_self _ _
    · simp only [eraseId, ho, if_false]
      exact (eraseId_sublist i l).cons₂ _

/-- Pushing an object created now keeps an array free of repetitions and below the next
identity. -/
theorem push_fresh (l : List Object3D) (n k : Nat) (o : Object3D) (ho : o.id = n)
    (hlt : ∀ x ∈ l, x.id < n) (hnd : (l.map Object3D.id).Nodup) (hk : 0 < k) :
    (∀ x ∈ l ++ [o], x.id < n + k) ∧ ((l ++ [o]).map Object3D.id).Nodup := by
  constructor
  · intro x hx
    rcases List.mem_append.mp hx with hx | hx
    · have := hlt x hx; omega
    · rw [List.mem_singleton] at hx
      rw [hx, ho]; omega
  · rw [List.map_append, List.nodup_append]
    refine ⟨hnd, by simp, ?_⟩
    intro a ha hb
    simp only [List.map_cons, List.map_nil, List.mem_singleton] at hb
    obtain ⟨x, hx, e⟩ := List.mem_map.mp ha
    have := hlt x hx
    omega

theorem keep_fresh (l : List Object3D) (n k : Nat) (hlt : ∀ x ∈ l, x.id < n) :
    ∀ x ∈ l, x.id < n + k := fun x hx => by
  have := hlt x hx; omega

theorem erase_fresh (l : List Object3D) (n i : Nat) (hlt : ∀ x ∈ l, x.id < n)
    (hnd : (l.map Object3D.id).Nodup) :
    (∀ x ∈ eraseId i l, x.id < n) ∧ ((eraseId i l).map Object3D.id).Nodup :=
  ⟨fun x hx => hlt x ((eraseId_sublist i l).subset hx),
    hnd.sublist ((eraseId_sublist i l).map _)⟩

/-- Spawns and completions keep the graph well formed. -/
theorem step_wellFormed (g : SceneGraph) (e : Event) (h : WellFormed g) :
    WellFormed (step g e) := by
  obtain ⟨h1, h2, h3, h4⟩ := h
  cases e with
  | spawn kind =>
    cases kind
    · obtain ⟨a, b⟩ := push_fresh g.children g.nextId 9 (spawnSpaceship g).2 rfl h1 h3
        (by omega)
      exact ⟨a, keep_fresh _ _ 9 h2, b, h4⟩
    · obtain ⟨a, b⟩ := push_fresh g.children g.nextId 3 (spawnUFO g).2 rfl h1 h3 (by omega)
      obtain ⟨c, d⟩ := push_fresh g.planets g.nextId 3 (spawnUFO g).2 rfl h2 h4 (by omega)
      exact ⟨a, c, b, d⟩
    · obtain ⟨a, b⟩ := push_fresh g.children g.nextId 4 (spawnComet g).2 rfl h1 h3 (by omega)
      obtain ⟨c, d⟩ := push_fresh g.planets g.nextId 4 (spawnComet g).2 rfl h2 h4 (by omega)
      exact ⟨a, c, b, d⟩
    · obtain ⟨a, b⟩ := push_fresh g.children g.nextId 3 (spawnNyanCat g).2 rfl h1 h3
        (by omega)
      exact ⟨a, keep_fresh _ _ 3 h2, b, h4⟩
  | complete kind id =>
    obtain ⟨a, b⟩ := erase_fresh g.children g.nextId id h1 h3
    obtain ⟨c, d⟩ := erase_fresh g.planets g.nextId id h2 h4
    cases kind
    · exact ⟨a, h2, b, h4⟩
    · exact ⟨a, c, b, d⟩
    · exact ⟨a, c, b, d⟩
    · exact ⟨a, h2, b, h4⟩

theorem runEvents_wellFormed :
    ∀ (events : List Event) (g : SceneGraph), WellFormed g → WellFormed (runEvents events g)
  | [], _, h => h
  | e :: es, g, h => runEvents_wellFormed es (step g e) (step_wellFormed g e h)

/-- The completion of a UFO or comet in a well-formed graph: the object is in neither
array afterwards, the other registry entries keep their order, and a second completion
changes nothing. -/
theorem completeUFO_spec (g : SceneGraph) (h : WellFormed g) (id : Nat) :
    id ∉ (completeUFO id g).planets.map Object3D.id ∧
    id ∉ (completeUFO id g).children.map Object3D.id ∧
    (completeUFO id g).planets = g.planets.filter (fun o => decide (o.id ≠ id)) ∧
    completeUFO id (completeUFO id g) = completeUFO id g := by
  obtain ⟨-, -, h3, h4⟩ := h
  have hp := not_mem_eraseId id g.planets h4
  have hc := not_mem_eraseId id g.children h3
  refine ⟨hp, hc, eraseId_eq_filter id g.planets h4, ?_⟩
  simp only [completeUFO, eraseId_of_not_mem id _ hp, eraseId_of_not_mem id _ hc]

/-- A spawn of a UFO followed by its completion gives back both arrays. -/
theorem spawnUFO_complete (g : SceneGraph) (h : WellFormed g) :
    (completeUFO (spawnUFO g).2.id (spawnUFO g).1).planets = g.planets ∧
    (completeUFO (spawnUFO g).2.id (spawnUFO g).1).children = g.children := by
  obtain ⟨h1, h2, -, -⟩ := h
  constructor
  · exact eraseId_append_self _ g.planets (fun o ho => by
      have := h2 o ho
      show o.id ≠ g.nextId
      omega)
  · exact eraseId_append_self _ g.children (fun o ho => by
      have := h1 o ho
      show o.id ≠ g.nextId
      omega)

/-- A spawn of a comet followed by its completion gives back both arrays. -/
theorem spawnComet_complete (g : SceneGraph) (h : WellFormed g) :
    (completeComet (spawnComet g).2.id (spawnComet g).1).planets = g.planets ∧
    (completeComet (spawnComet g).2.id (spawnComet g).1).children = g.children := by
  obtain ⟨h1, h2, -, -⟩ := h
  constructor
  · exact eraseId_append_self _ g.planets (fun o ho => by
      have := h2 o ho
      show o.id ≠ g.nextId
      omega)
  · exact eraseId_append_self _ g.children (fun o ho => by
      have := h1 o ho
      show o.id ≠ g.nextId
      omega)

/-! ## Lemmas on scale, camera and black-hole placement -/

/-- The callback leaves the scale to the orbit block. -/
theorem updateBody_scale (m : JsMath α) (rand : Nat → α) (bass : α) (k : Nat) (p : Body α) :
    (updateBody m rand bass k p).1.scale = (orbitStep m bass p).scale :=
  (debrisUpdate_orbit m rand k (orbitStep m bass p)).2.1

/-- The position computed by createBlackHole. -/
theorem createBlackHole_position (m : JsMath ℝ) (rand : Nat → ℝ) (k : Nat) :
    (createBlackHole m rand k).1.position =
      ⟨(40 + rand k * 50) * m.cos (rand (k + 1) * m.PI * 2),
       (40 + rand k * 50) * m.sin (rand (k + 1) * m.PI * 2) * 0.5,
       -60 - rand (k + 2) * 40⟩ := by
  simp only [createBlackHole, Vector3.mk.injEq]
  refine ⟨by norm_num, by norm_num, trivial⟩

/-- A tick that does not recycle a particle takes more than `0.05` off its radius and
adds to its speed. -/
theorem debrisStep_keep_strict (m : JsMath ℝ) (rand : Nat → ℝ) (k : Nat) (d : Debris ℝ)
    (h : 5.5 ≤ d.radius - (0.05 + 2 * (5 / d.radius ^ 2))) :
    (debrisStep m rand k d).1.radius < d.radius - 0.05 ∧
    d.speed < (debrisStep m rand k d).1.speed := by
  obtain ⟨e1, -, e3, -, -⟩ := debrisStep_keep m rand k d h
  have hg0 : 0 ≤ (5 : ℝ) / d.radius ^ 2 := by positivity
  have hr : 0 < d.radius := by linarith
  have hg : 0 < (5 : ℝ) / d.radius ^ 2 := by positivity
  rw [e1, e3]
  constructor <;> linarith

/-! ## Lemmas on the key handler and the frame loop -/

/-- One key press keeps the index inside the array. -/
theorem keydown_index (key : String) (s : KonamiState) (h : s.konamiIndex < 10) :
    ∃ s', keydown key s = some s' ∧ s'.konamiIndex < 10 := by
  have hlen : konamiCode.length = 10 := rfl
  have hget : ∃ code, konamiCode[s.konamiIndex]? = some code :=
    ⟨konamiCode[s.konamiIndex], List.getElem?_eq_getElem (by rw [hlen]; exact h)⟩
  obtain ⟨code, hcode⟩ := hget
  simp only [keydown, hcode, hlen]
  by_cases hm : mapKey key = mapKey code
  · by_cases h9 : s.konamiIndex + 1 = 10
    · refine ⟨{ konamiIndex := 0, activations := s.activations + 1 }, ?_, by simp⟩
      simp only [hm, if_true, h9]
    · refine ⟨{ s with konamiIndex := s.konamiIndex + 1 }, ?_, by simp only; omega⟩
      simp only [hm, if_true, h9, if_false]
  · simp only [hm, if_false]
    refine ⟨_, rfl, ?_⟩
    simp only
    split_ifs <;> omega

theorem keydowns_index :
    ∀ (keys : List String) (s : KonamiState), s.konamiIndex < 10 →
      ∃ s', keydowns keys s = some s' ∧ s'.konamiIndex < 10
  | [], s, h => ⟨s, rfl, h⟩
  | key :: keys, s, h => by
    obtain ⟨s1, h1, h2⟩ := keydown_index key s h
    obtain ⟨s2, h3, h4⟩ := keydowns_index keys s1 h2
    exact ⟨s2, by simp only [keydowns, h1, h3], h4⟩

theorem frame_pending {σ : Type} (substeps : List (σ → Option σ)) (l : FrameLoop σ)
    (h : 0 < l.pending) : (frame substeps l).pending = l.pending := by
  have h0 : l.pending ≠ 0 := by omega
  simp only [frame, h0, if_false, animateCall]
  omega

theorem frames_pending {σ : Type} :
    ∀ (behaviours : List (List (σ → Option σ))) (l : FrameLoop σ), 0 < l.pending →
      (frames behaviours l).pending = l.pending
  | [], _, _ => rfl
  | substeps :: rest, l, h => by
    have h1 := frame_pending substeps l h
    have h2 := frames_pending rest (frame substeps l) (by omega)
    simp only [frames, List.foldl_cons] at h2 ⊢
    omega

/-! ## Lemmas on the theme tweens -/

theorem power2InOut_range (p : ℝ) (h0 : 0 ≤ p) (h1 : p ≤ 1) :
    0 ≤ power2InOut p ∧ power2InOut p ≤ 1 := by
  unfold power2InOut
  split_ifs with h
  · have hp : 0 ≤ p * 2 := by linarith
    have hp1 : p * 2 ≤ 1 := by norm_num at h; linarith
    have h3 : (p * 2) ^ 3 ≤ 1 := pow_le_one₀ hp hp1
    have h30 : 0 ≤ (p * 2) ^ 3 := pow_nonneg hp 3
    constructor <;> linarith
  · have hq : 0 ≤ (1 - p) * 2 := by linarith
    have hq1 : (1 - p) * 2 ≤ 1 := by norm_num at h; linarith
    have h3 : ((1 - p) * 2) ^ 3 ≤ 1 := pow_le_one₀ hq hq1
    have h30 : 0 ≤ ((1 - p) * 2) ^ 3 := pow_nonneg hq 3
    constructor <;> linarith

theorem power2InOut_one : power2InOut (1 : ℝ) = 1 := by
  unfold power2InOut
  norm_num

theorem runTheme_append (ease : α → α) (xs ys : List (ThemeEvent α)) (s : ThemeState α) :
    runTheme ease (xs ++ ys) s = runTheme ease ys (runTheme ease xs s) := by
  simp [runTheme, List.foldl_append]

/-- A convex combination of two values of `[0, 1]`. -/
theorem mix_range (a b e : ℝ) (ha : 0 ≤ a ∧ a ≤ 1) (hb : 0 ≤ b ∧ b ≤ 1)
    (he : 0 ≤ e ∧ e ≤ 1) : 0 ≤ a + (b - a) * e ∧ a + (b - a) * e ≤ 1 := by
  constructor
  · nlinarith [mul_nonneg ha.1 (sub_nonneg.mpr he.2), mul_nonneg hb.1 he.1]
  · nlinarith [mul_nonneg (sub_nonneg.mpr ha.2) (sub_nonneg.mpr he.2),
      mul_nonneg (sub_nonneg.mpr hb.2) he.1]

/-- One update of a tween keeps the value and the tween inside the bounds. -/
theorem renderTween_range (ease : ℝ → ℝ)
    (hease : ∀ p, 0 ≤ p → p ≤ 1 → 0 ≤ ease p ∧ ease p ≤ 1) (dt val : ℝ) (t : Tween ℝ)
    (hdt : 0 ≤ dt) (hval : 0 ≤ val ∧ val ≤ 1) (htarget : 0 ≤ t.target ∧ t.target ≤ 1)
    (hstart : ∀ a, t.start = some a → 0 ≤ a ∧ a ≤ 1) (hel : 0 ≤ t.elapsed) :
    (0 ≤ (renderTween ease dt val t).1 ∧ (renderTween ease dt val t).1 ≤ 1) ∧
    ∀ t' ∈ (renderTween ease dt val t).2.toList, (0 ≤ t'.target ∧ t'.target ≤ 1) ∧
      (∀ a, t'.start = some a → 0 ≤ a ∧ a ≤ 1) ∧ 0 ≤ t'.elapsed := by
  have hs : 0 ≤ t.start.getD val ∧ t.start.getD val ≤ 1 := by
    cases h : t.start with
    | none => simpa using hval
    | some a => simpa using hstart a h
  unfold renderTween
  simp only
  split_ifs with h
  · have hd : (0 : ℝ) < themeDuration := by unfold themeDuration; norm_num
    have hp0 : 0 ≤ (t.elapsed + dt) / themeDuration := div_nonneg (by linarith) hd.le
    have hp1 : (t.elapsed + dt) / themeDuration ≤ 1 := by
      rw [div_le_one hd]; exact h.le
    refine ⟨mix_range _ _ _ hs htarget (hease _ hp0 hp1), fun t' ht' => ?_⟩
    simp only [Option.toList, List.mem_singleton] at ht'
    subst ht'
    refine ⟨htarget, fun a ha => ?_, by simp only; linarith⟩
    simp only [Option.some.injEq] at ha
    rw [← ha]; exact hs
  · refine ⟨mix_range _ _ _ hs htarget (hease 1 (by norm_num) (le_refl 1)), fun t' ht' => ?_⟩
    simp [Option.toList] at ht'

theorem renderTweens_range (ease : ℝ → ℝ)
    (hease : ∀ p, 0 ≤ p → p ≤ 1 → 0 ≤ ease p ∧ ease p ≤ 1) (dt : ℝ) (hdt : 0 ≤ dt) :
    ∀ (ts : List (Tween ℝ)) (val : ℝ), (0 ≤ val ∧ val ≤ 1) →
      (∀ t ∈ ts, (0 ≤ t.target ∧ t.target ≤ 1) ∧
        (∀ a, t.start = some a → 0 ≤ a ∧ a ≤ 1) ∧ 0 ≤ t.elapsed) →
      ThemeInRange { val := (renderTweens ease dt ts val).1,
                     tweens := (renderTweens ease dt ts val).2 }
  | [], val, hval, _ => ⟨hval, fun t ht => by simp [renderTweens] at ht⟩
  | t :: ts, val, hval, hts => by
    obtain ⟨ht1, ht2, ht3⟩ := hts t (List.mem_cons_self _ _)
    obtain ⟨hv, hsurv⟩ := renderTween_range ease hease dt val t hdt hval ht1 ht2 ht3
    obtain ⟨hv2, hrest⟩ := renderTweens_range ease hease dt hdt ts _ hv
      (fun x hx => hts x (List.mem_cons_of_mem _ hx))
    refine ⟨hv2, fun x hx => ?_⟩
    simp only [renderTweens, List.mem_append] at hx
    rcases hx with hx | hx
    · exact hsurv x hx
    · exact hrest x hx

/-- Every value written during an update is inside the bounds. -/
theorem renderWrites_range (ease : ℝ → ℝ)
    (hease : ∀ p, 0 ≤ p → p ≤ 1 → 0 ≤ ease p ∧ ease p ≤ 1) (dt : ℝ) (hdt : 0 ≤ dt) :
    ∀ (ts : List (Tween ℝ)) (val : ℝ), (0 ≤ val ∧ val ≤ 1) →
      (∀ t ∈ ts, (0 ≤ t.target ∧ t.target ≤ 1) ∧
        (∀ a, t.start = some a → 0 ≤ a ∧ a ≤ 1) ∧ 0 ≤ t.elapsed) →
      ∀ v ∈ renderWrites ease dt ts val, 0 ≤ v ∧ v ≤ 1
  | [], _, _, _, v, hv => by simp [renderWrites] at hv
  | t :: ts, val, hval, hts, v, hv => by
    obtain ⟨ht1, ht2, ht3⟩ := hts t (List.mem_cons_self _ _)
    have h1 := (renderTween_range ease hease dt val t hdt hval ht1 ht2 ht3).1
    simp only [renderWrites, List.mem_cons] at hv
    rcases hv with hv | hv
    · rw [hv]; exact h1
    · exact renderWrites_range ease hease dt hdt ts _ h1
        (fun x hx => hts x (List.mem_cons_of_mem _ hx)) v hv

/-- Every event with a time step `>= 0` keeps the theme state inside the bounds. -/
theorem themeStep_range (ease : ℝ → ℝ)
    (hease : ∀ p, 0 ≤ p → p ≤ 1 → 0 ≤ ease p ∧ ease p ≤ 1) (s : ThemeState ℝ)
    (e : ThemeEvent ℝ) (hdt : ∀ dt, e = ThemeEvent.tick dt → 0 ≤ dt) (hs : ThemeInRange s) :
    ThemeInRange (themeStep ease s e) := by
  cases e with
  | call isLight =>
    refine ⟨hs.1, fun t ht => ?_⟩
    simp only [themeStep, updateTheme, List.mem_append, List.mem_singleton] at ht
    rcases ht with ht | ht
    · exact hs.2 t ht
    · subst ht
      refine ⟨?_, fun a ha => by simp at ha, le_refl 0⟩
      cases isLight <;> simp
  | tick dt =>
    exact renderTweens_range ease hease dt (hdt dt rfl) s.tweens s.val hs.1 hs.2

theorem runTheme_range (ease : ℝ → ℝ)
    (hease : ∀ p, 0 ≤ p → p ≤ 1 → 0 ≤ ease p ∧ ease p ≤ 1) :
    ∀ (events : List (ThemeEvent ℝ)) (s : ThemeState ℝ),
      (∀ dt, ThemeEvent.tick dt ∈ events → 0 ≤ dt) → ThemeInRange s →
      ThemeInRange (runTheme ease events s)
  | [], _, _, hs => hs
  | e :: es, s, hdt, hs => by
    have h1 := themeStep_range ease hease s e
      (fun dt he => hdt dt (he ▸ List.mem_cons_self _ _)) hs
    exact runTheme_range ease hease es (themeStep ease s e)
      (fun dt hm => hdt dt (List.mem_cons_of_mem _ hm)) h1

theorem initialTheme_range (stored : Option String) :
    ThemeInRange (initialTheme stored : ThemeState ℝ) := by
  refine ⟨?_, fun t ht => by simp [initialTheme] at ht⟩
  simp only [initialTheme]
  split_ifs <;> norm_num

theorem renderTweens_append (ease : α → α) (dt : α) :
    ∀ (xs ys : List (Tween α)) (val : α),
      renderTweens ease dt (xs ++ ys) val =
        ((renderTweens ease dt ys (renderTweens ease dt xs val).1).1,
         (renderTweens ease dt xs val).2 ++
           (renderTweens ease dt ys (renderTweens ease dt xs val).1).2)
  | [], ys, val => by simp [renderTweens]
  | x :: xs, ys, val => by
    have ih := renderTweens_append ease dt xs ys (renderTween ease dt val x).1
    show ((renderTweens ease dt (xs ++ ys) (renderTween ease dt val x).1).1,
        (renderTween ease dt val x).2.toList ++
          (renderTweens ease dt (xs ++ ys) (renderTween ease dt val x).1).2) = _
    rw [ih]
    simp [renderTweens, List.append_assoc]

/-- The tweens that keep running have aged by `dt` and are still short of the
duration. -/
theorem renderTweens_survivors (ease : α → α) (dt : α) :
    ∀ (ts : List (Tween α)) (val : α), ∀ t' ∈ (renderTweens ease dt ts val).2,
      ∃ t ∈ ts, t'.elapsed = t.elapsed + dt ∧ t.elapsed + dt < themeDuration
  | [], _, t', h => by simp [renderTweens] at h
  | t :: ts, val, t', h => by
    simp only [renderTweens, List.mem_append] at h
    rcases h with h | h
    · refine ⟨t, List.mem_cons_self _ _, ?_⟩
      unfold renderTween at h
      simp only at h
      split_ifs at h with hlt
      · simp only [Option.toList, List.mem_singleton] at h
        subst h
        exact ⟨rfl, hlt⟩
      · simp [Option.toList] at h
    · obtain ⟨x, hx, e1, e2⟩ := renderTweens_survivors ease dt ts _ t' h
      exact ⟨x, List.mem_cons_of_mem _ hx, e1, e2⟩

/-- A tick that does not complete the youngest tween leaves it the youngest. -/
theorem themeTick_pending (ease : ℝ → ℝ) (dt : ℝ) (s : ThemeState ℝ)
    (T e : ℝ) (h : Pending s T e) (hlt : e + dt < 1.5) :
    Pending (themeTick ease dt s) T (e + dt) := by
  obtain ⟨older, last, hs, hT, he, -, hold⟩ := h
  have hlt' : last.elapsed + dt < themeDuration := by
    rw [he]; unfold themeDuration; norm_num at hlt ⊢; exact hlt
  refine ⟨(renderTweens ease dt older s.val).2,
    { last with start := some (last.start.getD (renderTweens ease dt older s.val).1),
                elapsed := last.elapsed + dt }, ?_, hT, by rw [← he], hlt, fun t ht => ?_⟩
  · simp only [themeTick, hs, renderTweens_append]
    simp only [renderTweens, renderTween, hlt', if_true, Option.toList, List.append_nil]
  · obtain ⟨x, hx, e1, -⟩ := renderTweens_survivors ease dt older s.val t ht
    rw [e1]
    linarith [hold x hx]

/-- A tick that completes the youngest tween completes all of them and leaves the
value at its target. -/
theorem themeTick_settles (ease : ℝ → ℝ) (hease1 : ease 1 = 1) (dt : ℝ) (s : ThemeState ℝ)
    (T e : ℝ) (h : Pending s T e) (hge : 1.5 ≤ e + dt) :
    (themeTick ease dt s).val = T ∧ (themeTick ease dt s).tweens = [] := by
  obtain ⟨older, last, hs, hT, he, -, hold⟩ := h
  have hge' : ¬ last.elapsed + dt < themeDuration := by
    rw [he]; unfold themeDuration; norm_num at hge ⊢; exact hge
  have hnone : (renderTweens ease dt older s.val).2 = [] := by
    rw [List.eq_nil_iff_forall_not_mem]
    intro t ht
    obtain ⟨x, hx, -, e2⟩ := renderTweens_survivors ease dt older s.val t ht
    have := hold x hx
    unfold themeDuration at e2
    norm_num at e2
    linarith
  constructor
  · simp only [themeTick, hs, renderTweens_append]
    simp only [renderTweens, renderTween, hge', if_false, hease1, hT]
    ring
  · simp only [themeTick, hs, renderTweens_append, hnone]
    simp only [renderTweens, renderTween, hge', if_false, Option.toList, List.append_nil]

/-- With no tween running a tick changes nothing. -/
theorem themeTick_idle (ease : ℝ → ℝ) (dt : ℝ) (s : ThemeState ℝ) (h : s.tweens = []) :
    (themeTick ease dt s).val = s.val ∧ (themeTick ease dt s).tweens = [] := by
  simp [themeTick, h, renderTweens]

theorem ticks_idle (ease : ℝ → ℝ) :
    ∀ (dts : List ℝ) (s : ThemeState ℝ), s.tweens = [] →
      (runTheme ease (dts.map ThemeEvent.tick) s).val = s.val ∧
      (runTheme ease (dts.map ThemeEvent.tick) s).tweens = []
  | [], _, h => ⟨rfl, h⟩
  | dt :: dts, s, h => by
    obtain ⟨h1, h2⟩ := themeTick_idle ease dt s h
    obtain ⟨h3, h4⟩ := ticks_idle ease dts (themeTick ease dt s) h2
    exact ⟨h3.trans h1, h4⟩

/-- Once the ticks after the creation of the youngest tween add up to its duration, the
value is its target and no tween is running. -/
theorem ticks_settle (ease : ℝ → ℝ) (hease1 : ease 1 = 1) :
    ∀ (dts : List ℝ) (s : ThemeState ℝ) (T e : ℝ), Pending s T e → 1.5 ≤ e + dts.sum →
      (runTheme ease (dts.map ThemeEvent.tick) s).val = T ∧
      (runTheme ease (dts.map ThemeEvent.tick) s).tweens = []
  | [], s, T, e, h, hsum => by
    obtain ⟨_, _, _, _, _, hlt, _⟩ := h
    simp at hsum
    linarith
  | dt :: dts, s, T, e, h, hsum => by
    by_cases hlt : e + dt < 1.5
    · have hp := themeTick_pending ease dt s T e h hlt
      exact ticks_settle ease hease1 dts (themeTick ease dt s) T (e + dt) hp
        (by simp only [List.sum_cons] at hsum; linarith)
    · obtain ⟨h1, h2⟩ := themeTick_settles ease hease1 dt s T e h (not_lt.mp hlt)
      obtain ⟨h3, h4⟩ := ticks_idle ease dts (themeTick ease dt s) h2
      exact ⟨h3.trans h1, h4⟩

/-- Right after a call of updateTheme the new tween is the youngest, with no time
elapsed. -/
theorem updateTheme_pending (isLight : Bool) (s : ThemeState ℝ) (hs : ThemeInRange s) :
    Pending (updateTheme isLight s) (if isLight then 1 else 0) 0 :=
  ⟨s.tweens, _, rfl, rfl, rfl, by norm_num, fun t ht => (hs.2 t ht).2.2⟩

/-! ## Lemmas on the hits under the registry -/

/-- The chain from a descendant up to `o` is not empty and ends with `o`. -/
theorem chainTo_mem (o : Object3D) (path : List Nat) (chain : List Object3D)
    (h : chainTo o path = some chain) : o ∈ chain := by
  cases path with
  | nil =>
    simp only [chainTo, Option.some.injEq] at h
    rw [← h]; simp
  | cons i path =>
    simp only [chainTo] at h
    cases hc : o.children[i]? with
    | none => rw [hc] at h; simp at h
    | some child =>
      rw [hc] at h
      simp only [Option.map_eq_some'] at h
      obtain ⟨ch, -, e⟩ := h
      rw [← e]; simp

/-- With a named registry, every hit under it has a named node on its chain. -/
theorem registryHit_named (pose : Nat → SceneNode ℝ) (g : SceneGraph) (hg : RegistryNamed g)
    (k : Nat) (path : List Nat) (above : List (SceneNode ℝ))
    (hit : SceneNode ℝ × List (SceneNode ℝ))
    (h : registryHit pose g k path above = some hit) :
    ∃ n ∈ hit.1 :: hit.2, hasName n.name = true := by
  unfold registryHit at h
  cases hk : g.planets[k]? with
  | none => simp [hk] at h
  | some r =>
    have hr : r ∈ g.planets := List.mem_iff_getElem?.mpr ⟨k, hk⟩
    cases hc : chainTo r path with
    | none => simp [hk, hc] at h
    | some chain =>
      have hmem := chainTo_mem r path chain hc
      cases chain with
      | nil => simp at hmem
      | cons first parents =>
        simp only [hk, hc, Option.some.injEq] at h
        rw [← h]
        refine ⟨toSceneNode pose r, ?_, hg r hr⟩
        rcases List.mem_cons.mp hmem with e | e
        · rw [e]; exact List.mem_cons_self _ _
        · exact List.mem_cons_of_mem _
            (List.mem_append_left _ (List.mem_map_of_mem _ e))

theorem planetName_truthy (palette : String) (index : Nat) :
    hasName (some (palette ++ " Planet " ++ toString (index + 1))) = true := by
  have hne : palette ++ " Planet " ++ toString (index + 1) ≠ "" := by
    intro h
    have hl := congrArg String.length h
    simp only [String.length_append] at hl
    have h8 : " Planet ".length = 8 := by decide
    have h0 : "".length = 0 := by decide
    rw [h8, h0] at hl
    omega
  simpa [hasName] using hne

theorem createExoticPlanet_named (index : Nat) (c : PlanetChoice) (g : SceneGraph)
    (hg : RegistryNamed g) : RegistryNamed (g.createExoticPlanet index c) := by
  intro o ho
  simp only [SceneGraph.createExoticPlanet, List.mem_append, List.mem_singleton] at ho
  rcases ho with ho | ho
  · exact hg o ho
  · rw [ho]
    exact planetName_truthy c.palette index

theorem createSpaceStation_named (parent : Nat) (g : SceneGraph) (hg : RegistryNamed g) :
    RegistryNamed (g.createSpaceStation parent) := by
  intro o ho
  simp only [SceneGraph.createSpaceStation, List.mem_map] at ho
  obtain ⟨p, hp, e⟩ := ho
  have hn := hg p hp
  rw [← e]
  split_ifs
  · cases p with
    | mk i n cs => exact hn
  · exact hn

theorem planets_foldl_named (choice : Nat → PlanetChoice) :
    ∀ (l : List Nat) (g : SceneGraph), RegistryNamed g →
      RegistryNamed (l.foldl (fun h i => h.createExoticPlanet i (choice i)) g)
  | [], _, hg => hg
  | i :: l, g, hg =>
    planets_foldl_named choice l _ (createExoticPlanet_named i (choice i) g hg)

theorem spawnComet_named (g : SceneGraph) (hg : RegistryNamed g) :
    RegistryNamed (spawnComet g).1 := by
  intro o ho
  simp only [spawnComet, List.mem_append, List.mem_singleton] at ho
  rcases ho with ho | ho
  · exact hg o ho
  · rw [ho]; rfl

theorem spawnUFO_named (g : SceneGraph) (hg : RegistryNamed g) :
    RegistryNamed (spawnUFO g).1 := by
  intro o ho
  simp only [spawnUFO, List.mem_append, List.mem_singleton] at ho
  rcases ho with ho | ho
  · exact hg o ho
  · rw [ho]; rfl

theorem createBlackHole_named (g : SceneGraph) (hg : RegistryNamed g) :
    RegistryNamed g.createBlackHole := by
  intro o ho
  simp only [SceneGraph.createBlackHole, List.mem_append, List.mem_singleton] at ho
  rcases ho with ho | ho
  · exact hg o ho
  · rw [ho]; rfl

theorem createWormhole_named (g : SceneGraph) (hg : RegistryNamed g) :
    RegistryNamed g.createWormhole := by
  intro o ho
  simp only [SceneGraph.createWormhole, List.mem_append, List.mem_singleton] at ho
  rcases ho with ho | ho
  · exact hg o ho
  · rw [ho]; rfl

theorem createAsteroidBelt_named (g : SceneGraph) (hg : RegistryNamed g) :
    RegistryNamed g.createAsteroidBelt := hg

/-- The scene that addObjects builds has a named registry. -/
theorem addObjects_named (sunType : String) (binary : Bool) (choice : Nat → PlanetChoice)
    (g : SceneGraph) (hg : RegistryNamed g) :
    RegistryNamed (addObjects sunType binary choice g) := by
  unfold addObjects
  simp only
  apply spawnComet_named
  have h3 := planets_foldl_named choice (List.range 8) _
    (createAsteroidBelt_named _ (createWormhole_named _ (createBlackHole_named
      (SceneGraph.createSun sunType binary
        { g with children := g.children ++ [leaf g.nextId, leaf (g.nextId + 1)],
                 nextId := g.nextId + 2 }) hg)))
  split_ifs
  · split
    · exact createSpaceStation_named _ _ h3
    · exact h3
  · exact h3

/-- Spawns and completions keep the registry named. -/
theorem step_named (g : SceneGraph) (e : Event) (hg : RegistryNamed g) :
    RegistryNamed (step g e) := by
  cases e with
  | spawn kind =>
    cases kind with
    | ship => exact hg
    | ufo => exact spawnUFO_named g hg
    | comet => exact spawnComet_named g hg
    | nyan => exact hg
  | complete kind id =>
    cases kind with
    | ship => exact hg
    | ufo => exact fun o ho => hg o ((eraseId_sublist id g.planets).subset ho)
    | comet => exact fun o ho => hg o ((eraseId_sublist id g.planets).subset ho)
    | nyan => exact hg

theorem runEvents_named : ∀ (events : List Event) (g : SceneGraph), RegistryNamed g →
    RegistryNamed (runEvents events g)
  | [], _, hg => hg
  | e :: es, g, hg => runEvents_named es (step g e) (step_named g e hg)

/-! ## Theorems -/

/-- C1. For a registry body with a non-zero speed `s` and stored angle `a0`, after the
`N` calls of `animate` for any `N` frames (whatever their deltas and audio data) the
body is still at its index, its speed is unchanged and its stored angle is exactly
`a0 + N * s`; hence it is congruent to `a0 + N * s` modulo `2 * pi`. -/
theorem orbit_angle_after_ticks (m : JsMath ℝ) (rand : Nat → ℝ) (frames : List (Frame ℝ))
    (s : SpaceScene ℝ) (i : Nat) (p : Body ℝ) (speed : ℝ)
    (hp : s.planets[i]? = some p) (hs : p.userData.speed = some speed) (h0 : speed ≠ 0) :
    ∃ q, (run m rand frames s).planets[i]? = some q ∧
      q.userData.speed = some speed ∧
      q.userData.angle = p.userData.angle + frames.length * speed ∧
      ∃ n : ℤ, q.userData.angle - (p.userData.angle + frames.length * speed) =
        n * (2 * Real.pi) := by
  induction frames generalizing s p with
  | nil => exact ⟨p, by simpa [run] using hp, hs, by simp, 0, by simp⟩
  | cons f fs ih =>
    obtain ⟨k', hk⟩ := animate_planet m rand f s i p hp
    obtain ⟨e1, e2, -⟩ := updateBody_orbit m rand (animate m rand f s).bass k' p speed hs h0
    obtain ⟨q, hq, hqs, hqa, -⟩ := ih (animate m rand f s) _ hk e1
    refine ⟨q, by simpa [run] using hq, hqs, ?_, 0, ?_⟩
    · rw [hqa, e2]; push_cast [List.length_cons]; ring
    · rw [hqa, e2]; push_cast [List.length_cons]; ring

/-- C1, at a concrete input: the retrograde planet after two silent frames. -/
theorem orbit_angle_after_ticks_witness :
    ∃ q, (run ⟨Real.exp, Real.cos, Real.sin, Real.pi⟩ (fun _ => 0)
        [silentFrame, silentFrame] onePlanetScene).planets[0]? = some q ∧
      q.userData.speed = some (-0.0005 : ℝ) ∧
      q.userData.angle = (retrogradePlanet : Body ℝ).userData.angle +
        ([silentFrame, silentFrame] : List (Frame ℝ)).length * (-0.0005) ∧
      ∃ n : ℤ, q.userData.angle - ((retrogradePlanet : Body ℝ).userData.angle +
        ([silentFrame, silentFrame] : List (Frame ℝ)).length * (-0.0005)) =
        n * (2 * Real.pi) :=
  orbit_angle_after_ticks _ _ _ onePlanetScene 0 retrogradePlanet (-0.0005) rfl rfl
    (by norm_num)

/-- C2. After a tick, the position written for a body with a truthy speed is
`(a cos t, b sin t sin i, b sin t cos i)` with `a`, `b`, `i` its semi-major axis,
semi-minor axis and inclination (none of them changed by the tick) and `t` the stored
angle after this tick's increment; when `i = 0` the `y` coordinate is `0` and
`z = b sin t`. -/
theorem orbit_position_ellipse (exp : ℝ → ℝ) (PI : ℝ) (rand : Nat → ℝ) (f : Frame ℝ)
    (s : SpaceScene ℝ) (i : Nat) (p : Body ℝ) (speed : ℝ)
    (hp : s.planets[i]? = some p) (hs : p.userData.speed = some speed) (h0 : speed ≠ 0) :
    ∃ q, (animate ⟨exp, Real.cos, Real.sin, PI⟩ rand f s).planets[i]? = some q ∧
      q.userData.angle = p.userData.angle + speed ∧
      q.userData.semiMajorAxis = p.userData.semiMajorAxis ∧
      q.userData.semiMinorAxis = p.userData.semiMinorAxis ∧
      q.userData.inclination = p.userData.inclination ∧
      q.position =
        ⟨q.userData.semiMajorAxis * Real.cos q.userData.angle,
         q.userData.semiMinorAxis * Real.sin q.userData.angle *
           Real.sin q.userData.inclination,
         q.userData.semiMinorAxis * Real.sin q.userData.angle *
           Real.cos q.userData.inclination⟩ ∧
      (p.userData.inclination = 0 →
        q.position.y = 0 ∧
        q.position.z = q.userData.semiMinorAxis * Real.sin q.userData.angle) := by
  obtain ⟨k', hk⟩ := animate_planet ⟨exp, Real.cos, Real.sin, PI⟩ rand f s i p hp
  obtain ⟨-, e2, e3, e4, e5, e6⟩ := updateBody_orbit ⟨exp, Real.cos, Real.sin, PI⟩ rand
    (animate ⟨exp, Real.cos, Real.sin, PI⟩ rand f s).bass k' p speed hs h0
  refine ⟨_, hk, e2, e3, e4, e5, ?_, ?_⟩
  · rw [e6, e2, e3, e4, e5]
  · intro hi
    rw [e6, e2, e4, hi]
    simp

/-- C2, at a concrete input: the retrograde planet after one silent frame. -/
theorem orbit_position_ellipse_witness :
    ∃ q, (animate ⟨Real.exp, Real.cos, Real.sin, Real.pi⟩ (fun _ => 0) silentFrame
        onePlanetScene).planets[0]? = some q ∧
      q.userData.angle = (retrogradePlanet : Body ℝ).userData.angle + (-0.0005 : ℝ) ∧
      q.userData.semiMajorAxis = (retrogradePlanet : Body ℝ).userData.semiMajorAxis ∧
      q.userData.semiMinorAxis = (retrogradePlanet : Body ℝ).userData.semiMinorAxis ∧
      q.userData.inclination = (retrogradePlanet : Body ℝ).userData.inclination ∧
      q.position =
        ⟨q.userData.semiMajorAxis * Real.cos q.userData.angle,
         q.userData.semiMinorAxis * Real.sin q.userData.angle *
           Real.sin q.userData.inclination,
         q.userData.semiMinorAxis * Real.sin q.userData.angle *
           Real.cos q.userData.inclination⟩ ∧
      ((retrogradePlanet : Body ℝ).userData.inclination = 0 →
        q.position.y = 0 ∧
        q.position.z = q.userData.semiMinorAxis * Real.sin q.userData.angle) :=
  orbit_position_ellipse Real.exp Real.pi (fun _ => 0) silentFrame onePlanetScene 0
    retrogradePlanet (-0.0005) rfl rfl (by norm_num)

/-- C3, as stated, fails: the retrograde planet starts at angle `0`, inside
`[0, 2 pi)`, and after one tick its stored angle is negative. -/
theorem angle_leaves_range :
    0 ≤ (retrogradePlanet : Body ℝ).userData.angle ∧
    (retrogradePlanet : Body ℝ).userData.angle < 2 * Real.pi ∧
    ∃ q, (animate ⟨Real.exp, Real.cos, Real.sin, Real.pi⟩ (fun _ => 0) silentFrame
        onePlanetScene).planets[0]? = some q ∧
      ¬ (0 ≤ q.userData.angle ∧ q.userData.angle < 2 * Real.pi) := by
  refine ⟨le_refl _, by simpa [retrogradePlanet] using Real.pi_pos, ?_⟩
  obtain ⟨k', hk⟩ := animate_planet ⟨Real.exp, Real.cos, Real.sin, Real.pi⟩ (fun _ => 0)
    silentFrame onePlanetScene 0 retrogradePlanet rfl
  obtain ⟨-, e2, -⟩ := updateBody_orbit ⟨Real.exp, Real.cos, Real.sin, Real.pi⟩ (fun _ => 0)
    (animate ⟨Real.exp, Real.cos, Real.sin, Real.pi⟩ (fun _ => 0) silentFrame
      onePlanetScene).bass k' retrogradePlanet (-0.0005) rfl (by norm_num)
  refine ⟨_, hk, ?_⟩
  rw [e2]
  intro h
  have h1 := h.1
  simp only [retrogradePlanet] at h1
  norm_num at h1

/-- C3, amended. A tick never changes the speed of a body and adds it to the stored
angle without wrapping; the stored angle differs by a whole number of turns from a
value `t` in `[0, 2 pi)`, and the position written is the one the wrapped angle `t`
gives. -/
theorem orbit_angle_unwrapped (exp : ℝ → ℝ) (PI : ℝ) (rand : Nat → ℝ) (f : Frame ℝ)
    (s : SpaceScene ℝ) (i : Nat) (p : Body ℝ) (speed : ℝ)
    (hp : s.planets[i]? = some p) (hs : p.userData.speed = some speed) (h0 : speed ≠ 0) :
    ∃ q, (animate ⟨exp, Real.cos, Real.sin, PI⟩ rand f s).planets[i]? = some q ∧
      q.userData.speed = some speed ∧
      q.userData.angle = p.userData.angle + speed ∧
      ∃ t : ℝ, 0 ≤ t ∧ t < 2 * Real.pi ∧
        (∃ n : ℤ, q.userData.angle = t + n * (2 * Real.pi)) ∧
        q.position =
          ⟨p.userData.semiMajorAxis * Real.cos t,
           p.userData.semiMinorAxis * Real.sin t * Real.sin p.userData.inclination,
           p.userData.semiMinorAxis * Real.sin t * Real.cos p.userData.inclination⟩ := by
  obtain ⟨k', hk⟩ := animate_planet ⟨exp, Real.cos, Real.sin, PI⟩ rand f s i p hp
  obtain ⟨e1, e2, -, -, -, e6⟩ := updateBody_orbit ⟨exp, Real.cos, Real.sin, PI⟩ rand
    (animate ⟨exp, Real.cos, Real.sin, PI⟩ rand f s).bass k' p speed hs h0
  have h2pi : (0 : ℝ) < 2 * Real.pi := by positivity
  refine ⟨_, hk, e1, e2, toIcoMod h2pi 0 (p.userData.angle + speed), ?_, ?_, ?_, ?_⟩
  · exact (toIcoMod_mem_Ico h2pi 0 _).1
  · simpa using (toIcoMod_mem_Ico h2pi 0 (p.userData.angle + speed)).2
  · refine ⟨toIcoDiv h2pi 0 (p.userData.angle + speed), ?_⟩
    rw [e2]
    have := toIcoMod_add_toIcoDiv_zsmul h2pi 0 (p.userData.angle + speed)
    simpa using this.symm
  · have ht : toIcoMod h2pi 0 (p.userData.angle + speed) =
        (p.userData.angle + speed) -
          (toIcoDiv h2pi 0 (p.userData.angle + speed) : ℤ) * (2 * Real.pi) := by
      have := toIcoMod_add_toIcoDiv_zsmul h2pi 0 (p.userData.angle + speed)
      simp only [zsmul_eq_mul] at this
      linarith
    rw [e6, ht, Real.cos_sub_int_mul_two_pi, Real.sin_sub_int_mul_two_pi]

/-- C3 amended, at a concrete input: the retrograde planet after one silent frame. -/
theorem orbit_angle_unwrapped_witness :
    ∃ q, (animate ⟨Real.exp, Real.cos, Real.sin, Real.pi⟩ (fun _ => 0) silentFrame
        onePlanetScene).planets[0]? = some q ∧
      q.userData.speed = some (-0.0005 : ℝ) ∧
      q.userData.angle = (retrogradePlanet : Body ℝ).userData.angle + (-0.0005 : ℝ) ∧
      ∃ t : ℝ, 0 ≤ t ∧ t < 2 * Real.pi ∧
        (∃ n : ℤ, q.userData.angle = t + n * (2 * Real.pi)) ∧
        q.position =
          ⟨(retrogradePlanet : Body ℝ).userData.semiMajorAxis * Real.cos t,
           (retrogradePlanet : Body ℝ).userData.semiMinorAxis * Real.sin t *
             Real.sin (retrogradePlanet : Body ℝ).userData.inclination,
           (retrogradePlanet : Body ℝ).userData.semiMinorAxis * Real.sin t *
             Real.cos (retrogradePlanet : Body ℝ).userData.inclination⟩ :=
  orbit_angle_unwrapped Real.exp Real.pi (fun _ => 0) silentFrame onePlanetScene 0
    retrogradePlanet (-0.0005) rfl rfl (by norm_num)

/-- C4. One smoothing step never overshoots: for a frame delta `>= 0` the new value
`s + (T - s) * (1 - exp (-3 delta))` lies between `s` and `T` inclusive, and
`s <= new <= T` when `T > s`; `animate` applies this step to each of bass, mid and
treble. -/
theorem smooth_no_overshoot (cos sin : ℝ → ℝ) (PI : ℝ) (rand : Nat → ℝ) (f : Frame ℝ)
    (s : SpaceScene ℝ) (hd : 0 ≤ f.delta) :
    (∀ value target : ℝ,
      smooth ⟨Real.exp, cos, sin, PI⟩ f.delta target value =
        value + (target - value) * (1 - Real.exp (-3 * f.delta)) ∧
      min value target ≤ smooth ⟨Real.exp, cos, sin, PI⟩ f.delta target value ∧
      smooth ⟨Real.exp, cos, sin, PI⟩ f.delta target value ≤ max value target ∧
      (value < target →
        value ≤ smooth ⟨Real.exp, cos, sin, PI⟩ f.delta target value ∧
        smooth ⟨Real.exp, cos, sin, PI⟩ f.delta target value ≤ target)) ∧
    (animate ⟨Real.exp, cos, sin, PI⟩ rand f s).bass =
      smooth ⟨Real.exp, cos, sin, PI⟩ f.delta (targetBass f) s.bass ∧
    (animate ⟨Real.exp, cos, sin, PI⟩ rand f s).mid =
      smooth ⟨Real.exp, cos, sin, PI⟩ f.delta (targetMid f) s.mid ∧
    (animate ⟨Real.exp, cos, sin, PI⟩ rand f s).treble =
      smooth ⟨Real.exp, cos, sin, PI⟩ f.delta (targetTreble f) s.treble := by
  refine ⟨fun value target => ?_, rfl, rfl, rfl⟩
  have he1 := exp_decay_le_one f.delta hd
  have he0 := Real.exp_pos (-3 * f.delta)
  rw [smooth_real]
  refine ⟨by ring, ?_, ?_, ?_⟩
  · rcases le_total value target with h | h
    · rw [min_eq_left h]
      nlinarith [mul_nonneg (sub_nonneg.mpr h) (sub_nonneg.mpr he1)]
    · rw [min_eq_right h]
      nlinarith [mul_nonneg (sub_nonneg.mpr h) he0.le]
  · rcases le_total value target with h | h
    · rw [max_eq_right h]
      nlinarith [mul_nonneg (sub_nonneg.mpr h) he0.le]
    · rw [max_eq_left h]
      nlinarith [mul_nonneg (sub_nonneg.mpr h) (sub_nonneg.mpr he1)]
  · intro h
    constructor
    · nlinarith [mul_nonneg (sub_nonneg.mpr h.le) (sub_nonneg.mpr he1)]
    · nlinarith [mul_nonneg (sub_nonneg.mpr h.le) he0.le]

/-- C4, at a concrete input: a silent frame of 1/50 s on the one-planet scene. -/
theorem smooth_no_overshoot_witness :
    (∀ value target : ℝ,
      smooth ⟨Real.exp, Real.cos, Real.sin, Real.pi⟩ (silentFrame : Frame ℝ).delta target
          value =
        value + (target - value) * (1 - Real.exp (-3 * (silentFrame : Frame ℝ).delta)) ∧
      min value target ≤
        smooth ⟨Real.exp, Real.cos, Real.sin, Real.pi⟩ (silentFrame : Frame ℝ).delta target
          value ∧
      smooth ⟨Real.exp, Real.cos, Real.sin, Real.pi⟩ (silentFrame : Frame ℝ).delta target
          value ≤ max value target ∧
      (value < target →
        value ≤ smooth ⟨Real.exp, Real.cos, Real.sin, Real.pi⟩ (silentFrame : Frame ℝ).delta
          target value ∧
        smooth ⟨Real.exp, Real.cos, Real.sin, Real.pi⟩ (silentFrame : Frame ℝ).delta target
          value ≤ target)) ∧
    (animate ⟨Real.exp, Real.cos, Real.sin, Real.pi⟩ (fun _ => 0) silentFrame
        onePlanetScene).bass =
      smooth ⟨Real.exp, Real.cos, Real.sin, Real.pi⟩ (silentFrame : Frame ℝ).delta
        (targetBass silentFrame) (onePlanetScene : SpaceScene ℝ).bass ∧
    (animate ⟨Real.exp, Real.cos, Real.sin, Real.pi⟩ (fun _ => 0) silentFrame
        onePlanetScene).mid =
      smooth ⟨Real.exp, Real.cos, Real.sin, Real.pi⟩ (silentFrame : Frame ℝ).delta
        (targetMid silentFrame) (onePlanetScene : SpaceScene ℝ).mid ∧
    (animate ⟨Real.exp, Real.cos, Real.sin, Real.pi⟩ (fun _ => 0) silentFrame
        onePlanetScene).treble =
      smooth ⟨Real.exp, Real.cos, Real.sin, Real.pi⟩ (silentFrame : Frame ℝ).delta
        (targetTreble silentFrame) (onePlanetScene : SpaceScene ℝ).treble :=
  smooth_no_overshoot Real.cos Real.sin Real.pi (fun _ => 0) silentFrame onePlanetScene
    (by norm_num [silentFrame])

/-- C5. Under constant targets, after any frames the distance of each smoothed value
to its target is the initial distance times `exp (-3 * total)`, `total` the sum of the
frame deltas: the result depends on the total elapsed time only, not on its split into
frames, and each value converges to its target as the total elapsed time grows. -/
theorem smooth_total_time (cos sin : ℝ → ℝ) (PI : ℝ) (rand : Nat → ℝ)
    (frames : List (Frame ℝ)) (s : SpaceScene ℝ) (Tb Tm Tt : ℝ)
    (hT : ∀ f ∈ frames, targetBass f = Tb ∧ targetMid f = Tm ∧ targetTreble f = Tt) :
    ((run ⟨Real.exp, cos, sin, PI⟩ rand frames s).bass - Tb =
        (s.bass - Tb) * Real.exp (-3 * (frames.map Frame.delta).sum) ∧
      (run ⟨Real.exp, cos, sin, PI⟩ rand frames s).mid - Tm =
        (s.mid - Tm) * Real.exp (-3 * (frames.map Frame.delta).sum) ∧
      (run ⟨Real.exp, cos, sin, PI⟩ rand frames s).treble - Tt =
        (s.treble - Tt) * Real.exp (-3 * (frames.map Frame.delta).sum)) ∧
    (∀ frames2 : List (Frame ℝ),
      (∀ f ∈ frames2, targetBass f = Tb ∧ targetMid f = Tm ∧ targetTreble f = Tt) →
      (frames2.map Frame.delta).sum = (frames.map Frame.delta).sum →
      (run ⟨Real.exp, cos, sin, PI⟩ rand frames2 s).bass =
        (run ⟨Real.exp, cos, sin, PI⟩ rand frames s).bass ∧
      (run ⟨Real.exp, cos, sin, PI⟩ rand frames2 s).mid =
        (run ⟨Real.exp, cos, sin, PI⟩ rand frames s).mid ∧
      (run ⟨Real.exp, cos, sin, PI⟩ rand frames2 s).treble =
        (run ⟨Real.exp, cos, sin, PI⟩ rand frames s).treble) ∧
    (∀ ε : ℝ, 0 < ε → ∃ D : ℝ, ∀ frames2 : List (Frame ℝ),
      (∀ f ∈ frames2, targetBass f = Tb ∧ targetMid f = Tm ∧ targetTreble f = Tt) →
      D ≤ (frames2.map Frame.delta).sum →
      |(run ⟨Real.exp, cos, sin, PI⟩ rand frames2 s).bass - Tb| < ε ∧
      |(run ⟨Real.exp, cos, sin, PI⟩ rand frames2 s).mid - Tm| < ε ∧
      |(run ⟨Real.exp, cos, sin, PI⟩ rand frames2 s).treble - Tt| < ε) := by
  have hb := fun (fs : List (Frame ℝ)) (h : ∀ f ∈ fs, targetBass f = Tb ∧ targetMid f = Tm ∧
      targetTreble f = Tt) =>
    run_closed_form cos sin PI rand SpaceScene.bass targetBass (fun _ _ => rfl) Tb fs
      (fun f hf => (h f hf).1) s
  have hm := fun (fs : List (Frame ℝ)) (h : ∀ f ∈ fs, targetBass f = Tb ∧ targetMid f = Tm ∧
      targetTreble f = Tt) =>
    run_closed_form cos sin PI rand SpaceScene.mid targetMid (fun _ _ => rfl) Tm fs
      (fun f hf => (h f hf).2.1) s
  have ht := fun (fs : List (Frame ℝ)) (h : ∀ f ∈ fs, targetBass f = Tb ∧ targetMid f = Tm ∧
      targetTreble f = Tt) =>
    run_closed_form cos sin PI rand SpaceScene.treble targetTreble (fun _ _ => rfl) Tt fs
      (fun f hf => (h f hf).2.2) s
  refine ⟨⟨hb frames hT, hm frames hT, ht frames hT⟩, ?_, ?_⟩
  · intro frames2 h2 hsum
    have e1 := hb frames2 h2
    have e2 := hm frames2 h2
    have e3 := ht frames2 h2
    rw [hsum] at e1 e2 e3
    have f1 := hb frames hT
    have f2 := hm frames hT
    have f3 := ht frames hT
    exact ⟨by linarith, by linarith, by linarith⟩
  · intro ε hε
    obtain ⟨D1, h1⟩ := decay_below (s.bass - Tb) ε hε
    obtain ⟨D2, h2⟩ := decay_below (s.mid - Tm) ε hε
    obtain ⟨D3, h3⟩ := decay_below (s.treble - Tt) ε hε
    refine ⟨max D1 (max D2 D3), fun frames2 hc hD => ?_⟩
    rw [hb frames2 hc, hm frames2 hc, ht frames2 hc]
    exact ⟨h1 _ (le_trans (le_max_left _ _) hD),
      h2 _ (le_trans (le_trans (le_max_left _ _) (le_max_right _ _)) hD),
      h3 _ (le_trans (le_trans (le_max_right _ _) (le_max_right _ _)) hD)⟩

/-- C5, at a concrete input: two silent frames on the one-planet scene, targets `0`. -/
theorem smooth_total_time_witness :
    ((run ⟨Real.exp, Real.cos, Real.sin, Real.pi⟩ (fun _ => 0) [silentFrame, silentFrame]
          onePlanetScene).bass - 0 =
        ((onePlanetScene : SpaceScene ℝ).bass - 0) *
          Real.exp (-3 * (([silentFrame, silentFrame] : List (Frame ℝ)).map Frame.delta).sum) ∧
      (run ⟨Real.exp, Real.cos, Real.sin, Real.pi⟩ (fun _ => 0) [silentFrame, silentFrame]
          onePlanetScene).mid - 0 =
        ((onePlanetScene : SpaceScene ℝ).mid - 0) *
          Real.exp (-3 * (([silentFrame, silentFrame] : List (Frame ℝ)).map Frame.delta).sum) ∧
      (run ⟨Real.exp, Real.cos, Real.sin, Real.pi⟩ (fun _ => 0) [silentFrame, silentFrame]
          onePlanetScene).treble - 0 =
        ((onePlanetScene : SpaceScene ℝ).treble - 0) *
          Real.exp
            (-3 * (([silentFrame, silentFrame] : List (Frame ℝ)).map Frame.delta).sum)) ∧
    (∀ frames2 : List (Frame ℝ),
      (∀ f ∈ frames2, targetBass f = 0 ∧ targetMid f = 0 ∧ targetTreble f = 0) →
      (frames2.map Frame.delta).sum =
        (([silentFrame, silentFrame] : List (Frame ℝ)).map Frame.delta).sum →
      (run ⟨Real.exp, Real.cos, Real.sin, Real.pi⟩ (fun _ => 0) frames2 onePlanetScene).bass =
        (run ⟨Real.exp, Real.cos, Real.sin, Real.pi⟩ (fun _ => 0) [silentFrame, silentFrame]
          onePlanetScene).bass ∧
      (run ⟨Real.exp, Real.cos, Real.sin, Real.pi⟩ (fun _ => 0) frames2 onePlanetScene).mid =
        (run ⟨Real.exp, Real.cos, Real.sin, Real.pi⟩ (fun _ => 0) [silentFrame, silentFrame]
          onePlanetScene).mid ∧
      (run ⟨Real.exp, Real.cos, Real.sin, Real.pi⟩ (fun _ => 0) frames2
          onePlanetScene).treble =
        (run ⟨Real.exp, Real.cos, Real.sin, Real.pi⟩ (fun _ => 0) [silentFrame, silentFrame]
          onePlanetScene).treble) ∧
    (∀ ε : ℝ, 0 < ε → ∃ D : ℝ, ∀ frames2 : List (Frame ℝ),
      (∀ f ∈ frames2, targetBass f = 0 ∧ targetMid f = 0 ∧ targetTreble f = 0) →
      D ≤ (frames2.map Frame.delta).sum →
      |(run ⟨Real.exp, Real.cos, Real.sin, Real.pi⟩ (fun _ => 0) frames2
          onePlanetScene).bass - 0| < ε ∧
      |(run ⟨Real.exp, Real.cos, Real.sin, Real.pi⟩ (fun _ => 0) frames2
          onePlanetScene).mid - 0| < ε ∧
      |(run ⟨Real.exp, Real.cos, Real.sin, Real.pi⟩ (fun _ => 0) frames2
          onePlanetScene).treble - 0| < ε) :=
  smooth_total_time Real.cos Real.sin Real.pi (fun _ => 0) [silentFrame, silentFrame]
    onePlanetScene 0 0 0
    (by simp [targetBass, targetMid, targetTreble, audioActive, silentFrame])

/-- C6. The constructor sets bass, mid and treble to `0`, and after every tick of any
sequence of frames with deltas `>= 0` whose frequency data (where audio is playing) are
`frequencyBinCount` bytes, each of the three values is in `[0, 1]`. -/
theorem envelope_in_range (cos sin : ℝ → ℝ) (PI : ℝ) (rand : Nat → ℝ)
    (planets : List (Body ℝ)) (randomCalls : Nat) (frames : List (Frame ℝ))
    (hd : ∀ f ∈ frames, 0 ≤ f.delta)
    (hb : ∀ f ∈ frames, audioActive f = true → bytesOk f) (n : Nat) :
    (SpaceScene.constructed planets randomCalls).bass = 0 ∧
    (SpaceScene.constructed planets randomCalls).mid = 0 ∧
    (SpaceScene.constructed planets randomCalls).treble = 0 ∧
    (0 ≤ (run ⟨Real.exp, cos, sin, PI⟩ rand (frames.take n)
        (SpaceScene.constructed planets randomCalls)).bass ∧
      (run ⟨Real.exp, cos, sin, PI⟩ rand (frames.take n)
        (SpaceScene.constructed planets randomCalls)).bass ≤ 1) ∧
    (0 ≤ (run ⟨Real.exp, cos, sin, PI⟩ rand (frames.take n)
        (SpaceScene.constructed planets randomCalls)).mid ∧
      (run ⟨Real.exp, cos, sin, PI⟩ rand (frames.take n)
        (SpaceScene.constructed planets randomCalls)).mid ≤ 1) ∧
    (0 ≤ (run ⟨Real.exp, cos, sin, PI⟩ rand (frames.take n)
        (SpaceScene.constructed planets randomCalls)).treble ∧
      (run ⟨Real.exp, cos, sin, PI⟩ rand (frames.take n)
        (SpaceScene.constructed planets randomCalls)).treble ≤ 1) := by
  refine ⟨rfl, rfl, rfl, ?_⟩
  apply run_envelopeInRange cos sin PI rand (frames.take n) _
    (fun f hf => hd f (List.mem_of_mem_take hf))
    (fun f hf => hb f (List.mem_of_mem_take hf))
  simp [EnvelopeInRange, SpaceScene.constructed]

/-- C6, at a concrete input: a loud frame then a silent frame, looked at after the
first tick. -/
theorem envelope_in_range_witness :
    (SpaceScene.constructed [(retrogradePlanet : Body ℝ)] 0).bass = 0 ∧
    (SpaceScene.constructed [(retrogradePlanet : Body ℝ)] 0).mid = 0 ∧
    (SpaceScene.constructed [(retrogradePlanet : Body ℝ)] 0).treble = 0 ∧
    (0 ≤ (run ⟨Real.exp, Real.cos, Real.sin, Real.pi⟩ (fun _ => 0)
        ([loudFrame, silentFrame].take 1)
        (SpaceScene.constructed [(retrogradePlanet : Body ℝ)] 0)).bass ∧
      (run ⟨Real.exp, Real.cos, Real.sin, Real.pi⟩ (fun _ => 0)
        ([loudFrame, silentFrame].take 1)
        (SpaceScene.constructed [(retrogradePlanet : Body ℝ)] 0)).bass ≤ 1) ∧
    (0 ≤ (run ⟨Real.exp, Real.cos, Real.sin, Real.pi⟩ (fun _ => 0)
        ([loudFrame, silentFrame].take 1)
        (SpaceScene.constructed [(retrogradePlanet : Body ℝ)] 0)).mid ∧
      (run ⟨Real.exp, Real.cos, Real.sin, Real.pi⟩ (fun _ => 0)
        ([loudFrame, silentFrame].take 1)
        (SpaceScene.constructed [(retrogradePlanet : Body ℝ)] 0)).mid ≤ 1) ∧
    (0 ≤ (run ⟨Real.exp, Real.cos, Real.sin, Real.pi⟩ (fun _ => 0)
        ([loudFrame, silentFrame].take 1)
        (SpaceScene.constructed [(retrogradePlanet : Body ℝ)] 0)).treble ∧
      (run ⟨Real.exp, Real.cos, Real.sin, Real.pi⟩ (fun _ => 0)
        ([loudFrame, silentFrame].take 1)
        (SpaceScene.constructed [(retrogradePlanet : Body ℝ)] 0)).treble ≤ 1) :=
  envelope_in_range Real.cos Real.sin Real.pi (fun _ => 0) [retrogradePlanet] 0
    [loudFrame, silentFrame]
    (fun f hf => by
      simp only [List.mem_cons, List.mem_singleton, List.not_mem_nil, or_false] at hf
      rcases hf with rfl | rfl <;> exact (by norm_num : (0 : ℝ) ≤ 1 / 50))
    (fun f hf ha => by
      simp only [List.mem_cons, List.mem_singleton, List.not_mem_nil, or_false] at hf
      rcases hf with rfl | rfl
      · exact ⟨List.length_replicate 256 255, fun _ hb => (List.eq_of_mem_replicate hb).le⟩
      · exact absurd ha (by decide))
    1

set_option maxRecDepth 20000 in
/-- C7, at the failing input: audio is playing and the only non-zero entry of the 256
bytes is bin 10, at full scale.  Bin 10 belongs to none of the three bands (nor do
bins 100 and 255), so the bands do not partition the bins, and all three targets of
the frame are `0`. -/
theorem skipped_bin_ignored :
    audioActive (gapFrame : Frame ℝ) = true ∧
    (gapFrame : Frame ℝ).dataArray.length = frequencyBinCount ∧
    (∀ b ∈ (gapFrame : Frame ℝ).dataArray, b ≤ 255) ∧
    (gapFrame : Frame ℝ).dataArray[10]? = some 255 ∧
    (10 ∉ bassBins ∧ 10 ∉ midBins ∧ 10 ∉ trebleBins) ∧
    (100 < frequencyBinCount ∧ 100 ∉ bassBins ∧ 100 ∉ midBins ∧ 100 ∉ trebleBins) ∧
    (255 < frequencyBinCount ∧ 255 ∉ bassBins ∧ 255 ∉ midBins ∧ 255 ∉ trebleBins) ∧
    targetBass (gapFrame : Frame ℝ) = 0 ∧ targetMid (gapFrame : Frame ℝ) = 0 ∧
    targetTreble (gapFrame : Frame ℝ) = 0 := by
  have s1 : sumBins (gapFrame : Frame ℝ).dataArray bassBins = 0 := by decide
  have s2 : sumBins (gapFrame : Frame ℝ).dataArray midBins = 0 := by decide
  have s3 : sumBins (gapFrame : Frame ℝ).dataArray trebleBins = 0 := by decide
  refine ⟨rfl, by decide, by decide, by decide, ?_, ?_, ?_, ?_, ?_, ?_⟩
  · simp [bassBins, midBins, trebleBins, loopIndices]
  · simp [bassBins, midBins, trebleBins, loopIndices, frequencyBinCount, fftSize]
  · simp [bassBins, midBins, trebleBins, loopIndices, frequencyBinCount, fftSize]
  · simp [targetBass, s1]
  · simp [targetMid, s2]
  · simp [targetTreble, s3]

/-- C8. When audio is playing and the data are `frequencyBinCount = 256` bytes, each
target is the arithmetic mean of the bytes of its band divided by 255: the divisors
10, 89 and 154 are the numbers of bins summed, every index read holds a byte of the
array, and each target is in `[0, 1]`. -/
theorem band_targets_are_means (f : Frame ℝ) (ha : audioActive f = true) (hb : bytesOk f) :
    (targetBass f =
        (((bassBins.map (readByte f.dataArray)).sum : Nat) : ℝ) / (bassBins.length : ℝ) / 255 ∧
      targetMid f =
        (((midBins.map (readByte f.dataArray)).sum : Nat) : ℝ) / (midBins.length : ℝ) / 255 ∧
      targetTreble f =
        (((trebleBins.map (readByte f.dataArray)).sum : Nat) : ℝ) /
          (trebleBins.length : ℝ) / 255) ∧
    (bassBins.length = 10 ∧ midBins.length = 89 ∧ trebleBins.length = 154) ∧
    (frequencyBinCount = 256 ∧
      ∀ i ∈ bassBins ++ midBins ++ trebleBins,
        i < f.dataArray.length ∧
        ∃ b, f.dataArray[i]? = some b ∧ readByte f.dataArray i = b ∧ b ≤ 255) ∧
    ((0 ≤ targetBass f ∧ targetBass f ≤ 1) ∧ (0 ≤ targetMid f ∧ targetMid f ≤ 1) ∧
      (0 ≤ targetTreble f ∧ targetTreble f ≤ 1)) := by
  obtain ⟨l1, l2, l3⟩ := bins_length
  refine ⟨?_, ⟨l1, l2, l3⟩, ⟨rfl, fun i hi => ?_⟩, targets_unit f (fun _ => hb.2)⟩
  · rw [l1, l2, l3]
    simp only [targetBass, targetMid, targetTreble, ha, if_true, sumBins_eq_sum]
    norm_num
  · have hlt : i < f.dataArray.length := by
      rw [hb.1]
      exact bins_inside i hi
    refine ⟨hlt, f.dataArray[i], List.getElem?_eq_getElem hlt, ?_,
      hb.2 _ (List.getElem_mem hlt)⟩
    simp [readByte, List.getElem?_eq_getElem hlt]

/-- C8, at a concrete input: every bin at full scale. -/
theorem band_targets_are_means_witness :
    (targetBass (loudFrame : Frame ℝ) =
        (((bassBins.map (readByte (loudFrame : Frame ℝ).dataArray)).sum : Nat) : ℝ) /
          (bassBins.length : ℝ) / 255 ∧
      targetMid (loudFrame : Frame ℝ) =
        (((midBins.map (readByte (loudFrame : Frame ℝ).dataArray)).sum : Nat) : ℝ) /
          (midBins.length : ℝ) / 255 ∧
      targetTreble (loudFrame : Frame ℝ) =
        (((trebleBins.map (readByte (loudFrame : Frame ℝ).dataArray)).sum : Nat) : ℝ) /
          (trebleBins.length : ℝ) / 255) ∧
    (bassBins.length = 10 ∧ midBins.length = 89 ∧ trebleBins.length = 154) ∧
    (frequencyBinCount = 256 ∧
      ∀ i ∈ bassBins ++ midBins ++ trebleBins,
        i < (loudFrame : Frame ℝ).dataArray.length ∧
        ∃ b, (loudFrame : Frame ℝ).dataArray[i]? = some b ∧
          readByte (loudFrame : Frame ℝ).dataArray i = b ∧ b ≤ 255) ∧
    ((0 ≤ targetBass (loudFrame : Frame ℝ) ∧ targetBass (loudFrame : Frame ℝ) ≤ 1) ∧
      (0 ≤ targetMid (loudFrame : Frame ℝ) ∧ targetMid (loudFrame : Frame ℝ) ≤ 1) ∧
      (0 ≤ targetTreble (loudFrame : Frame ℝ) ∧ targetTreble (loudFrame : Frame ℝ) ≤ 1)) :=
  band_targets_are_means loudFrame rfl
    ⟨List.length_replicate 256 255, fun _ hb => (List.eq_of_mem_replicate hb).le⟩

/-- C9. When no analyser exists or the UFO audio is paused, the three targets of the
tick are `0` and each smoothed value becomes `old * exp (-3 delta)`, whose magnitude
is at most that of `old` for a delta `>= 0`; and if no frame has an analyser, bass, mid
and treble are exactly `0` after every tick from construction on. -/
theorem silent_targets_decay (cos sin : ℝ → ℝ) (PI : ℝ) (rand : Nat → ℝ) (f : Frame ℝ)
    (s : SpaceScene ℝ) (hq : f.analyser = false ∨ f.paused = true) (hd : 0 ≤ f.delta) :
    (targetBass f = 0 ∧ targetMid f = 0 ∧ targetTreble f = 0) ∧
    ((animate ⟨Real.exp, cos, sin, PI⟩ rand f s).bass = s.bass * Real.exp (-3 * f.delta) ∧
      (animate ⟨Real.exp, cos, sin, PI⟩ rand f s).mid = s.mid * Real.exp (-3 * f.delta) ∧
      (animate ⟨Real.exp, cos, sin, PI⟩ rand f s).treble =
        s.treble * Real.exp (-3 * f.delta)) ∧
    (|(animate ⟨Real.exp, cos, sin, PI⟩ rand f s).bass| ≤ |s.bass| ∧
      |(animate ⟨Real.exp, cos, sin, PI⟩ rand f s).mid| ≤ |s.mid| ∧
      |(animate ⟨Real.exp, cos, sin, PI⟩ rand f s).treble| ≤ |s.treble|) ∧
    (∀ (planets : List (Body ℝ)) (randomCalls : Nat) (frames : List (Frame ℝ)),
      (∀ g ∈ frames, g.analyser = false) →
      (run ⟨Real.exp, cos, sin, PI⟩ rand frames
          (SpaceScene.constructed planets randomCalls)).bass = 0 ∧
      (run ⟨Real.exp, cos, sin, PI⟩ rand frames
          (SpaceScene.constructed planets randomCalls)).mid = 0 ∧
      (run ⟨Real.exp, cos, sin, PI⟩ rand frames
          (SpaceScene.constructed planets randomCalls)).treble = 0) := by
  obtain ⟨t1, t2, t3⟩ := targets_silent f hq
  have he1 := exp_decay_le_one f.delta hd
  have he0 := Real.exp_pos (-3 * f.delta)
  have eb : (animate ⟨Real.exp, cos, sin, PI⟩ rand f s).bass =
      s.bass * Real.exp (-3 * f.delta) := by
    simp only [animate, smooth_real, t1]; ring
  have em : (animate ⟨Real.exp, cos, sin, PI⟩ rand f s).mid =
      s.mid * Real.exp (-3 * f.delta) := by
    simp only [animate, smooth_real, t2]; ring
  have et : (animate ⟨Real.exp, cos, sin, PI⟩ rand f s).treble =
      s.treble * Real.exp (-3 * f.delta) := by
    simp only [animate, smooth_real, t3]; ring
  have habs : ∀ v : ℝ, |v * Real.exp (-3 * f.delta)| ≤ |v| := fun v => by
    rw [abs_mul, abs_of_pos he0]
    exact mul_le_of_le_one_right (abs_nonneg v) he1
  refine ⟨⟨t1, t2, t3⟩, ⟨eb, em, et⟩, ⟨?_, ?_, ?_⟩, fun planets k frames hf => ?_⟩
  · rw [eb]; exact habs _
  · rw [em]; exact habs _
  · rw [et]; exact habs _
  · exact run_silent_zero cos sin PI rand frames _ hf ⟨rfl, rfl, rfl⟩

/-- C9, at a concrete input: a silent frame of 1/50 s on the one-planet scene. -/
theorem silent_targets_decay_witness :
    (targetBass (silentFrame : Frame ℝ) = 0 ∧ targetMid (silentFrame : Frame ℝ) = 0 ∧
      targetTreble (silentFrame : Frame ℝ) = 0) ∧
    ((animate ⟨Real.exp, Real.cos, Real.sin, Real.pi⟩ (fun _ => 0) silentFrame
          onePlanetScene).bass =
        (onePlanetScene : SpaceScene ℝ).bass *
          Real.exp (-3 * (silentFrame : Frame ℝ).delta) ∧
      (animate ⟨Real.exp, Real.cos, Real.sin, Real.pi⟩ (fun _ => 0) silentFrame
          onePlanetScene).mid =
        (onePlanetScene : SpaceScene ℝ).mid *
          Real.exp (-3 * (silentFrame : Frame ℝ).delta) ∧
      (animate ⟨Real.exp, Real.cos, Real.sin, Real.pi⟩ (fun _ => 0) silentFrame
          onePlanetScene).treble =
        (onePlanetScene : SpaceScene ℝ).treble *
          Real.exp (-3 * (silentFrame : Frame ℝ).delta)) ∧
    (|(animate ⟨Real.exp, Real.cos, Real.sin, Real.pi⟩ (fun _ => 0) silentFrame
          onePlanetScene).bass| ≤ |(onePlanetScene : SpaceScene ℝ).bass| ∧
      |(animate ⟨Real.exp, Real.cos, Real.sin, Real.pi⟩ (fun _ => 0) silentFrame
          onePlanetScene).mid| ≤ |(onePlanetScene : SpaceScene ℝ).mid| ∧
      |(animate ⟨Real.exp, Real.cos, Real.sin, Real.pi⟩ (fun _ => 0) silentFrame
          onePlanetScene).treble| ≤ |(onePlanetScene : SpaceScene ℝ).treble|) ∧
    (∀ (planets : List (Body ℝ)) (randomCalls : Nat) (frames : List (Frame ℝ)),
      (∀ g ∈ frames, g.analyser = false) →
      (run ⟨Real.exp, Real.cos, Real.sin, Real.pi⟩ (fun _ => 0) frames
          (SpaceScene.constructed planets randomCalls)).bass = 0 ∧
      (run ⟨Real.exp, Real.cos, Real.sin, Real.pi⟩ (fun _ => 0) frames
          (SpaceScene.constructed planets randomCalls)).mid = 0 ∧
      (run ⟨Real.exp, Real.cos, Real.sin, Real.pi⟩ (fun _ => 0) frames
          (SpaceScene.constructed planets randomCalls)).treble = 0) :=
  silent_targets_decay Real.cos Real.sin Real.pi (fun _ => 0) silentFrame onePlanetScene
    (Or.inl rfl) (by norm_num [silentFrame])

/-- C10. One tick updates every debris particle in place and adds or removes none: the
particle list and the buffer keep their lengths (600 particles and 1800 entries as
created by createBlackHole); a particle that is not recycled, with `g = 5 / r ^ 2` taken
from the radius before the update, gets speed `v + 0.01 g`, angle
`angle + (v + 0.01 g)` and radius `r - (0.05 + 2 g)`; and the buffer receives
`x = radius * cos angle` and `z = radius * sin angle` of the new state of every
particle, its `y` entry being left as it was. -/
theorem debris_tick (exp : ℝ → ℝ) (PI : ℝ) (rand : Nat → ℝ) (f : Frame ℝ) (s : SpaceScene ℝ)
    (i : Nat) (p : Body ℝ) (positions : List ℝ) (debrisData : List (Debris ℝ))
    (hp : s.planets[i]? = some p) (hpos : p.userData.debris = some positions)
    (hdd : p.userData.debrisData = some debrisData)
    (hlen : positions.length = debrisData.length * 3) :
    (∀ k : Nat,
      (createDebrisField ⟨exp, Real.cos, Real.sin, PI⟩ rand debrisCount k).1.length = 600 ∧
      (createDebrisField ⟨exp, Real.cos, Real.sin, PI⟩ rand debrisCount k).2.length =
        600 * 3) ∧
    ∃ q positions2 debrisData2,
      (animate ⟨exp, Real.cos, Real.sin, PI⟩ rand f s).planets[i]? = some q ∧
      q.userData.debris = some positions2 ∧ q.userData.debrisData = some debrisData2 ∧
      debrisData2.length = debrisData.length ∧ positions2.length = positions.length ∧
      (debrisData.length = 600 → debrisData2.length = 600) ∧
      ∀ (j : Nat) (d : Debris ℝ), debrisData[j]? = some d →
        ∃ d2, debrisData2[j]? = some d2 ∧
          positions2[j * 3]? = some (d2.radius * Real.cos d2.angle) ∧
          positions2[j * 3 + 2]? = some (d2.radius * Real.sin d2.angle) ∧
          positions2[j * 3 + 1]? = positions[j * 3 + 1]? ∧
          (5.5 ≤ d.radius - (0.05 + 2 * (5 / d.radius ^ 2)) →
            d2.speed = d.speed + 0.01 * (5 / d.radius ^ 2) ∧
            d2.angle = d.angle + (d.speed + 0.01 * (5 / d.radius ^ 2)) ∧
            d2.radius = d.radius - (0.05 + 2 * (5 / d.radius ^ 2)) ∧
            d2.drift = d.drift) := by
  refine ⟨fun k => createDebrisField_length _ rand 600 k, ?_⟩
  obtain ⟨k', hk⟩ := animate_planet ⟨exp, Real.cos, Real.sin, PI⟩ rand f s i p hp
  obtain ⟨u1, u2⟩ := updateBody_debris ⟨exp, Real.cos, Real.sin, PI⟩ rand
    (animate ⟨exp, Real.cos, Real.sin, PI⟩ rand f s).bass k' p positions debrisData hpos hdd
  obtain ⟨l1, l2⟩ := debrisLoop_length ⟨exp, Real.cos, Real.sin, PI⟩ rand debrisData 0 k'
    positions
  refine ⟨_, _, _, hk, u1, u2, l1, l2, fun h => l1.trans h, fun j d hj => ?_⟩
  obtain ⟨k2, g1, g2, g3⟩ := debrisLoop_getElem? ⟨exp, Real.cos, Real.sin, PI⟩ rand debrisData
    0 k' positions j d hj
  simp only [Nat.zero_add] at g2 g3
  have hjlt : j < debrisData.length := by
    by_contra hc
    rw [List.getElem?_eq_none (not_lt.mp hc)] at hj
    exact absurd hj (by simp)
  obtain ⟨g4, g5⟩ := g2 (by omega)
  refine ⟨_, g1, g4, g5, g3, fun hkeep => ?_⟩
  obtain ⟨a, b, c, e, -⟩ := debrisStep_keep ⟨exp, Real.cos, Real.sin, PI⟩ rand k2 d hkeep
  exact ⟨a, b, c, e⟩

/-- C10, at a concrete input: the black hole with one particle at radius 20. -/
theorem debris_tick_witness :
    (∀ k : Nat,
      (createDebrisField ⟨Real.exp, Real.cos, Real.sin, Real.pi⟩ (fun _ => 0) debrisCount
        k).1.length = 600 ∧
      (createDebrisField ⟨Real.exp, Real.cos, Real.sin, Real.pi⟩ (fun _ => 0) debrisCount
        k).2.length = 600 * 3) ∧
    ∃ q positions2 debrisData2,
      (animate ⟨Real.exp, Real.cos, Real.sin, Real.pi⟩ (fun _ => 0) silentFrame
        blackHoleScene).planets[1]? = some q ∧
      q.userData.debris = some positions2 ∧ q.userData.debrisData = some debrisData2 ∧
      debrisData2.length = [(demoDebris : Debris ℝ)].length ∧
      positions2.length = ([20, 0.25, 0] : List ℝ).length ∧
      ([(demoDebris : Debris ℝ)].length = 600 → debrisData2.length = 600) ∧
      ∀ (j : Nat) (d : Debris ℝ), [(demoDebris : Debris ℝ)][j]? = some d →
        ∃ d2, debrisData2[j]? = some d2 ∧
          positions2[j * 3]? = some (d2.radius * Real.cos d2.angle) ∧
          positions2[j * 3 + 2]? = some (d2.radius * Real.sin d2.angle) ∧
          positions2[j * 3 + 1]? = ([20, 0.25, 0] : List ℝ)[j * 3 + 1]? ∧
          (5.5 ≤ d.radius - (0.05 + 2 * (5 / d.radius ^ 2)) →
            d2.speed = d.speed + 0.01 * (5 / d.radius ^ 2) ∧
            d2.angle = d.angle + (d.speed + 0.01 * (5 / d.radius ^ 2)) ∧
            d2.radius = d.radius - (0.05 + 2 * (5 / d.radius ^ 2)) ∧
            d2.drift = d.drift) :=
  debris_tick Real.exp Real.pi (fun _ => 0) silentFrame blackHoleScene 1 demoBlackHole
    [20, 0.25, 0] [demoDebris] rfl rfl rfl rfl

/-- C11. For the particles created by createBlackHole (radius in `[10, 35)`) and every
sequence of ticks with random draws in `[0, 1)`, every particle has radius `>= 5.5`,
hence `> 0` and a non-zero divisor `radius * radius`, at the end of every tick: the
update of a particle ends with radius `>= 5.5`, and when the updated radius is below
`5.5` the particle is reset in that same update to a radius in `[25, 35)`, an angle in
`[0, 2 pi)` and a speed in `[0.02, 0.05)`. -/
theorem debris_radius_invariant (exp cos sin : ℝ → ℝ) (rand : Nat → ℝ)
    (hr : ∀ n, 0 ≤ rand n ∧ rand n < 1) (s : SpaceScene ℝ) (i k0 : Nat)
    (hp : s.planets[i]? = some (createBlackHole ⟨exp, cos, sin, Real.pi⟩ rand k0).1) :
    (∃ ds, (createBlackHole ⟨exp, cos, sin, Real.pi⟩ rand k0).1.userData.debrisData = some ds ∧
      ds.length = 600 ∧ ∀ d ∈ ds, 10 ≤ d.radius ∧ d.radius < 35) ∧
    (∀ frames : List (Frame ℝ), ∃ (q : Body ℝ) (ds : List (Debris ℝ)),
      (run ⟨exp, cos, sin, Real.pi⟩ rand frames s).planets[i]? = some q ∧
      q.userData.debrisData = some ds ∧
      ∀ d ∈ ds, (5.5 : ℝ) ≤ d.radius ∧ 0 < d.radius ∧ d.radius * d.radius ≠ 0) ∧
    (∀ (k : Nat) (d : Debris ℝ),
      5.5 ≤ (debrisStep ⟨exp, cos, sin, Real.pi⟩ rand k d).1.radius ∧
      (d.radius - (0.05 + 2 * (5 / d.radius ^ 2)) < 5.5 →
        (25 ≤ (debrisStep ⟨exp, cos, sin, Real.pi⟩ rand k d).1.radius ∧
          (debrisStep ⟨exp, cos, sin, Real.pi⟩ rand k d).1.radius < 35) ∧
        (0 ≤ (debrisStep ⟨exp, cos, sin, Real.pi⟩ rand k d).1.angle ∧
          (debrisStep ⟨exp, cos, sin, Real.pi⟩ rand k d).1.angle < 2 * Real.pi) ∧
        (0.02 ≤ (debrisStep ⟨exp, cos, sin, Real.pi⟩ rand k d).1.speed ∧
          (debrisStep ⟨exp, cos, sin, Real.pi⟩ rand k d).1.speed < 0.05))) := by
  have hcreated := createDebrisField_radius ⟨exp, cos, sin, Real.pi⟩ rand hr debrisCount
    (k0 + 3 + accretionDiskDraws)
  refine ⟨⟨_, rfl, (createDebrisField_length _ rand 600 _).1, hcreated⟩, fun frames => ?_,
    fun k d => ⟨debrisStep_radius _ rand hr k d, fun h => ?_⟩⟩
  · have h0 : DebrisAbove s i :=
      ⟨_, _, _, hp, rfl, rfl, fun d hd => by linarith [(hcreated d hd).1]⟩
    obtain ⟨q, -, ds, hq, -, hds, hall⟩ :=
      run_debrisAbove ⟨exp, cos, sin, Real.pi⟩ rand hr i frames s h0
    refine ⟨q, ds, hq, hds, fun d hd => ?_⟩
    have h55 := hall d hd
    have hpos : 0 < d.radius := by linarith
    exact ⟨h55, hpos, (mul_pos hpos hpos).ne'⟩
  · obtain ⟨e1, e2, e3, -⟩ := debrisStep_reset ⟨exp, cos, sin, Real.pi⟩ rand k d h
    rw [e1, e2, e3]
    have hpi := Real.pi_pos
    refine ⟨⟨by linarith [(hr k).1], by linarith [(hr k).2]⟩, ⟨?_, ?_⟩,
      ⟨by linarith [(hr (k + 2)).1], by linarith [(hr (k + 2)).2]⟩⟩
    · exact mul_nonneg (mul_nonneg (hr (k + 1)).1 hpi.le) (by norm_num)
    · nlinarith [(hr (k + 1)).2]

/-- C11, at a concrete input: the black hole created with every draw `0`, alone in the
registry. -/
theorem debris_radius_invariant_witness :
    (∃ ds, (createBlackHole ⟨Real.exp, Real.cos, Real.sin, Real.pi⟩ (fun _ => 0)
        0).1.userData.debrisData = some ds ∧
      ds.length = 600 ∧ ∀ d ∈ ds, 10 ≤ d.radius ∧ d.radius < 35) ∧
    (∀ frames : List (Frame ℝ), ∃ (q : Body ℝ) (ds : List (Debris ℝ)),
      (run ⟨Real.exp, Real.cos, Real.sin, Real.pi⟩ (fun _ => 0) frames
        (SpaceScene.constructed
          [(createBlackHole ⟨Real.exp, Real.cos, Real.sin, Real.pi⟩ (fun _ => 0) 0).1]
          0)).planets[0]? = some q ∧
      q.userData.debrisData = some ds ∧
      ∀ d ∈ ds, (5.5 : ℝ) ≤ d.radius ∧ 0 < d.radius ∧ d.radius * d.radius ≠ 0) ∧
    (∀ (k : Nat) (d : Debris ℝ),
      5.5 ≤ (debrisStep ⟨Real.exp, Real.cos, Real.sin, Real.pi⟩ (fun _ => 0) k d).1.radius ∧
      (d.radius - (0.05 + 2 * (5 / d.radius ^ 2)) < 5.5 →
        (25 ≤ (debrisStep ⟨Real.exp, Real.cos, Real.sin, Real.pi⟩ (fun _ => 0) k d).1.radius ∧
          (debrisStep ⟨Real.exp, Real.cos, Real.sin, Real.pi⟩ (fun _ => 0) k d).1.radius < 35) ∧
        (0 ≤ (debrisStep ⟨Real.exp, Real.cos, Real.sin, Real.pi⟩ (fun _ => 0) k d).1.angle ∧
          (debrisStep ⟨Real.exp, Real.cos, Real.sin, Real.pi⟩ (fun _ => 0) k d).1.angle <
            2 * Real.pi) ∧
        (0.02 ≤ (debrisStep ⟨Real.exp, Real.cos, Real.sin, Real.pi⟩ (fun _ => 0) k d).1.speed ∧
          (debrisStep ⟨Real.exp, Real.cos, Real.sin, Real.pi⟩ (fun _ => 0) k d).1.speed <
            0.05))) :=
  debris_radius_invariant Real.exp Real.cos Real.sin (fun _ => 0)
    (fun _ => ⟨le_refl 0, zero_lt_one⟩)
    (SpaceScene.constructed
      [(createBlackHole ⟨Real.exp, Real.cos, Real.sin, Real.pi⟩ (fun _ => 0) 0).1] 0)
    0 0 rfl

/-- C12. The ancestor walk of picking is a total function of the hit object and its
finite parent chain, and it returns the nearest node of the chain, from the hit object
upward and the hit object included, that carries a name: every node passed over is
unnamed, and the result is named whenever some node of the chain is.  A named hit
object (a moon) resolves to itself and an unnamed hit mesh to its nearest named
ancestor; a chain without any name resolves to its last node. -/
theorem ancestorWalk_nearest_named (obj : SceneNode ℝ) (ancestors : List (SceneNode ℝ)) :
    (∃ pre, obj :: ancestors =
        pre ++ (ancestorWalk obj ancestors).1 :: (ancestorWalk obj ancestors).2 ∧
      ∀ n ∈ pre, hasName n.name = false) ∧
    ((∃ n ∈ obj :: ancestors, hasName n.name = true) →
      hasName (ancestorWalk obj ancestors).1.name = true) ∧
    (hasName obj.name = true → ancestorWalk obj ancestors = (obj, ancestors)) ∧
    ((∀ n ∈ obj :: ancestors, hasName n.name = false) →
      (ancestorWalk obj ancestors).2 = [] ∧
      (obj :: ancestors).getLast? = some (ancestorWalk obj ancestors).1) ∧
    (∀ rotationP rotationM : ℝ,
      ancestorWalk moonNode [pivotNode rotationM, planetNode rotationP, sceneRoot] =
        (moonNode, [pivotNode rotationM, planetNode rotationP, sceneRoot]) ∧
      ancestorWalk meshNode [pivotNode rotationM, planetNode rotationP, sceneRoot] =
        (planetNode rotationP, [sceneRoot])) := by
  obtain ⟨pre, hpre, hall⟩ := ancestorWalk_split obj ancestors
  refine ⟨⟨pre, hpre, hall⟩, ancestorWalk_named obj ancestors, fun h => ?_, fun h => ?_,
    fun rotationP rotationM => ?_⟩
  · cases ancestors with
    | nil => rfl
    | cons parent rest => simp [ancestorWalk, h]
  · have hmem : (ancestorWalk obj ancestors).1 ∈ obj :: ancestors := by
      rw [hpre]; simp
    have hnil := ancestorWalk_unnamed obj ancestors (h _ hmem)
    refine ⟨hnil, ?_⟩
    rw [hpre, hnil]
    simp
  · simp [ancestorWalk, hasName, moonNode, pivotNode, planetNode, meshNode]

/-- C14, at the failing input: the nearest hit is a moon at local position `(5, 0, 0)`
in its pivot, under a planet at `(22, 0, 0)`, whatever the turns of pivot and planet.
The callback receives the projection of the local position `(5, 0, 0)`, while the moon
is at `(22 + 5 cos t, 0, -5 sin t)` in world space, `t` the sum of the two turns; the
two points differ, and so do their images under every injective projection.  Only for
a node directly under the scene root is the local position the world position. -/
theorem hover_reports_local_position (exp : ℝ → ℝ) (PI : ℝ)
    (project : Vector3 ℝ → Vector3 ℝ) (rotationP rotationM : ℝ) :
    hoverCalls project
        [(moonNode, [pivotNode rotationM, planetNode rotationP, sceneRoot])] =
      [HoverCall.named "Rocky" (project ⟨5, 0, 0⟩)] ∧
    worldPosition ⟨exp, Real.cos, Real.sin, PI⟩ moonNode
        [pivotNode rotationM, planetNode rotationP, sceneRoot] =
      ⟨22 + 5 * Real.cos (rotationP + rotationM), 0,
        -(5 * Real.sin (rotationP + rotationM))⟩ ∧
    worldPosition ⟨exp, Real.cos, Real.sin, PI⟩ moonNode
        [pivotNode rotationM, planetNode rotationP, sceneRoot] ≠ ⟨5, 0, 0⟩ ∧
    (Function.Injective project →
      project ⟨5, 0, 0⟩ ≠
        project (worldPosition ⟨exp, Real.cos, Real.sin, PI⟩ moonNode
          [pivotNode rotationM, planetNode rotationP, sceneRoot])) ∧
    (∀ obj : SceneNode ℝ,
      worldPosition ⟨exp, Real.cos, Real.sin, PI⟩ obj [sceneRoot] = obj.position) := by
  have hw : worldPosition ⟨exp, Real.cos, Real.sin, PI⟩ moonNode
      [pivotNode rotationM, planetNode rotationP, sceneRoot] =
      ⟨22 + 5 * Real.cos (rotationP + rotationM), 0,
        -(5 * Real.sin (rotationP + rotationM))⟩ := by
    simp only [worldPosition, List.foldl_cons, List.foldl_nil, applyMatrix, moonNode,
      pivotNode, planetNode, sceneRoot, Real.cos_zero, Real.sin_zero, Real.cos_add,
      Real.sin_add, Vector3.mk.injEq]
    refine ⟨by ring, by ring, by ring⟩
  have hne : worldPosition ⟨exp, Real.cos, Real.sin, PI⟩ moonNode
      [pivotNode rotationM, planetNode rotationP, sceneRoot] ≠ ⟨5, 0, 0⟩ := by
    rw [hw]
    intro h
    have hx := congrArg Vector3.x h
    simp only at hx
    linarith [Real.neg_one_le_cos (rotationP + rotationM)]
  refine ⟨?_, hw, hne, fun hinj h => hne (hinj h).symm, fun obj => ?_⟩
  · simp [hoverCalls, ancestorWalk, hasName, moonNode]
  · simp [worldPosition, applyMatrix, sceneRoot]

set_option maxRecDepth 100000 in
/-- C15, at the failing input: the scene built by addObjects (a "Yellow Dwarf" sun, eight
planets, the first with a moon) followed by the spawn of a UFO.  Its named objects are
the sun, the black hole, the wormhole, the belt, the planets, the moon, the station, the
comet and the UFO; all are in the scene, and all are in the picking set except the sun
group and the Kuiper belt, which createSun and createAsteroidBelt add to the scene
without pushing them to the registry. -/
theorem sun_and_belt_not_pickable :
    Object3D.namedOfList demoGraph.children =
      [(2, "Yellow Dwarf"), (6, "Gargantua"), (11, "Einstein-Rosen Bridge"),
        (14, "Kuiper Belt"), (15, "Toxic Planet 1"), (19, "Rocky"), (35, "ISS Vanguard"),
        (21, "Toxic Planet 2"), (23, "Toxic Planet 3"), (25, "Toxic Planet 4"),
        (27, "Toxic Planet 5"), (29, "Toxic Planet 6"), (31, "Toxic Planet 7"),
        (33, "Toxic Planet 8"), (41, "Halley\x27s Comet"),
        (45, "Subterranean Homesick Alien")] ∧
    (∀ p ∈ Object3D.namedOfList demoGraph.children, inScene demoGraph p.1 = true) ∧
    (Object3D.namedOfList demoGraph.children).filter (fun p => !pickable demoGraph p.1) =
      [(2, "Yellow Dwarf"), (14, "Kuiper Belt")] ∧
    demoGraph.planets.map Object3D.id = [6, 11, 15, 21, 23, 25, 27, 29, 31, 33, 41, 45] ∧
    (∀ (g : SceneGraph) (typeName : String) (binary : Bool),
      (g.createSun typeName binary).planets = g.planets ∧
      g.createAsteroidBelt.planets = g.planets) := by
  refine ⟨by decide, by decide, by decide, by decide, fun g typeName binary => ⟨rfl, rfl⟩⟩

/-- C16, as stated, fails: a spaceship or a Nyan Cat spawned into the empty graph is in
the scene and the registry stays empty, so the actor is not in the picking set. -/
theorem ship_and_nyan_not_registered :
    (inScene (spawnSpaceship emptyGraph).1 (spawnSpaceship emptyGraph).2.id = true ∧
      (spawnSpaceship emptyGraph).1.planets = [] ∧
      pickable (spawnSpaceship emptyGraph).1 (spawnSpaceship emptyGraph).2.id = false) ∧
    (inScene (spawnNyanCat emptyGraph).1 (spawnNyanCat emptyGraph).2.id = true ∧
      (spawnNyanCat emptyGraph).1.planets = [] ∧
      pickable (spawnNyanCat emptyGraph).1 (spawnNyanCat emptyGraph).2.id = false) :=
  ⟨⟨by decide, rfl, by decide⟩, ⟨by decide, rfl, by decide⟩⟩

/-- C16, amended. spawnComet and spawnUFO add the new, named actor to the scene and to
the registry, and it stays in the registry, hence in the picking set, through every
sequence of spawns and completions that does not hold its own completion;
spawnSpaceship and spawnNyanCat add their unnamed actor to the scene only and leave the
registry as it was. -/
theorem spawn_registers_named_actors (g : SceneGraph) :
    ((spawnUFO g).1.children = g.children ++ [(spawnUFO g).2] ∧
      (spawnUFO g).1.planets = g.planets ++ [(spawnUFO g).2] ∧
      hasName (spawnUFO g).2.name = true) ∧
    ((spawnComet g).1.children = g.children ++ [(spawnComet g).2] ∧
      (spawnComet g).1.planets = g.planets ++ [(spawnComet g).2] ∧
      hasName (spawnComet g).2.name = true) ∧
    ((spawnSpaceship g).1.children = g.children ++ [(spawnSpaceship g).2] ∧
      (spawnSpaceship g).1.planets = g.planets ∧ (spawnSpaceship g).2.name = none) ∧
    ((spawnNyanCat g).1.children = g.children ++ [(spawnNyanCat g).2] ∧
      (spawnNyanCat g).1.planets = g.planets ∧ (spawnNyanCat g).2.name = none) ∧
    (∀ events : List Event,
      (∀ e ∈ events, ∀ kind, e ≠ Event.complete kind (spawnUFO g).2.id) →
      (spawnUFO g).2.id ∈ (runEvents events (spawnUFO g).1).planets.map Object3D.id ∧
      pickable (runEvents events (spawnUFO g).1) (spawnUFO g).2.id = true) ∧
    (∀ events : List Event,
      (∀ e ∈ events, ∀ kind, e ≠ Event.complete kind (spawnComet g).2.id) →
      (spawnComet g).2.id ∈ (runEvents events (spawnComet g).1).planets.map Object3D.id ∧
      pickable (runEvents events (spawnComet g).1) (spawnComet g).2.id = true) := by
  refine ⟨⟨rfl, rfl, rfl⟩, ⟨rfl, rfl, rfl⟩, ⟨rfl, rfl, rfl⟩, ⟨rfl, rfl, rfl⟩,
    fun events h => ?_, fun events h => ?_⟩
  · have hm := runEvents_keeps (spawnUFO g).2.id events (spawnUFO g).1 h
      (by simp [spawnUFO])
    exact ⟨hm, pickable_of_mem _ _ hm⟩
  · have hm := runEvents_keeps (spawnComet g).2.id events (spawnComet g).1 h
      (by simp [spawnComet])
    exact ⟨hm, pickable_of_mem _ _ hm⟩

/-- C17. In a well-formed graph (every object created before `nextId`, no array holding
an object twice; kept by every spawn and completion), the spawn of a UFO or a comet
followed by its completion gives back the scene children and the registry as they
were; and the completion for an identity `id` in any such state leaves no object of
that identity in the scene children or the registry, keeps the other registry entries
in their order, and changes nothing when run a second time. -/
theorem completion_restores_registry (g : SceneGraph) (hg : WellFormed g) (id : Nat) :
    ((completeUFO (spawnUFO g).2.id (spawnUFO g).1).planets = g.planets ∧
      (completeUFO (spawnUFO g).2.id (spawnUFO g).1).children = g.children) ∧
    ((completeComet (spawnComet g).2.id (spawnComet g).1).planets = g.planets ∧
      (completeComet (spawnComet g).2.id (spawnComet g).1).children = g.children) ∧
    (id ∉ (completeUFO id g).planets.map Object3D.id ∧
      id ∉ (completeUFO id g).children.map Object3D.id ∧
      (completeUFO id g).planets = g.planets.filter (fun o => decide (o.id ≠ id)) ∧
      completeUFO id (completeUFO id g) = completeUFO id g) ∧
    (id ∉ (completeComet id g).planets.map Object3D.id ∧
      id ∉ (completeComet id g).children.map Object3D.id ∧
      (completeComet id g).planets = g.planets.filter (fun o => decide (o.id ≠ id)) ∧
      completeComet id (completeComet id g) = completeComet id g) ∧
    (∀ events : List Event, WellFormed (runEvents events g)) :=
  ⟨spawnUFO_complete g hg, spawnComet_complete g hg, completeUFO_spec g hg id,
    completeUFO_spec g hg id, fun events => runEvents_wellFormed events g hg⟩

set_option maxRecDepth 100000 in
/-- C17, at a concrete input: the built scene with its UFO (identity 45). -/
theorem completion_restores_registry_witness :
    ((completeUFO (spawnUFO demoGraph).2.id (spawnUFO demoGraph).1).planets =
        demoGraph.planets ∧
      (completeUFO (spawnUFO demoGraph).2.id (spawnUFO demoGraph).1).children =
        demoGraph.children) ∧
    ((completeComet (spawnComet demoGraph).2.id (spawnComet demoGraph).1).planets =
        demoGraph.planets ∧
      (completeComet (spawnComet demoGraph).2.id (spawnComet demoGraph).1).children =
        demoGraph.children) ∧
    (45 ∉ (completeUFO 45 demoGraph).planets.map Object3D.id ∧
      45 ∉ (completeUFO 45 demoGraph).children.map Object3D.id ∧
      (completeUFO 45 demoGraph).planets =
        demoGraph.planets.filter (fun o => decide (o.id ≠ 45)) ∧
      completeUFO 45 (completeUFO 45 demoGraph) = completeUFO 45 demoGraph) ∧
    (45 ∉ (completeComet 45 demoGraph).planets.map Object3D.id ∧
      45 ∉ (completeComet 45 demoGraph).children.map Object3D.id ∧
      (completeComet 45 demoGraph).planets =
        demoGraph.planets.filter (fun o => decide (o.id ≠ 45)) ∧
      completeComet 45 (completeComet 45 demoGraph) = completeComet 45 demoGraph) ∧
    (∀ events : List Event, WellFormed (runEvents events demoGraph)) :=
  completion_restores_registry demoGraph (by unfold WellFormed; decide) 45

/-- C18, at the failing inputs: one spawn into the empty graph followed by its
completion.  The ship leaves its cockpit geometry and material undisposed, the UFO all
four of its geometries and materials, the comet all five; only the Nyan Cat leaves
none.  For every graph, a UFO or comet cycle adds its resources to the live ones. -/
theorem completion_leaks_resources :
    (completeSpaceship (spawnSpaceship emptyGraph).2.id (spawnSpaceship emptyGraph).1).live =
      [⟨0, "cockpitGeo"⟩, ⟨0, "cockpitMat"⟩] ∧
    (completeUFO (spawnUFO emptyGraph).2.id (spawnUFO emptyGraph).1).live =
      [⟨0, "hullGeo"⟩, ⟨0, "hullMat"⟩, ⟨0, "cockpitGeo"⟩, ⟨0, "cockpitMat"⟩] ∧
    (completeComet (spawnComet emptyGraph).2.id (spawnComet emptyGraph).1).live =
      [⟨0, "headGeo"⟩, ⟨0, "headMat"⟩, ⟨0, "glowGeo"⟩, ⟨0, "tailGeo"⟩, ⟨0, "tailMat"⟩] ∧
    (completeNyanCat (spawnNyanCat emptyGraph).2.id (spawnNyanCat emptyGraph).1).live = [] ∧
    emptyGraph.live = [] ∧
    (∀ g : SceneGraph,
      (completeUFO (spawnUFO g).2.id (spawnUFO g).1).live.length = g.live.length + 4 ∧
      (completeComet (spawnComet g).2.id (spawnComet g).1).live.length =
        g.live.length + 5) := by
  refine ⟨by decide, by decide, by decide, by decide, rfl, fun g => ⟨?_, ?_⟩⟩
  · simp [completeUFO, spawnUFO, ufoResources]
  · simp [completeComet, spawnComet, cometResources]

/-- C19. For random draws in `[0, 1)`: a spaceship starts at `x = 150` or `-150` with
`y` in `[-40, 40)` and `z` in `[-25, 25)` and ends at the negated `x` with `y`, `z`
unchanged; a comet starts at `x = 200` or `-200` with `y`, `z` in `[-50, 50)` and ends
at the negated `x`, a `y` that differs from the start by an amount in `[-25, 25)`, and
the same `z`; a UFO starts at `x = 100` or `-100`, ends at the negated `x`, and its
start and end `y` and `z` are in `[-30, 30)`, each from a draw of its own, so that
every four values of `[-30, 30)` occur together for some draws. -/
theorem trajectory_envelopes (rand : Nat → ℝ) (hr : ∀ n, 0 ≤ rand n ∧ rand n < 1) (k : Nat) :
    (((spaceshipTrajectory rand k).start.x = 150 ∨ (spaceshipTrajectory rand k).start.x = -150) ∧
      (-40 ≤ (spaceshipTrajectory rand k).start.y ∧ (spaceshipTrajectory rand k).start.y < 40) ∧
      (-25 ≤ (spaceshipTrajectory rand k).start.z ∧ (spaceshipTrajectory rand k).start.z < 25) ∧
      (spaceshipTrajectory rand k).finish =
        ⟨-(spaceshipTrajectory rand k).start.x, (spaceshipTrajectory rand k).start.y,
          (spaceshipTrajectory rand k).start.z⟩) ∧
    (((cometTrajectory rand k).start.x = 200 ∨ (cometTrajectory rand k).start.x = -200) ∧
      (-50 ≤ (cometTrajectory rand k).start.y ∧ (cometTrajectory rand k).start.y < 50) ∧
      (-50 ≤ (cometTrajectory rand k).start.z ∧ (cometTrajectory rand k).start.z < 50) ∧
      (cometTrajectory rand k).finish.x = -(cometTrajectory rand k).start.x ∧
      (-25 ≤ (cometTrajectory rand k).finish.y - (cometTrajectory rand k).start.y ∧
        (cometTrajectory rand k).finish.y - (cometTrajectory rand k).start.y < 25) ∧
      (cometTrajectory rand k).finish.z = (cometTrajectory rand k).start.z) ∧
    (((ufoTrajectory rand k).start.x = 100 ∨ (ufoTrajectory rand k).start.x = -100) ∧
      (ufoTrajectory rand k).finish.x = -(ufoTrajectory rand k).start.x ∧
      (-30 ≤ (ufoTrajectory rand k).start.y ∧ (ufoTrajectory rand k).start.y < 30) ∧
      (-30 ≤ (ufoTrajectory rand k).start.z ∧ (ufoTrajectory rand k).start.z < 30) ∧
      (-30 ≤ (ufoTrajectory rand k).finish.y ∧ (ufoTrajectory rand k).finish.y < 30) ∧
      (-30 ≤ (ufoTrajectory rand k).finish.z ∧ (ufoTrajectory rand k).finish.z < 30) ∧
      (ufoTrajectory rand k).start.y = (rand (k + 1) - 0.5) * 60 ∧
      (ufoTrajectory rand k).start.z = (rand (k + 2) - 0.5) * 60 ∧
      (ufoTrajectory rand k).finish.y = (rand (k + 3) - 0.5) * 60 ∧
      (ufoTrajectory rand k).finish.z = (rand (k + 4) - 0.5) * 60) ∧
    (∀ y1 z1 y2 z2 : ℝ, (-30 ≤ y1 ∧ y1 < 30) → (-30 ≤ z1 ∧ z1 < 30) → (-30 ≤ y2 ∧ y2 < 30) →
      (-30 ≤ z2 ∧ z2 < 30) →
      ∃ draws : Nat → ℝ, (∀ n, 0 ≤ draws n ∧ draws n < 1) ∧
        (ufoTrajectory draws k).start.y = y1 ∧ (ufoTrajectory draws k).start.z = z1 ∧
        (ufoTrajectory draws k).finish.y = y2 ∧ (ufoTrajectory draws k).finish.z = z2) := by
  have sign : ∀ (c : Prop) [Decidable c] (a : ℝ),
      ((if c then (1 : ℝ) else -1) * a = a ∨ (if c then (1 : ℝ) else -1) * a = -a) := by
    intro c _ a
    by_cases h : c <;> simp [h]
  refine ⟨⟨sign _ 150, ⟨?_, ?_⟩, ⟨?_, ?_⟩, rfl⟩,
    ⟨sign _ 200, ⟨?_, ?_⟩, ⟨?_, ?_⟩, rfl, ⟨?_, ?_⟩, rfl⟩,
    ⟨sign _ 100, rfl, ⟨?_, ?_⟩, ⟨?_, ?_⟩, ⟨?_, ?_⟩, ⟨?_, ?_⟩, rfl, rfl, rfl, rfl⟩, ?_⟩
  · simp only [spaceshipTrajectory]; norm_num; linarith [(hr (k + 1)).1]
  · simp only [spaceshipTrajectory]; norm_num; linarith [(hr (k + 1)).2]
  · simp only [spaceshipTrajectory]; norm_num; linarith [(hr (k + 2)).1]
  · simp only [spaceshipTrajectory]; norm_num; linarith [(hr (k + 2)).2]
  · simp only [cometTrajectory]; norm_num; linarith [(hr (k + cometTailDraws + 1)).1]
  · simp only [cometTrajectory]; norm_num; linarith [(hr (k + cometTailDraws + 1)).2]
  · simp only [cometTrajectory]; norm_num; linarith [(hr (k + cometTailDraws + 2)).1]
  · simp only [cometTrajectory]; norm_num; linarith [(hr (k + cometTailDraws + 2)).2]
  · simp only [cometTrajectory]; norm_num; linarith [(hr (k + cometTailDraws + 3)).1]
  · simp only [cometTrajectory]; norm_num; linarith [(hr (k + cometTailDraws + 3)).2]
  · simp only [ufoTrajectory]; norm_num; linarith [(hr (k + 1)).1]
  · simp only [ufoTrajectory]; norm_num; linarith [(hr (k + 1)).2]
  · simp only [ufoTrajectory]; norm_num; linarith [(hr (k + 2)).1]
  · simp only [ufoTrajectory]; norm_num; linarith [(hr (k + 2)).2]
  · simp only [ufoTrajectory]; norm_num; linarith [(hr (k + 3)).1]
  · simp only [ufoTrajectory]; norm_num; linarith [(hr (k + 3)).2]
  · simp only [ufoTrajectory]; norm_num; linarith [(hr (k + 4)).1]
  · simp only [ufoTrajectory]; norm_num; linarith [(hr (k + 4)).2]
  · intro y1 z1 y2 z2 hy1 hz1 hy2 hz2
    refine ⟨fun n => if n = k + 1 then y1 / 60 + 0.5 else if n = k + 2 then z1 / 60 + 0.5
      else if n = k + 3 then y2 / 60 + 0.5 else if n = k + 4 then z2 / 60 + 0.5 else 0,
      fun n => ?_, ?_, ?_, ?_, ?_⟩
    · simp only
      split_ifs <;> norm_num <;> constructor <;> linarith [hy1.1, hy1.2, hz1.1, hz1.2,
        hy2.1, hy2.2, hz2.1, hz2.2]
    · simp only [ufoTrajectory, if_true]; ring
    · simp only [ufoTrajectory, if_true, show k + 2 ≠ k + 1 by omega, if_false]; ring
    · simp only [ufoTrajectory, if_true, show k + 3 ≠ k + 1 by omega,
        show k + 3 ≠ k + 2 by omega, if_false]; ring
    · simp only [ufoTrajectory, if_true, show k + 4 ≠ k + 1 by omega,
        show k + 4 ≠ k + 2 by omega, show k + 4 ≠ k + 3 by omega, if_false]; ring

/-- C19, at a concrete input: every draw `0`, no draw consumed before the spawn. -/
theorem trajectory_envelopes_witness :
    (((spaceshipTrajectory (zeroDraws : Nat → ℝ) 0).start.x = 150 ∨ (spaceshipTrajectory (zeroDraws : Nat → ℝ) 0).start.x = -150) ∧
      (-40 ≤ (spaceshipTrajectory (zeroDraws : Nat → ℝ) 0).start.y ∧ (spaceshipTrajectory (zeroDraws : Nat → ℝ) 0).start.y < 40) ∧
      (-25 ≤ (spaceshipTrajectory (zeroDraws : Nat → ℝ) 0).start.z ∧ (spaceshipTrajectory (zeroDraws : Nat → ℝ) 0).start.z < 25) ∧
      (spaceshipTrajectory (zeroDraws : Nat → ℝ) 0).finish =
        ⟨-(spaceshipTrajectory (zeroDraws : Nat → ℝ) 0).start.x, (spaceshipTrajectory (zeroDraws : Nat → ℝ) 0).start.y,
          (spaceshipTrajectory (zeroDraws : Nat → ℝ) 0).start.z⟩) ∧
    (((cometTrajectory (zeroDraws : Nat → ℝ) 0).start.x = 200 ∨ (cometTrajectory (zeroDraws : Nat → ℝ) 0).start.x = -200) ∧
      (-50 ≤ (cometTrajectory (zeroDraws : Nat → ℝ) 0).start.y ∧ (cometTrajectory (zeroDraws : Nat → ℝ) 0).start.y < 50) ∧
      (-50 ≤ (cometTrajectory (zeroDraws : Nat → ℝ) 0).start.z ∧ (cometTrajectory (zeroDraws : Nat → ℝ) 0).start.z < 50) ∧
      (cometTrajectory (zeroDraws : Nat → ℝ) 0).finish.x = -(cometTrajectory (zeroDraws : Nat → ℝ) 0).start.x ∧
      (-25 ≤ (cometTrajectory (zeroDraws : Nat → ℝ) 0).finish.y - (cometTrajectory (zeroDraws : Nat → ℝ) 0).start.y ∧
        (cometTrajectory (zeroDraws : Nat → ℝ) 0).finish.y - (cometTrajectory (zeroDraws : Nat → ℝ) 0).start.y < 25) ∧
      (cometTrajectory (zeroDraws : Nat → ℝ) 0).finish.z = (cometTrajectory (zeroDraws : Nat → ℝ) 0).start.z) ∧
    (((ufoTrajectory (zeroDraws : Nat → ℝ) 0).start.x = 100 ∨ (ufoTrajectory (zeroDraws : Nat → ℝ) 0).start.x = -100) ∧
      (ufoTrajectory (zeroDraws : Nat → ℝ) 0).finish.x = -(ufoTrajectory (zeroDraws : Nat → ℝ) 0).start.x ∧
      (-30 ≤ (ufoTrajectory (zeroDraws : Nat → ℝ) 0).start.y ∧ (ufoTrajectory (zeroDraws : Nat → ℝ) 0).start.y < 30) ∧
      (-30 ≤ (ufoTrajectory (zeroDraws : Nat → ℝ) 0).start.z ∧ (ufoTrajectory (zeroDraws : Nat → ℝ) 0).start.z < 30) ∧
      (-30 ≤ (ufoTrajectory (zeroDraws : Nat → ℝ) 0).finish.y ∧ (ufoTrajectory (zeroDraws : Nat → ℝ) 0).finish.y < 30) ∧
      (-30 ≤ (ufoTrajectory (zeroDraws : Nat → ℝ) 0).finish.z ∧ (ufoTrajectory (zeroDraws : Nat → ℝ) 0).finish.z < 30) ∧
      (ufoTrajectory (zeroDraws : Nat → ℝ) 0).start.y = ((zeroDraws : Nat → ℝ) (0 + 1) - 0.5) * 60 ∧
      (ufoTrajectory (zeroDraws : Nat → ℝ) 0).start.z = ((zeroDraws : Nat → ℝ) (0 + 2) - 0.5) * 60 ∧
      (ufoTrajectory (zeroDraws : Nat → ℝ) 0).finish.y = ((zeroDraws : Nat → ℝ) (0 + 3) - 0.5) * 60 ∧
      (ufoTrajectory (zeroDraws : Nat → ℝ) 0).finish.z = ((zeroDraws : Nat → ℝ) (0 + 4) - 0.5) * 60) ∧
    (∀ y1 z1 y2 z2 : ℝ, (-30 ≤ y1 ∧ y1 < 30) → (-30 ≤ z1 ∧ z1 < 30) → (-30 ≤ y2 ∧ y2 < 30) →
      (-30 ≤ z2 ∧ z2 < 30) →
      ∃ draws : Nat → ℝ, (∀ n, 0 ≤ draws n ∧ draws n < 1) ∧
        (ufoTrajectory draws 0).start.y = y1 ∧ (ufoTrajectory draws 0).start.z = z1 ∧
        (ufoTrajectory draws 0).finish.y = y2 ∧ (ufoTrajectory draws 0).finish.z = z2) :=
  trajectory_envelopes zeroDraws (fun _ => ⟨le_refl 0, zero_lt_one⟩) 0

/-- C20, at the failing input: the bloom tween of `updateTheme(true)` has written its
target `0.0` to `bloomPass.strength`, and a tick follows.  Whatever value the tween
wrote, section 5 of animate overwrites the strength with `0.8 + 2 bass` before the
render of the same call, so the field has two writers and the strength at render time
is never the one the theme tween set: after a silent frame on the constructed scene it
is `0.8`, not `0.0`, and for a bass `>= 0` it is above both theme targets. -/
theorem tick_overwrites_theme_bloom (m : JsMath ℝ) (rand : Nat → ℝ) (f : Frame ℝ)
    (s : SpaceScene ℝ) (value : ℝ) (b : BloomPass ℝ) :
    tweenWrite value (some b) = some { strength := value, radius := b.radius } ∧
    bloomAtRender m rand f s (tweenWrite value (some b)) =
      some { strength := 0.8 + (animate m rand f s).bass * 2,
             radius := 0.5 + (animate m rand f s).mid * 0.5 } ∧
    (0 ≤ (animate m rand f s).bass →
      ∀ isLight : Bool, themeBloomTarget isLight < 0.8 + (animate m rand f s).bass * 2) ∧
    (themeBloomTarget true = (0 : ℝ) ∧ themeBloomTarget false = (0.6 : ℝ)) ∧
    bloomAtRender ⟨Real.exp, Real.cos, Real.sin, Real.pi⟩ zeroDraws silentFrame onePlanetScene
        (tweenWrite (themeBloomTarget true) (some setupPostProcessing)) =
      some { strength := 0.8, radius := 0.5 } := by
  refine ⟨rfl, ?_, fun hb isLight => ?_, ⟨by norm_num [themeBloomTarget],
    by norm_num [themeBloomTarget]⟩, ?_⟩
  · simp only [bloomAtRender, animateBloom, tweenWrite, Option.map_some']
    norm_num
  · cases isLight <;> norm_num [themeBloomTarget] <;> linarith
  · obtain ⟨t1, t2, -⟩ := targets_silent (silentFrame : Frame ℝ) (Or.inl rfl)
    simp only [bloomAtRender, animateBloom, tweenWrite, Option.map_some', animate,
      smooth_real, t1, t2]
    norm_num [onePlanetScene, SpaceScene.constructed]

/-- C24. After a tick, a registry body with a truthy speed whose name is none of the
four static names has all three scale components equal to `1 + 0.8 * bass`, `bass` the
smoothed value of this tick; a body named "Gargantua" or "Einstein-Rosen Bridge", and
every body without a truthy speed, keeps the scale it had. -/
theorem scale_pulse (m : JsMath ℝ) (rand : Nat → ℝ) (f : Frame ℝ) (s : SpaceScene ℝ)
    (i : Nat) (p : Body ℝ) (hp : s.planets[i]? = some p) :
    ∃ q, (animate m rand f s).planets[i]? = some q ∧
      (∀ speed : ℝ, p.userData.speed = some speed → speed ≠ 0 →
        p.userData.name ≠ some "Subterranean Homesick Alien" →
        p.userData.name ≠ some "Singularity" → p.userData.name ≠ some "Gargantua" →
        p.userData.name ≠ some "Einstein-Rosen Bridge" →
        q.scale = ⟨1 + 0.8 * (animate m rand f s).bass, 1 + 0.8 * (animate m rand f s).bass,
          1 + 0.8 * (animate m rand f s).bass⟩) ∧
      ((p.userData.name = some "Gargantua" ∨ p.userData.name = some "Einstein-Rosen Bridge") →
        q.scale = p.scale) ∧
      ((p.userData.speed = none ∨ p.userData.speed = some 0) → q.scale = p.scale) := by
  obtain ⟨k', hk⟩ := animate_planet m rand f s i p hp
  refine ⟨_, hk, fun speed hs h0 n1 n2 n3 n4 => ?_, fun hn => ?_, fun hs => ?_⟩
  · rw [updateBody_scale]
    have hpulse : pulses p.userData.name = true := by
      simp [pulses, n1, n2, n3, n4]
    simp only [orbitStep, hs, h0, if_false, orbitBody, hpulse, if_true, Vector3.mk.injEq]
    norm_num
    ring
  · rw [updateBody_scale]
    have hpulse : pulses p.userData.name = false := by
      rcases hn with hn | hn <;> simp [pulses, hn]
    cases hs : p.userData.speed with
    | none => simp [orbitStep, hs]
    | some speed =>
      by_cases h0 : speed = 0
      · simp [orbitStep, hs, h0]
      · simp [orbitStep, hs, h0, orbitBody, hpulse]
  · rw [updateBody_scale]
    rcases hs with hs | hs <;> simp [orbitStep, hs]

/-- C24, at a concrete input: the planet and the black hole after a silent frame. -/
theorem scale_pulse_witness :
    ∃ q, (animate ⟨Real.exp, Real.cos, Real.sin, Real.pi⟩ zeroDraws silentFrame
        blackHoleScene).planets[0]? = some q ∧
      (∀ speed : ℝ, (retrogradePlanet : Body ℝ).userData.speed = some speed → speed ≠ 0 →
        (retrogradePlanet : Body ℝ).userData.name ≠ some "Subterranean Homesick Alien" →
        (retrogradePlanet : Body ℝ).userData.name ≠ some "Singularity" →
        (retrogradePlanet : Body ℝ).userData.name ≠ some "Gargantua" →
        (retrogradePlanet : Body ℝ).userData.name ≠ some "Einstein-Rosen Bridge" →
        q.scale =
          ⟨1 + 0.8 * (animate ⟨Real.exp, Real.cos, Real.sin, Real.pi⟩ zeroDraws silentFrame
              blackHoleScene).bass,
            1 + 0.8 * (animate ⟨Real.exp, Real.cos, Real.sin, Real.pi⟩ zeroDraws silentFrame
              blackHoleScene).bass,
            1 + 0.8 * (animate ⟨Real.exp, Real.cos, Real.sin, Real.pi⟩ zeroDraws silentFrame
              blackHoleScene).bass⟩) ∧
      (((retrogradePlanet : Body ℝ).userData.name = some "Gargantua" ∨
          (retrogradePlanet : Body ℝ).userData.name = some "Einstein-Rosen Bridge") →
        q.scale = (retrogradePlanet : Body ℝ).scale) ∧
      (((retrogradePlanet : Body ℝ).userData.speed = none ∨
          (retrogradePlanet : Body ℝ).userData.speed = some 0) →
        q.scale = (retrogradePlanet : Body ℝ).scale) :=
  scale_pulse ⟨Real.exp, Real.cos, Real.sin, Real.pi⟩ zeroDraws silentFrame blackHoleScene 0
    retrogradePlanet rfl

/-- C25, at the failing input: a frame delta of half a second, the camera at `x = 0`, the
pointer at `x = 2/3` (so the target is `1.5 * 2/3 = 1`) and no bass.  The interpolation
`c + (t - c) * 4 * delta` gives `2`: the camera lands beyond its target, at the same
distance on the other side, where the claim has it between `0` and `1`. -/
theorem camera_overshoots :
    (0 : ℝ) ≤ 1 / 2 ∧ cameraStep (1 / 2 : ℝ) 1 0 = 2 ∧
    ¬ (cameraStep (1 / 2 : ℝ) 1 0 ≤ max 0 1) ∧
    (cameraTarget ⟨Real.exp, Real.cos, Real.sin, Real.pi⟩ 0 0 ⟨2 / 3, 0⟩).x = 1 ∧
    (animateCamera ⟨Real.exp, Real.cos, Real.sin, Real.pi⟩ (1 / 2) 0 0 ⟨2 / 3, 0⟩
      ⟨0, 0, 40⟩).x = 2 := by
  have h : cameraStep (1 / 2 : ℝ) 1 0 = 2 := by
    simp only [cameraStep]; norm_num
  have ht : (cameraTarget ⟨Real.exp, Real.cos, Real.sin, Real.pi⟩ (0 : ℝ) 0 ⟨2 / 3, 0⟩).x = 1 := by
    simp only [cameraTarget]
    rw [if_neg (by norm_num)]
    norm_num
  refine ⟨by norm_num, h, ?_, ht, ?_⟩
  · rw [h]; norm_num
  · show cameraStep (1 / 2 : ℝ)
      (cameraTarget ⟨Real.exp, Real.cos, Real.sin, Real.pi⟩ (0 : ℝ) 0 ⟨2 / 3, 0⟩).x 0 = 2
    rw [ht]; exact h

/-- For a frame delta with `0 <= delta <= 1/4` the camera interpolation does not
overshoot: the new coordinate `c + (t - c) * 4 * delta` lies between `c` and
`t` inclusive, for the `x` and the `y` of the camera, whose `z` is not changed. -/
theorem camera_no_overshoot (m : JsMath ℝ) (delta bass time : ℝ) (mouse : Vector2 ℝ)
    (camera : Vector3 ℝ) (h0 : 0 ≤ delta) (h1 : delta ≤ 1 / 4) :
    (∀ t c : ℝ, cameraStep delta t c = c + (t - c) * 4 * delta ∧
      min c t ≤ cameraStep delta t c ∧ cameraStep delta t c ≤ max c t) ∧
    (animateCamera m delta bass time mouse camera).x =
      cameraStep delta (cameraTarget m bass time mouse).x camera.x ∧
    (animateCamera m delta bass time mouse camera).y =
      cameraStep delta (cameraTarget m bass time mouse).y camera.y ∧
    (animateCamera m delta bass time mouse camera).z = camera.z := by
  refine ⟨fun t c => ?_, rfl, rfl, rfl⟩
  have e : cameraStep delta t c = c + (t - c) * 4 * delta := by
    simp only [cameraStep]; norm_num
  rw [e]
  refine ⟨rfl, ?_, ?_⟩
  · rcases le_total c t with h | h
    · rw [min_eq_left h]
      nlinarith [mul_nonneg (sub_nonneg.mpr h) h0]
    · rw [min_eq_right h]
      nlinarith [mul_nonneg (sub_nonneg.mpr h) (sub_nonneg.mpr h1)]
  · rcases le_total c t with h | h
    · rw [max_eq_right h]
      nlinarith [mul_nonneg (sub_nonneg.mpr h) (sub_nonneg.mpr h1)]
    · rw [max_eq_left h]
      nlinarith [mul_nonneg (sub_nonneg.mpr h) h0]

/-- The camera interpolation at a concrete input: a frame of 1/50 s. -/
theorem camera_no_overshoot_witness :
    (∀ t c : ℝ, cameraStep (1 / 50 : ℝ) t c = c + (t - c) * 4 * (1 / 50) ∧
      min c t ≤ cameraStep (1 / 50 : ℝ) t c ∧ cameraStep (1 / 50 : ℝ) t c ≤ max c t) ∧
    (animateCamera ⟨Real.exp, Real.cos, Real.sin, Real.pi⟩ (1 / 50) 0 0 ⟨1, 1⟩ ⟨0, 0, 40⟩).x =
      cameraStep (1 / 50 : ℝ)
        (cameraTarget ⟨Real.exp, Real.cos, Real.sin, Real.pi⟩ 0 0 ⟨1, 1⟩).x 0 ∧
    (animateCamera ⟨Real.exp, Real.cos, Real.sin, Real.pi⟩ (1 / 50) 0 0 ⟨1, 1⟩ ⟨0, 0, 40⟩).y =
      cameraStep (1 / 50 : ℝ)
        (cameraTarget ⟨Real.exp, Real.cos, Real.sin, Real.pi⟩ 0 0 ⟨1, 1⟩).y 0 ∧
    (animateCamera ⟨Real.exp, Real.cos, Real.sin, Real.pi⟩ (1 / 50) 0 0 ⟨1, 1⟩ ⟨0, 0, 40⟩).z =
      40 :=
  camera_no_overshoot ⟨Real.exp, Real.cos, Real.sin, Real.pi⟩ (1 / 50) 0 0 ⟨1, 1⟩ ⟨0, 0, 40⟩
    (by norm_num) (by norm_num)

/-- C26, as stated, fails: with the first draw `0` (polar radius 40) and the second draw
`1/4` (polar angle a quarter turn) the black hole is placed at `(0, 20, -60)`, whose
`(x, y)` offset has length `20`, below `minRadius = 40`. -/
theorem black_hole_below_min_radius :
    (∀ n, 0 ≤ (quarterTurnDraws : Nat → ℝ) n ∧ (quarterTurnDraws : Nat → ℝ) n < 1) ∧
    (createBlackHole ⟨Real.exp, Real.cos, Real.sin, Real.pi⟩ quarterTurnDraws 0).1.position =
      ⟨0, 20, -60⟩ ∧
    Real.sqrt
        ((createBlackHole ⟨Real.exp, Real.cos, Real.sin, Real.pi⟩ quarterTurnDraws
            0).1.position.x ^ 2 +
          (createBlackHole ⟨Real.exp, Real.cos, Real.sin, Real.pi⟩ quarterTurnDraws
            0).1.position.y ^ 2) < 40 := by
  have hpos : (createBlackHole ⟨Real.exp, Real.cos, Real.sin, Real.pi⟩ quarterTurnDraws
      0).1.position = ⟨0, 20, -60⟩ := by
    rw [createBlackHole_position]
    have ha : (1 / 4 : ℝ) * Real.pi * 2 = Real.pi / 2 := by ring
    simp only [quarterTurnDraws, Nat.zero_add, if_true, Nat.zero_ne_one, if_false,
      show (0 + 2 : Nat) ≠ 1 by decide, ha, Real.cos_pi_div_two, Real.sin_pi_div_two,
      Vector3.mk.injEq]
    refine ⟨by norm_num, by norm_num, by norm_num⟩
  refine ⟨fun n => ?_, hpos, ?_⟩
  · simp only [quarterTurnDraws]
    split_ifs <;> norm_num
  · rw [hpos]
    have : Real.sqrt ((0 : ℝ) ^ 2 + 20 ^ 2) = 20 := by
      rw [show (0 : ℝ) ^ 2 + 20 ^ 2 = 20 ^ 2 by norm_num]
      exact Real.sqrt_sq (by norm_num)
    rw [this]
    norm_num

/-- C26, amended. For random draws in `[0, 1)`, createBlackHole places the black hole on
an ellipse with semi-axes `r` and `r / 2`, `r` in `[40, 90)`: the length of its
`(x, y)` offset is at least `r / 2`, hence at least `20`, and at most `r`, hence less
than `maxRadius = 90`; and its `z` is in `(-100, -60]`. -/
theorem black_hole_placement (exp : ℝ → ℝ) (rand : Nat → ℝ)
    (hr : ∀ n, 0 ≤ rand n ∧ rand n < 1) (k : Nat) :
    (40 ≤ 40 + rand k * 50 ∧ 40 + rand k * 50 < 90) ∧
    (40 + rand k * 50) / 2 ≤
      Real.sqrt
        ((createBlackHole ⟨exp, Real.cos, Real.sin, Real.pi⟩ rand k).1.position.x ^ 2 +
          (createBlackHole ⟨exp, Real.cos, Real.sin, Real.pi⟩ rand k).1.position.y ^ 2) ∧
    Real.sqrt
        ((createBlackHole ⟨exp, Real.cos, Real.sin, Real.pi⟩ rand k).1.position.x ^ 2 +
          (createBlackHole ⟨exp, Real.cos, Real.sin, Real.pi⟩ rand k).1.position.y ^ 2) ≤
      40 + rand k * 50 ∧
    20 ≤ Real.sqrt
        ((createBlackHole ⟨exp, Real.cos, Real.sin, Real.pi⟩ rand k).1.position.x ^ 2 +
          (createBlackHole ⟨exp, Real.cos, Real.sin, Real.pi⟩ rand k).1.position.y ^ 2) ∧
    Real.sqrt
        ((createBlackHole ⟨exp, Real.cos, Real.sin, Real.pi⟩ rand k).1.position.x ^ 2 +
          (createBlackHole ⟨exp, Real.cos, Real.sin, Real.pi⟩ rand k).1.position.y ^ 2) < 90 ∧
    (-100 < (createBlackHole ⟨exp, Real.cos, Real.sin, Real.pi⟩ rand k).1.position.z ∧
      (createBlackHole ⟨exp, Real.cos, Real.sin, Real.pi⟩ rand k).1.position.z ≤ -60) := by
  rw [createBlackHole_position]
  simp only
  set r : ℝ := 40 + rand k * 50 with hrdef
  set a : ℝ := rand (k + 1) * Real.pi * 2
  have hr40 : 40 ≤ r := by rw [hrdef]; linarith [(hr k).1]
  have hr90 : r < 90 := by rw [hrdef]; linarith [(hr k).2]
  have hcs := Real.sin_sq_add_cos_sq a
  have hs0 := sq_nonneg (Real.sin a)
  have hc0 := sq_nonneg (Real.cos a)
  have hr2 : 0 ≤ r ^ 2 := sq_nonneg r
  have hsum : (r * Real.cos a) ^ 2 + (r * Real.sin a * 0.5) ^ 2 =
      r ^ 2 * (Real.cos a ^ 2 + Real.sin a ^ 2 / 4) := by
    norm_num; ring
  have hlow : (r / 2) ^ 2 ≤ (r * Real.cos a) ^ 2 + (r * Real.sin a * 0.5) ^ 2 := by
    rw [hsum]; nlinarith [mul_nonneg hr2 hc0]
  have hup : (r * Real.cos a) ^ 2 + (r * Real.sin a * 0.5) ^ 2 ≤ r ^ 2 := by
    rw [hsum]; nlinarith [mul_nonneg hr2 hs0]
  have h1 : r / 2 ≤ Real.sqrt ((r * Real.cos a) ^ 2 + (r * Real.sin a * 0.5) ^ 2) :=
    Real.le_sqrt_of_sq_le hlow
  have h2 : Real.sqrt ((r * Real.cos a) ^ 2 + (r * Real.sin a * 0.5) ^ 2) ≤ r :=
    Real.sqrt_le_iff.mpr ⟨by linarith, hup⟩
  refine ⟨⟨hr40, hr90⟩, h1, h2, by linarith, by linarith, ?_, ?_⟩
  · linarith [(hr (k + 2)).2]
  · linarith [(hr (k + 2)).1]

/-- C26 amended, at a concrete input: every draw `0`. -/
theorem black_hole_placement_witness :
    (40 ≤ 40 + (zeroDraws : Nat → ℝ) 0 * 50 ∧ 40 + (zeroDraws : Nat → ℝ) 0 * 50 < 90) ∧
    (40 + (zeroDraws : Nat → ℝ) 0 * 50) / 2 ≤
      Real.sqrt
        ((createBlackHole ⟨Real.exp, Real.cos, Real.sin, Real.pi⟩ zeroDraws 0).1.position.x ^ 2 +
          (createBlackHole ⟨Real.exp, Real.cos, Real.sin, Real.pi⟩ zeroDraws
            0).1.position.y ^ 2) ∧
    Real.sqrt
        ((createBlackHole ⟨Real.exp, Real.cos, Real.sin, Real.pi⟩ zeroDraws 0).1.position.x ^ 2 +
          (createBlackHole ⟨Real.exp, Real.cos, Real.sin, Real.pi⟩ zeroDraws
            0).1.position.y ^ 2) ≤
      40 + (zeroDraws : Nat → ℝ) 0 * 50 ∧
    20 ≤ Real.sqrt
        ((createBlackHole ⟨Real.exp, Real.cos, Real.sin, Real.pi⟩ zeroDraws 0).1.position.x ^ 2 +
          (createBlackHole ⟨Real.exp, Real.cos, Real.sin, Real.pi⟩ zeroDraws
            0).1.position.y ^ 2) ∧
    Real.sqrt
        ((createBlackHole ⟨Real.exp, Real.cos, Real.sin, Real.pi⟩ zeroDraws 0).1.position.x ^ 2 +
          (createBlackHole ⟨Real.exp, Real.cos, Real.sin, Real.pi⟩ zeroDraws
            0).1.position.y ^ 2) < 90 ∧
    (-100 < (createBlackHole ⟨Real.exp, Real.cos, Real.sin, Real.pi⟩ zeroDraws 0).1.position.z ∧
      (createBlackHole ⟨Real.exp, Real.cos, Real.sin, Real.pi⟩ zeroDraws 0).1.position.z ≤
        -60) :=
  black_hole_placement Real.exp zeroDraws (fun _ => ⟨le_refl 0, zero_lt_one⟩) 0

/-- C29. On a tick that does not recycle it, a particle's radius decreases by more than
`0.05` and its speed strictly increases; so a particle that starts with a radius below
`35` (as every created and every recycled particle does, for draws in `[0, 1)`) and is
not recycled in any of `n` consecutive ticks has `n < 590`: it is recycled within 590
consecutive ticks. -/
theorem debris_recycled_within (exp cos sin : ℝ → ℝ) (rand : Nat → ℝ)
    (hr : ∀ n, 0 ≤ rand n ∧ rand n < 1) (states : Nat → Debris ℝ) (draws : Nat → Nat)
    (n : Nat) (h0 : (states 0).radius < 35)
    (hstep : ∀ i < n,
      states (i + 1) = (debrisStep ⟨exp, cos, sin, Real.pi⟩ rand (draws i) (states i)).1)
    (hkeep : ∀ i < n,
      5.5 ≤ (states i).radius - (0.05 + 2 * (5 / (states i).radius ^ 2))) :
    (∀ i < n, (states (i + 1)).radius < (states i).radius - 0.05 ∧
      (states i).speed < (states (i + 1)).speed) ∧
    n < 590 ∧
    (∀ (count k : Nat),
      ∀ d ∈ (createDebrisField ⟨exp, cos, sin, Real.pi⟩ rand count k).1, d.radius < 35) ∧
    (∀ (k : Nat) (d : Debris ℝ), d.radius - (0.05 + 2 * (5 / d.radius ^ 2)) < 5.5 →
      (debrisStep ⟨exp, cos, sin, Real.pi⟩ rand k d).1.radius < 35) := by
  have hdec : ∀ i < n, (states (i + 1)).radius < (states i).radius - 0.05 ∧
      (states i).speed < (states (i + 1)).speed := fun i hi => by
    rw [hstep i hi]
    exact debrisStep_keep_strict _ rand (draws i) (states i) (hkeep i hi)
  have hbound : ∀ i ≤ n, (states i).radius ≤ (states 0).radius - 0.05 * i := by
    intro i
    induction i with
    | zero => intro _; simp
    | succ j ih =>
      intro hj
      have h1 := ih (by omega)
      have h2 := (hdec j (by omega)).1
      push_cast
      linarith
  refine ⟨hdec, ?_, fun count k d hd => ?_, fun k d hd => ?_⟩
  · by_contra hc
    have hn : 590 ≤ n := by omega
    have h589 := hbound 589 (by omega)
    have hk := hkeep 589 (by omega)
    have hg : 0 ≤ (5 : ℝ) / (states 589).radius ^ 2 := by positivity
    norm_num at h589 hk
    linarith
  · exact (createDebrisField_radius _ rand hr count k d hd).2
  · rw [(debrisStep_reset _ rand k d hd).1]
    linarith [(hr k).2]

/-- C30. For a window of positive width `W` and height `H`, the label placement of the
hover callback undoes the pointer mapping of onMouseMove: the pixel `(px, py)` mapped to
normalised device coordinates and then to label pixels is `(px, py)` again; and every
normalised position of `[-1, 1] x [-1, 1]` gets a label pixel in `[0, W] x [0, H]`. -/
theorem label_inverts_pointer (W H : ℝ) (hW : 0 < W) (hH : 0 < H) :
    (∀ px py : ℝ, labelPixel W H (pointerToNdc W H px py) = ⟨px, py⟩) ∧
    (∀ px py : ℝ, pointerToNdc W H px py = ⟨px / W * 2 - 1, -(py / H) * 2 + 1⟩) ∧
    (∀ p : Vector2 ℝ, labelPixel W H p = ⟨(p.x * 0.5 + 0.5) * W, (-(p.y * 0.5) + 0.5) * H⟩) ∧
    (∀ p : Vector2 ℝ, -1 ≤ p.x → p.x ≤ 1 → -1 ≤ p.y → p.y ≤ 1 →
      (0 ≤ (labelPixel W H p).x ∧ (labelPixel W H p).x ≤ W) ∧
      (0 ≤ (labelPixel W H p).y ∧ (labelPixel W H p).y ≤ H)) := by
  refine ⟨fun px py => ?_, fun px py => rfl, fun p => rfl, fun p hx1 hx2 hy1 hy2 => ?_⟩
  · simp only [labelPixel, pointerToNdc, Vector2.mk.injEq]
    constructor
    · field_simp; ring
    · field_simp; ring
  · simp only [labelPixel]
    norm_num
    refine ⟨⟨?_, ?_⟩, ?_, ?_⟩ <;> nlinarith

/-- C30, at a concrete input: a window of 1920 by 1080 pixels. -/
theorem label_inverts_pointer_witness :
    (∀ px py : ℝ, labelPixel 1920 1080 (pointerToNdc 1920 1080 px py) = ⟨px, py⟩) ∧
    (∀ px py : ℝ,
      pointerToNdc 1920 1080 px py = ⟨px / 1920 * 2 - 1, -(py / 1080) * 2 + 1⟩) ∧
    (∀ p : Vector2 ℝ,
      labelPixel 1920 1080 p = ⟨(p.x * 0.5 + 0.5) * 1920, (-(p.y * 0.5) + 0.5) * 1080⟩) ∧
    (∀ p : Vector2 ℝ, -1 ≤ p.x → p.x ≤ 1 → -1 ≤ p.y → p.y ≤ 1 →
      (0 ≤ (labelPixel 1920 1080 p).x ∧ (labelPixel 1920 1080 p).x ≤ 1920) ∧
      (0 ≤ (labelPixel 1920 1080 p).y ∧ (labelPixel 1920 1080 p).y ≤ 1080)) :=
  label_inverts_pointer 1920 1080 (by norm_num) (by norm_num)

/-- C29, at a concrete input: the particle at radius 20 through one tick. -/
theorem debris_recycled_within_witness :
    (∀ i < 1,
      (demoStates ⟨Real.exp, Real.cos, Real.sin, Real.pi⟩ zeroDraws (i + 1)).radius <
          (demoStates ⟨Real.exp, Real.cos, Real.sin, Real.pi⟩ zeroDraws i).radius - 0.05 ∧
        (demoStates ⟨Real.exp, Real.cos, Real.sin, Real.pi⟩ zeroDraws i).speed <
          (demoStates ⟨Real.exp, Real.cos, Real.sin, Real.pi⟩ zeroDraws (i + 1)).speed) ∧
    1 < 590 ∧
    (∀ (count k : Nat),
      ∀ d ∈ (createDebrisField ⟨Real.exp, Real.cos, Real.sin, Real.pi⟩ zeroDraws count k).1,
        d.radius < 35) ∧
    (∀ (k : Nat) (d : Debris ℝ), d.radius - (0.05 + 2 * (5 / d.radius ^ 2)) < 5.5 →
      (debrisStep ⟨Real.exp, Real.cos, Real.sin, Real.pi⟩ zeroDraws k d).1.radius < 35) :=
  debris_recycled_within Real.exp Real.cos Real.sin zeroDraws
    (fun _ => ⟨le_refl 0, zero_lt_one⟩)
    (demoStates ⟨Real.exp, Real.cos, Real.sin, Real.pi⟩ zeroDraws) (fun _ => 0) 1
    (by norm_num [demoStates, demoDebris])
    (fun i hi => by
      have h : i = 0 := by omega
      subst h
      rfl)
    (fun i hi => by
      have h : i = 0 := by omega
      subst h
      norm_num [demoStates, demoDebris])

/-- C22. The first statement of animate registers the next call before any sub-step
runs: whatever the sub-steps do, also when one of them throws and the rest is skipped,
the number of registered callbacks is one more after the call, and through any sequence
of display refreshes a registered callback is always left for the next one. -/
theorem tick_loop_rearmed (σ : Type) (substeps : List (σ → Option σ)) (l : FrameLoop σ) :
    (animateCall substeps l).1.pending = l.pending + 1 ∧
    (animateCall ((fun _ => none) :: substeps) l).2 = false ∧
    (animateCall ((fun _ => none) :: substeps) l).1.pending = l.pending + 1 ∧
    (∀ behaviours : List (List (σ → Option σ)), 0 < l.pending →
      0 < (frames behaviours l).pending ∧ (frames behaviours l).pending = l.pending) := by
  refine ⟨rfl, rfl, rfl, fun behaviours h => ?_⟩
  have := frames_pending behaviours l h
  omega

/-- C23, at the failing input: `unlock('constructor')` on a manager with nothing unlocked.
"constructor" is none of the four achievements, yet `this.achievements['constructor']`
is the inherited constructor function, so the call appends the id, persists the list,
shows a toast and plays the sound.  The rest of the claim holds for every manager and
id: a second `unlock(id)` changes nothing (no toast, no sound), an id whose lookup is
falsy changes nothing, and a successful unlock appends the id after the entries. -/
theorem unlock_inherited_name (a : AchievementManager) (id : String) :
    ("constructor" ∉ achievementIds ∧
      freshManager.unlock "constructor" =
        { sfx := true, unlocked := ["constructor"], stored := some ["constructor"],
          toasts := ["constructor"], sounds := 1 } ∧
      freshManager.unlock "constructor" ≠ freshManager) ∧
    (a.unlock id).unlock id = a.unlock id ∧
    (achievementLookup id = false → a.unlock id = a) ∧
    (id ∈ a.unlocked → a.unlock id = a) ∧
    (id ∉ a.unlocked → achievementLookup id = true →
      (a.unlock id).unlocked = a.unlocked ++ [id] ∧
      (a.unlock id).stored = some (a.unlocked ++ [id]) ∧
      (a.unlock id).toasts = a.toasts ++ [id]) := by
  refine ⟨⟨by decide, by decide, by decide⟩, ?_, fun h => ?_, fun h => ?_, fun h1 h2 => ?_⟩
  · by_cases hc : (!a.unlocked.contains id && achievementLookup id) = true
    · have e : a.unlock id =
          { a with
            unlocked := a.unlocked ++ [id]
            stored := some (a.unlocked ++ [id])
            toasts := a.toasts ++ [id]
            sounds := if a.sfx then a.sounds + 1 else a.sounds } := by
        simp only [AchievementManager.unlock, hc, if_true]
      rw [e]
      simp [AchievementManager.unlock]
    · have e : a.unlock id = a := by
        unfold AchievementManager.unlock
        rw [if_neg hc]
      rw [e, e]
  · simp [AchievementManager.unlock, h]
  · simp [AchievementManager.unlock, h]
  · simp [AchievementManager.unlock, h1, h2]

/-- C27, at the failing input: a draw of `0.95`.  The test `choice > 0.9` sits in the
else branch of `choice > 0.8`, so it is never true there: a draw above `0.8` gives the
blueish colour, every other draw the white one, and no draw gives the orangeish
colour. -/
theorem orange_never_selected :
    starColor (0.95 : ℝ) = StarColor.blueish ∧
    (∀ choice : ℝ, starColor choice ≠ StarColor.orangeish) ∧
    (∀ choice : ℝ, choice ≤ 0.8 → starColor choice = StarColor.white) ∧
    (∀ choice : ℝ, 0.8 < choice → starColor choice = StarColor.blueish) := by
  refine ⟨?_, fun choice => ?_, fun choice h => ?_, fun choice h => ?_⟩
  · simp only [starColor]
    norm_num
  · simp only [starColor]
    split_ifs with h1 h2
    · simp
    · exact absurd (lt_trans (by norm_num : (0.8 : ℝ) < 0.9) h2) h1
    · simp
  · have h1 : ¬ choice > 0.8 := not_lt.mpr h
    have h2 : ¬ choice > 0.9 := fun h' => h1 (lt_trans (by norm_num) h')
    simp only [starColor, h1, h2, if_false]
  · simp only [starColor, gt_iff_lt, h, if_true]

set_option maxRecDepth 100000 in
/-- C28, at the failing input: "ArrowUp" pressed three times, then the rest of the code.
The last ten of the eleven keys are the Konami code, yet the handler ends with no call
of spawnNyanCat or unlock: on the third "ArrowUp" it falls back to index 1 where two
keys are matched, and the following "ArrowDown" resets it.  The code typed from index 0
is detected, with or without the "Arrow" prefix and in any case, and the index stays in
`0..9` after every key, so the array read is always defined. -/
theorem konami_extra_up_not_detected :
    (extraUpKeys.drop 1 = konamiCode ∧ extraUpKeys.length = 11 ∧
      keydowns extraUpKeys konamiStart = some { konamiIndex := 0, activations := 0 }) ∧
    keydowns konamiCode konamiStart = some { konamiIndex := 0, activations := 1 } ∧
    keydowns ["Up", "UP", "down", "ArrowDown", "Left", "Right", "left", "right", "B", "A"]
        konamiStart = some { konamiIndex := 0, activations := 1 } ∧
    (∀ keys : List String, ∃ s, keydowns keys konamiStart = some s ∧ s.konamiIndex < 10) := by
  refine ⟨⟨by decide, by decide, by decide⟩, by decide, by decide, fun keys => ?_⟩
  exact keydowns_index keys konamiStart (by decide)

/-- C21: the theme value starts at 1 if the stored theme is "light" and at 0 otherwise;
`updateTheme(isLight)` starts a tween of 1.5 seconds towards 1 if `isLight` and towards 0
otherwise, leaving the value as it is; with an ease that maps `[0, 1]` into `[0, 1]` and
1 to 1, the value is in `[0, 1]` after every prefix of any sequence of calls and
updates with time steps `>= 0`, and so is every value that any tween writes during an
update from there; and once the updates after a call add up to 1.5 seconds
the value is the target of that call and no tween is running, whatever happened before
the call, in particular when a call for the other theme came immediately before it. -/
theorem theme_value_tween (ease : ℝ → ℝ)
    (hease : ∀ p, 0 ≤ p → p ≤ 1 → 0 ≤ ease p ∧ ease p ≤ 1) (hease1 : ease 1 = 1)
    (stored : Option String) (events : List (ThemeEvent ℝ))
    (hdt : ∀ dt, ThemeEvent.tick dt ∈ events → 0 ≤ dt) :
    (initialTheme stored : ThemeState ℝ).val = (if stored = some "light" then 1 else 0) ∧
    (initialTheme stored : ThemeState ℝ).tweens = [] ∧
    (∀ (isLight : Bool) (s : ThemeState ℝ),
      (updateTheme isLight s).val = s.val ∧
      (updateTheme isLight s).tweens =
        s.tweens ++ [{ target := if isLight then 1 else 0, start := none, elapsed := 0 }]) ∧
    (∀ n, 0 ≤ (runTheme ease (events.take n) (initialTheme stored)).val ∧
      (runTheme ease (events.take n) (initialTheme stored)).val ≤ 1) ∧
    (∀ n (dt : ℝ), 0 ≤ dt →
      ∀ v ∈ renderWrites ease dt (runTheme ease (events.take n) (initialTheme stored)).tweens
          (runTheme ease (events.take n) (initialTheme stored)).val, 0 ≤ v ∧ v ≤ 1) ∧
    (∀ (isLight : Bool) (dts : List ℝ), 1.5 ≤ dts.sum →
      (runTheme ease (events ++ ThemeEvent.call isLight :: dts.map ThemeEvent.tick)
        (initialTheme stored)).val = (if isLight then 1 else 0) ∧
      (runTheme ease (events ++ ThemeEvent.call isLight :: dts.map ThemeEvent.tick)
        (initialTheme stored)).tweens = []) ∧
    (∀ (dts : List ℝ), 1.5 ≤ dts.sum →
      (runTheme ease
        (events ++ ThemeEvent.call true :: ThemeEvent.call false :: dts.map ThemeEvent.tick)
        (initialTheme stored)).val = 0) := by
  have hsettle : ∀ (evs : List (ThemeEvent ℝ)), (∀ dt, ThemeEvent.tick dt ∈ evs → 0 ≤ dt) →
      ∀ (isLight : Bool) (dts : List ℝ), 1.5 ≤ dts.sum →
      (runTheme ease (evs ++ ThemeEvent.call isLight :: dts.map ThemeEvent.tick)
        (initialTheme stored)).val = (if isLight then 1 else 0) ∧
      (runTheme ease (evs ++ ThemeEvent.call isLight :: dts.map ThemeEvent.tick)
        (initialTheme stored)).tweens = [] := by
    intro evs hevs isLight dts hsum
    rw [runTheme_append]
    have hr := runTheme_range ease hease evs (initialTheme stored) hevs
      (initialTheme_range stored)
    have hp := updateTheme_pending isLight _ hr
    exact ticks_settle ease hease1 dts _ _ 0 hp (by linarith)
  have hrange : ∀ n, ThemeInRange (runTheme ease (events.take n) (initialTheme stored)) :=
    fun n => runTheme_range ease hease (events.take n) (initialTheme stored)
      (fun dt hm => hdt dt (List.mem_of_mem_take hm)) (initialTheme_range stored)
  refine ⟨rfl, rfl, fun _ _ => ⟨rfl, rfl⟩, fun n => (hrange n).1, fun n dt h0 => ?_,
    hsettle events hdt, fun dts hsum => ?_⟩
  · exact renderWrites_range ease hease dt h0 _ _ (hrange n).1 (hrange n).2
  · have h := (hsettle (events ++ [ThemeEvent.call true]) (fun dt hm => by
      rcases List.mem_append.mp hm with hm | hm
      · exact hdt dt hm
      · simp at hm) false dts hsum).1
    simpa [List.append_assoc] using h

theorem theme_value_tween_witness :
    (∀ p : ℝ, 0 ≤ p → p ≤ 1 → 0 ≤ power2InOut p ∧ power2InOut p ≤ 1) ∧
    power2InOut (1 : ℝ) = 1 ∧
    (∀ dt : ℝ, ThemeEvent.tick dt ∈ themeSession → 0 ≤ dt) ∧
    (runTheme power2InOut (themeSession ++ ThemeEvent.call true ::
      [(1 : ℝ), 0.5].map ThemeEvent.tick) (initialTheme none)).val = 1 :=
  have hdt : ∀ dt : ℝ, ThemeEvent.tick dt ∈ themeSession → 0 ≤ dt := by
    intro dt h
    simp only [themeSession, List.mem_cons, ThemeEvent.tick.injEq, List.mem_singleton,
      List.not_mem_nil, or_false, false_or, reduceCtorEq] at h
    rcases h with h | h <;> rw [h] <;> norm_num
  ⟨power2InOut_range, power2InOut_one, hdt,
    by simpa using ((theme_value_tween power2InOut power2InOut_range power2InOut_one none
      themeSession hdt).2.2.2.2.2.1 true [1, 0.5] (by norm_num)).1⟩

/-- C13: in every tick animate invokes the hover callback exactly once.  The scene is the
one built by addObjects followed by any spawns and completions, with any positions,
rotations and scales; the hits are any list of objects under the registry, as
`intersectObjects(this.planets, true)` returns them.  With no hit the one call is
`onHover(null)`; with a hit it is `onHover(name, position)` for the non-empty name and
the projected position of the node the ancestor walk ends on.  A hit always has a named
node on its chain, the registry element it lies under, so the case of a hit with no
named node, for which the block has no call, does not arise. -/
theorem hover_called_once (project : Vector3 ℝ → Vector3 ℝ) (sunType : String)
    (binary : Bool) (choice : Nat → PlanetChoice) (events : List Event)
    (pose : Nat → SceneNode ℝ) (intersects : List (SceneNode ℝ × List (SceneNode ℝ)))
    (hhits : ∀ hit ∈ intersects, ∃ k path above,
      registryHit pose (runEvents events (addObjects sunType binary choice emptyGraph))
        k path above = some hit) :
    (hoverCalls project intersects).length = 1 ∧
    (intersects = [] → hoverCalls project intersects = [HoverCall.null]) ∧
    (∀ hit rest, intersects = hit :: rest →
      (∃ n ∈ hit.1 :: hit.2, hasName n.name = true) ∧
      ∃ name, name ≠ "" ∧ (ancestorWalk hit.1 hit.2).1.name = some name ∧
        hoverCalls project intersects =
          [HoverCall.named name (project (ancestorWalk hit.1 hit.2).1.position)]) := by
  have hg : RegistryNamed (runEvents events (addObjects sunType binary choice emptyGraph)) :=
    runEvents_named events _
      (addObjects_named sunType binary choice emptyGraph (fun o ho => by
        simp [emptyGraph] at ho))
  have hcall : ∀ hit rest, intersects = hit :: rest →
      (∃ n ∈ hit.1 :: hit.2, hasName n.name = true) ∧
      ∃ name, name ≠ "" ∧ (ancestorWalk hit.1 hit.2).1.name = some name ∧
        hoverCalls project intersects =
          [HoverCall.named name (project (ancestorWalk hit.1 hit.2).1.position)] := by
    intro hit rest h
    obtain ⟨k, path, above, hk⟩ := hhits hit (by rw [h]; exact List.mem_cons_self _ _)
    have hn := registryHit_named pose _ hg k path above hit hk
    obtain ⟨name, e1, e2⟩ := hasName_some _ (ancestorWalk_named hit.1 hit.2 hn)
    refine ⟨hn, name, ?_, e1, ?_⟩
    · simpa using e2
    · rw [h]
      simp only [hoverCalls, e1, e2, if_true]
  refine ⟨?_, fun h => by rw [h]; rfl, hcall⟩
  cases hi : intersects with
  | nil => rfl
  | cons hit rest =>
    obtain ⟨-, name, -, -, e⟩ := hcall hit rest hi
    rw [← hi, e]; rfl

/-- C13 at a concrete input: the scene built for a "Yellow Dwarf" sun and the demo planet
choices, then a UFO spawned; the ray hits the sphere of the black hole (the first child of
the first registry element), whose parent chain is the black-hole group and the scene. -/
theorem hover_called_once_witness :
    (∀ hit ∈ [((meshNode : SceneNode ℝ),
          [{ (sceneRoot : SceneNode ℝ) with name := some "Gargantua" }, sceneRoot])],
      ∃ k path above,
        registryHit (fun _ => (sceneRoot : SceneNode ℝ))
          (runEvents [Event.spawn ActorKind.ufo]
            (addObjects "Yellow Dwarf" false demoChoice emptyGraph)) k path above = some hit) ∧
    hoverCalls id [((meshNode : SceneNode ℝ),
        [{ (sceneRoot : SceneNode ℝ) with name := some "Gargantua" }, sceneRoot])] =
      [HoverCall.named "Gargantua" ⟨0, 0, 0⟩] :=
  have hhits : ∀ hit ∈ [((meshNode : SceneNode ℝ),
        [{ (sceneRoot : SceneNode ℝ) with name := some "Gargantua" }, sceneRoot])],
      ∃ k path above,
        registryHit (fun _ => (sceneRoot : SceneNode ℝ))
          (runEvents [Event.spawn ActorKind.ufo]
            (addObjects "Yellow Dwarf" false demoChoice emptyGraph)) k path above =
          some hit := by
    intro hit h
    rw [List.mem_singleton] at h
    rw [h]
    exact ⟨0, [0], [sceneRoot], rfl⟩
  ⟨hhits, by
    obtain ⟨name, -, e1, e2⟩ := ((hover_called_once id "Yellow Dwarf" false demoChoice
      [Event.spawn ActorKind.ufo] (fun _ => sceneRoot) _ hhits).2.2 _ _ rfl).2
    have e3 : name = "Gargantua" := by
      have := e1
      simp [ancestorWalk, hasName, meshNode, sceneRoot] at this
      exact this.symm
    rw [e2, e3]
    simp [ancestorWalk, hasName, meshNode, sceneRoot]⟩

end Portfolio
